import Mathlib

/-!
# The request object of the service-invocation layer (XrdSsiFileReq.cc)

A shallow embedding of `XrdSsiFileReq`: the per-request state machine
(`urState`, `myState`), the pull loop (`Read`, `readStrmA`, `readStrmP`), the
push path (`Send`, `sendStrmA`), the deferred wake-up (`WantResponse`, `Done`,
`WakeUp`) and the request pool (`Alloc`, `Recycle`). The namespace
`XrdPosixXrootPath` embeds the path mapper of XrdPosixXrootdPath.cc (`P2L`,
`URL`, `CWD`).

Conventions of the embedding.

* Pointers are `Option` values (`none` is the null pointer); the finalize
  semaphore pointer `finWait` is a `Bool` (set / not set).
* The intrusive free list `freeReq -> nextReq -> ...` is a `List` of request
  records, so the `nextReq` link is the list structure itself.
* Calls that leave the object (scheduler, session, callbacks, log, buffer
  release, semaphore) are recorded, in call order, in the `log` of the `World`.
* `int`/`long long` quantities are `Int`; the byte counts handled here are
  bounded by the caller's buffer length or by the length of an envelope, so no
  operation leaves the 32-bit range.
* `fileSz` and `respLen` share storage in the class declaration (which is why
  `Init` clears both with one store); they are kept as two fields here, each
  used by its own envelope variant.
* A `bool &done` out-parameter is threaded: `Read` receives the caller's
  current value and returns the value after the call.
-/

namespace XrdSsiFileReq

/-- One byte of payload. -/
abbrev Byte := Nat

/-- The value `SFS_ERROR` of the file-system interface. -/
def SFS_ERROR : Int := -1

/-- The errno value of an input/output error. -/
def EIO : Int := 5

/-- The errno value `EFAULT`. -/
def EFAULT : Int := 14

/-- The errno value `ENOMSG`. -/
def ENOMSG : Int := 42

/-- The errno value `EOVERFLOW`. -/
def EOVERFLOW : Int := 75

/-- The values of `urState` (the spec's RequestState). -/
inductive rspState where
  | isNew
  | isBegun
  | isBound
  | isAbort
  | isDone
  deriving DecidableEq, Repr

/-- The values of `myState` (the spec's ResponseState). -/
inductive reqState where
  | wtReq
  | xqReq
  | wtRsp
  | doRsp
  | odRsp
  | erRsp
  deriving DecidableEq, Repr

/-- An error description (`XrdSsiErrInfo`): number and text, `""` for no text. -/
structure XrdSsiErrInfo where
  eNum : Int
  eMsg : String
  deriving DecidableEq, Repr

/-- One answer of an active stream's `GetBuff`: the buffer handed back (its
data, whose length is the value left in the length argument; `none` for a null
return), the value left in the end-of-stream argument, and what the producer
stored in the error object, if anything. -/
structure GetBuffOut where
  buf : Option (List Byte)
  last : Bool
  err : Option XrdSsiErrInfo
  deriving DecidableEq, Repr

/-- One answer of a passive stream's `SetBuff`: the returned length, the bytes
it stored in the caller's buffer, the value left in the end-of-stream argument
and what it stored in the error object, if anything. -/
structure SetBuffOut where
  dlen : Int
  data : List Byte
  last : Bool
  err : Option XrdSsiErrInfo
  deriving DecidableEq, Repr

/-- The two kinds of stream. -/
inductive StreamType where
  | isActive
  | isPassive
  deriving DecidableEq, Repr

/-- A stream producer: its kind and the answers it will give to the successive
`GetBuff` / `SetBuff` calls. Once the answers are used up an active stream
returns null with end-of-stream set and a passive stream returns 0. -/
structure XrdSsiStream where
  sType : StreamType
  getBuff : List GetBuffOut
  setBuff : List SetBuffOut
  deriving DecidableEq, Repr

/-- The response envelope (`XrdSsiRespInfo`), by `rType`. The length `blen` of a
data response is the length of its view. -/
inductive XrdSsiRespInfo where
  | isNone
  | isData (buff : List Byte)
  | isError (eNum : Int) (eMsg : String)
  | isFile (fdnum : Int) (fsize : Int)
  | isStream (strmP : XrdSsiStream)
  deriving DecidableEq, Repr

/-- The fields of one request object, with the `Resp` member of its base
class. -/
structure Req where
  tident : Option String
  sessN : String
  finWait : Bool
  cbInfo : Option Nat
  respCB : Option Nat
  respCBarg : Int
  sessP : Option Nat
  oucBuff : Option Nat
  sfsBref : Option Nat
  strBuff : Option (List Byte)
  reqSize : Int
  respOff : Int
  respLen : Int
  fileSz : Int
  myState : reqState
  urState : rspState
  rID : String
  reqID : Int
  schedDone : Bool
  respWait : Bool
  strmEOF : Bool
  Resp : XrdSsiRespInfo
  deriving DecidableEq, Repr

/-- The static members: the free list and its counters. -/
structure Pool where
  freeReq : List Req
  freeCnt : Int
  freeMax : Int
  deriving DecidableEq, Repr

/-- One answer of `pread`: the return value, the `errno` it leaves and the
bytes it stored. -/
structure PreadOut where
  nbytes : Int
  errno : Int
  data : List Byte
  deriving DecidableEq, Repr

/-- The record filled in by `WakeInfo`. -/
structure XrdSsiRRInfo where
  Id : Int
  Size : Int
  deriving DecidableEq, Repr

/-- What the second segment of a `SendFile` vector points at (the union of
`buffer` and `offset`): nothing yet, memory at `base + off`, the request's
`rID` text, or a file offset. -/
inductive SfData where
  | unset
  | mem (base : List Byte) (off : Int)
  | rID
  | fileOff (offset : Int)
  deriving DecidableEq, Repr

/-- The second segment of the `SendFile` vector (`sfVec[1]`); `fdnum` is `none`
while it has not been assigned. -/
structure XrdOucSFVec where
  data : SfData
  sendsz : Int
  fdnum : Option Int
  deriving DecidableEq, Repr

/-- A call that leaves the request object. -/
inductive Effect where
  | Schedule
  | ProcessRequest (sessP : Option Nat)
  | Finished (cancel : Bool)
  | WakeUp (respCB : Option Nat) (respCBarg : Int) (rdy : XrdSsiRRInfo)
  | Post
  | Wait
  | LogEmsg (epname : String) (msg : String)
  | setErrInfo (cbInfo : Option Nat) (code : Int) (msg : String)
  | oucRecycle (b : Nat)
  | sfsRecycle (b : Nat)
  | strRecycle
  | Recycle (kept : Bool)
  | pread (fdnum : Int) (blen : Int) (offset : Int)
  | SendFile (v : XrdOucSFVec)
  deriving DecidableEq, Repr

/-- The request (`this`), the environment it runs in (the scheduler's count of
queued runs of this job, the answers `pread` will give) and the calls made so
far. -/
structure World where
  req : Req
  pool : Pool
  jobs : Nat
  preads : List PreadOut
  log : List Effect
  deriving DecidableEq, Repr

/-- What one `Read` hands back: the return value, the `done` flag after the
call and the bytes stored in the caller's buffer, in order. -/
structure ReadOut where
  ret : Int
  done : Bool
  buff : List Byte
  deriving DecidableEq, Repr

/-- Record a call. -/
def emit (w : World) (e : Effect) : World :=
  { w with log := w.log ++ [e] }

/-- The call `Sched->Schedule(this)`: one more queued run of the job. -/
def Schedule (w : World) : World :=
  emit { w with jobs := w.jobs + 1 } Effect.Schedule

/-- The conversion `static_cast<int>` of a 64-bit value. -/
def toInt32 (x : Int) : Int := (x + 2147483648) % 4294967296 - 2147483648

/-- `memcpy(buff, src+off, n)`: the bytes copied. -/
def memcpy (src : List Byte) (off n : Int) : List Byte :=
  (src.drop off.toNat).take n.toNat

/-- The text produced by `XrdOucERoute::Format` (external). -/
def Format (ecode : Int) (op : String) (sessN : String) : String :=
  "Unable to " ++ op ++ " " ++ sessN ++ "; errno " ++ toString ecode

/-- The first `Emsg` overload (error code). -/
def Emsg (w : World) (pfx : String) (ecode : Int) (op : String) : Int × World :=
  let ecode := if ecode < 0 then -ecode else ecode
  let buffer := Format ecode op w.req.sessN
  let w := emit w (Effect.LogEmsg pfx buffer)
  let w := match w.req.cbInfo with
    | some c => emit w (Effect.setErrInfo (some c) ecode buffer)
    | none => w
  (SFS_ERROR, w)

/-- The second `Emsg` overload (error object). -/
def EmsgObj (w : World) (pfx : String) (eObj : XrdSsiErrInfo) (op : String) : Int × World :=
  let eNum := if eObj.eNum <= 0 then EFAULT else eObj.eNum
  let eMsg := if eObj.eMsg = "" then "reason unknown" else eObj.eMsg
  let buffer := "Unable to " ++ op ++ " " ++ w.req.sessN ++ "; " ++ eMsg
  let w := emit w (Effect.LogEmsg pfx buffer)
  let w := match w.req.cbInfo with
    | some c => emit w (Effect.setErrInfo (some c) eNum buffer)
    | none => w
  (SFS_ERROR, w)

/-- The function `WakeInfo`: `Id` then `Size`, by envelope variant. The mask
test `fileSz & 0xffffffff80000000` is non-zero exactly when `fileSz` is outside
`[0, 2^31)`. -/
def WakeInfo (r : Req) (rdyInfo : XrdSsiRRInfo) : XrdSsiRRInfo :=
  let rdyInfo := { rdyInfo with Id := r.reqID }
  match r.Resp with
  | XrdSsiRespInfo.isData _ => { rdyInfo with Size := r.respLen }
  | XrdSsiRespInfo.isError _ _ => { rdyInfo with Size := -1 }
  | XrdSsiRespInfo.isFile _ _ =>
    let rdyInfo := if r.fileSz < 0 ∨ 2147483648 ≤ r.fileSz then { rdyInfo with Size := 0 } else rdyInfo
    { rdyInfo with Size := toInt32 r.fileSz }
  | XrdSsiRespInfo.isStream _ => { rdyInfo with Size := 0 }
  | XrdSsiRespInfo.isNone => { rdyInfo with Size := -2 }

/-- The function `WakeUp`: build the ready record, call the stored callback,
clear `respWait`. -/
def WakeUp (w : World) : World :=
  let rdy := WakeInfo w.req { Id := 0, Size := 0 }
  let w := emit w (Effect.WakeUp w.req.respCB w.req.respCBarg rdy)
  { w with req := { w.req with respWait := false } }

/-- The function `Activate`. -/
def Activate (w : World) (oP bR : Option Nat) (rSz : Int) : World :=
  Schedule { w with req := { w.req with oucBuff := oP, sfsBref := bR, reqSize := rSz } }

/-- The function `Init`. -/
def Init (r : Req) (cID : Option String) : Req :=
  { r with
    tident := some (cID.getD "???")
    finWait := false
    cbInfo := none
    respCB := none
    respCBarg := 0
    sessN := "???"
    sessP := none
    oucBuff := none
    sfsBref := none
    strBuff := none
    reqSize := 0
    respOff := 0
    fileSz := 0
    respLen := 0
    myState := reqState.wtReq
    urState := rspState.isNew
    rID := ""
    schedDone := false
    respWait := false
    strmEOF := false }

/-- Storage before the constructor runs. -/
def rawReq : Req :=
  { tident := none, sessN := "", finWait := false, cbInfo := none, respCB := none,
    respCBarg := 0, sessP := none, oucBuff := none, sfsBref := none, strBuff := none,
    reqSize := 0, respOff := 0, respLen := 0, fileSz := 0, myState := reqState.wtReq,
    urState := rspState.isNew, rID := "", reqID := 0, schedDone := false,
    respWait := false, strmEOF := false, Resp := XrdSsiRespInfo.isNone }

/-- Modelled from the spec: the constructor `XrdSsiFileReq(cID)` is declared in
the class header, which is not among the sources; a fresh request has all its
fields initialised as `Init` does ("allocate fresh; reinitialize all fields"). -/
def newReq (cID : Option String) : Req := Init rawReq cID

/-- The function `Alloc`: take the head of the free list if there is one, else
construct a request; then bind it to its session and identity. -/
def Alloc (p : Pool) (eiP : Option Nat) (sP : Option Nat) (sID : String)
    (cID : Option String) (rnum : Int) : Req × Pool :=
  let got : Req × Pool := match p.freeReq with
    | nP :: rest => (Init nP cID, { p with freeCnt := p.freeCnt - 1, freeReq := rest })
    | [] => (newReq cID, p)
  ({ got.1 with sessN := sID, sessP := sP, cbInfo := eiP, reqID := rnum,
                rID := toString rnum ++ ":" }, got.2)

/-- The buffer release with which `Recycle` and `RelRequestBuffer` both start:
the `oucBuff` if there is one, otherwise the `sfsBref` if there is one; then
`reqSize = 0`. -/
def relBuff (w : World) : World :=
  let w := match w.req.oucBuff, w.req.sfsBref with
    | some b, _ => emit { w with req := { w.req with oucBuff := none } } (Effect.oucRecycle b)
    | none, some b => emit { w with req := { w.req with sfsBref := none } } (Effect.sfsRecycle b)
    | none, none => w
  { w with req := { w.req with reqSize := 0 } }

/-- The function `Recycle`: release the request buffer, drop the identity, then
keep the object on the free list unless `freeCnt >= freeMax`. -/
def Recycle (w : World) : World :=
  let w := relBuff w
  let w := { w with req := { w.req with tident := none } }
  if w.pool.freeCnt ≥ w.pool.freeMax then emit w (Effect.Recycle false)
  else
    emit { w with pool := { w.pool with freeReq := w.req :: w.pool.freeReq,
                                         freeCnt := w.pool.freeCnt + 1 } }
      (Effect.Recycle true)

/-- The function `RelRequestBuffer`. -/
def RelRequestBuffer (w : World) : World := relBuff w

/-- The text logged for a state that the operation does not list. -/
def invalidState : String := "Invalid req/rsp state; giving up on object!"

/-- The function `BindDone`. -/
def BindDone (w : World) : World :=
  match w.req.urState with
  | rspState.isBegun => { w with req := { w.req with urState := rspState.isBound } }
  | rspState.isBound => w
  | rspState.isDone =>
    if !w.req.schedDone then Schedule { w with req := { w.req with schedDone := true } }
    else w
  | _ => emit w (Effect.LogEmsg "BindDone" invalidState)

/-- The function `DoIt`. -/
def DoIt (w : World) : World :=
  match w.req.urState with
  | rspState.isNew =>
    let w := { w with req := { w.req with myState := reqState.xqReq, urState := rspState.isBegun } }
    emit w (Effect.ProcessRequest w.req.sessP)
  | rspState.isAbort => Recycle w
  | rspState.isDone =>
    let cancel := decide (w.req.myState ≠ reqState.odRsp)
    let w := emit w (Effect.Finished cancel)
    let w := if w.req.respWait then WakeUp w else w
    let w := if w.req.finWait then emit w Effect.Post else w
    Recycle w
  | _ => emit w (Effect.LogEmsg "DoIt" invalidState)

/-- The function `Done`. -/
def Done (w : World) : World :=
  match w.req.Resp with
  | XrdSsiRespInfo.isNone => { w with req := { w.req with respWait := true } }
  | _ => WakeUp w

/-- The function `Finalize`. The five listed cases are all the values of
`urState`. In the `isBegun` case the caller then blocks in `Wait` until the
semaphore is posted. -/
def Finalize (w : World) : World :=
  let cancel := decide (w.req.myState ≠ reqState.odRsp)
  match w.req.urState with
  | rspState.isNew =>
    { w with req := { w.req with urState := rspState.isAbort, cbInfo := none, sessN := "???" } }
  | rspState.isBegun =>
    emit { w with req := { w.req with urState := rspState.isDone, finWait := true } } Effect.Wait
  | rspState.isBound =>
    let w := match w.req.strBuff with
      | some _ => emit { w with req := { w.req with strBuff := none } } Effect.strRecycle
      | none => w
    let w := emit w (Effect.Finished cancel)
    let w := if w.req.respWait then WakeUp w else w
    Recycle w
  | rspState.isAbort => w
  | rspState.isDone => w

/-- The function `ProcessResponse`. -/
def ProcessResponse (w : World) (Resp : XrdSsiRespInfo) : Bool × World :=
  if w.req.urState ≠ rspState.isBegun ∧ w.req.urState ≠ rspState.isBound then (false, w)
  else
    let w := { w with req := { w.req with myState := reqState.doRsp, respOff := 0 } }
    let wake := fun (w : World) => if w.req.respWait then WakeUp w else w
    match Resp with
    | XrdSsiRespInfo.isData buff =>
      (true, wake { w with req := { w.req with respLen := buff.length } })
    | XrdSsiRespInfo.isError _ _ =>
      (true, wake { w with req := { w.req with respLen := 0 } })
    | XrdSsiRespInfo.isFile _ fsize =>
      (true, wake { w with req := { w.req with fileSz := fsize, respOff := 0 } })
    | XrdSsiRespInfo.isStream _ =>
      (true, wake { w with req := { w.req with respLen := 0 } })
    | XrdSsiRespInfo.isNone => (false, w)

/-- The function `WantResponse`. -/
def WantResponse (w : World) (rCB : Option Nat) (rArg : Int) : Bool × World :=
  if w.req.myState = reqState.doRsp then (true, w)
  else (false, { w with req := { w.req with respCB := rCB, respCBarg := rArg, respWait := false } })

/-- The local variables of a stream read, with the world: the space left in
the caller's buffer, the bytes stored so far and their count, the value the
last `SetBuff` returned, the error object, whether the loop was left through
the `return` inside it, and the answers the producer has still to give. -/
structure StrmLoop (α : Type) where
  w : World
  blen : Int
  xlen : Int
  dlen : Int
  out : List Byte
  eObj : XrdSsiErrInfo
  returned : Bool
  rest : List α

/-- Store the remaining answers of the stream behind `Resp.strmP`. -/
def setGetBuff (w : World) (script : List GetBuffOut) : World :=
  match w.req.Resp with
  | XrdSsiRespInfo.isStream s =>
    { w with req := { w.req with Resp := XrdSsiRespInfo.isStream { s with getBuff := script } } }
  | _ => w

/-- Store the remaining answers of the passive stream behind `Resp.strmP`. -/
def setSetBuff (w : World) (script : List SetBuffOut) : World :=
  match w.req.Resp with
  | XrdSsiRespInfo.isStream s =>
    { w with req := { w.req with Resp := XrdSsiRespInfo.isStream { s with setBuff := script } } }
  | _ => w

/-- The block `if (strBuff) {...}` of `readStrmA`: copy from the held chunk;
either the caller's buffer is full (`return xlen+blen`) or the chunk is drained
and released. -/
def heldBlock (l : StrmLoop GetBuffOut) : StrmLoop GetBuffOut :=
  match l.w.req.strBuff with
  | some data =>
    if l.w.req.respLen > l.blen then
      { l with
        out := l.out ++ memcpy data l.w.req.respOff l.blen
        w := { l.w with req := { l.w.req with respLen := l.w.req.respLen - l.blen,
                                               respOff := l.w.req.respOff + l.blen } }
        xlen := l.xlen + l.blen
        returned := true }
    else
      { l with
        out := l.out ++ memcpy data l.w.req.respOff l.w.req.respLen
        xlen := l.xlen + l.w.req.respLen
        w := emit { l.w with req := { l.w.req with strBuff := none } } Effect.strRecycle
        blen := l.blen - l.w.req.respLen }
  | none => l

/-- The statements `respLen = blen; respOff = 0; strBuff = GetBuff(eObj, respLen,
strmEOF)` of `readStrmA`, for the answer `a` of the producer. -/
def getBuffCall (l : StrmLoop GetBuffOut) (a : GetBuffOut) : StrmLoop GetBuffOut :=
  { l with
    eObj := a.err.getD l.eObj
    w := { l.w with req := { l.w.req with
             respOff := 0
             respLen := match a.buf with
               | some d => (d.length : Int)
               | none => l.blen
             strBuff := a.buf
             strmEOF := a.last } } }

/-- The `do ... while(strBuff)` loop of `readStrmA`, one iteration per unfolding;
`script` holds the answers `GetBuff` has still to give. An iteration is repeated
only after a `GetBuff` call that returned a buffer. -/
def readStrmA_loop : List GetBuffOut → StrmLoop GetBuffOut → StrmLoop GetBuffOut
  | script, l =>
    let l := heldBlock l
    if l.returned then { l with rest := script }
    else if !l.w.req.strmEOF && l.blen != 0 then
      match script with
      | [] => { getBuffCall l { buf := none, last := true, err := none } with rest := [] }
      | a :: rest =>
        let l := getBuffCall l a
        if l.w.req.strBuff.isSome then readStrmA_loop rest l else { l with rest := rest }
    else { l with rest := script }

/-- The function `readStrmA`: the return value, the bytes stored, the world. -/
def readStrmA (w : World) (strmP : XrdSsiStream) (blen : Int) : Int × List Byte × World :=
  let l := readStrmA_loop strmP.getBuff
    { w := w, blen := blen, xlen := 0, dlen := 0, out := [], eObj := { eNum := 0, eMsg := "" },
      returned := false, rest := [] }
  let w := setGetBuff l.w l.rest
  if l.returned then (l.xlen, l.out, w)
  else if w.req.strmEOF then
    (l.xlen, l.out, { w with req := { w.req with myState := reqState.odRsp } })
  else if l.blen = 0 then (l.xlen, l.out, w)
  else
    let w := { w with req := { w.req with myState := reqState.erRsp, strmEOF := true } }
    let (rc, w) := EmsgObj w "readStrmA" l.eObj "read stream"
    (rc, l.out, w)

/-- The `while` loop of `readStrmP`, one `SetBuff` call per unfolding. -/
def readStrmP_loop : List SetBuffOut → StrmLoop SetBuffOut → StrmLoop SetBuffOut
  | script, l =>
    if l.w.req.strmEOF then { l with rest := script }
    else
      match script with
      | [] => { l with dlen := 0, rest := [] }
      | a :: rest =>
        let l : StrmLoop SetBuffOut := { l with
          eObj := a.err.getD l.eObj
          w := { l.w with req := { l.w.req with strmEOF := a.last } }
          dlen := a.dlen }
        if l.dlen > 0 then
          let l : StrmLoop SetBuffOut := { l with xlen := l.xlen + l.dlen, out := l.out ++ a.data }
          if l.dlen = l.blen then { l with returned := true, rest := rest }
          else if l.dlen > l.blen then
            { l with eObj := { eNum := EOVERFLOW, eMsg := "" }, rest := rest }
          else readStrmP_loop rest { l with blen := l.blen - l.dlen }
        else { l with rest := rest }

/-- The function `readStrmP`: the return value, the bytes stored, the world. -/
def readStrmP (w : World) (strmP : XrdSsiStream) (blen : Int) : Int × List Byte × World :=
  let l := readStrmP_loop strmP.setBuff
    { w := w, blen := blen, xlen := 0, dlen := 0, out := [], eObj := { eNum := 0, eMsg := "" },
      returned := false, rest := [] }
  let w := setSetBuff l.w l.rest
  if l.returned then (l.xlen, l.out, w)
  else if w.req.strmEOF ∨ l.dlen = 0 then
    (l.xlen, l.out, { w with req := { w.req with myState := reqState.odRsp, strmEOF := true } })
  else
    let w := { w with req := { w.req with myState := reqState.erRsp, strmEOF := true } }
    let (rc, w) := EmsgObj w "readStrmP" l.eObj "read stream"
    (rc, l.out, w)

/-- The call `pread(fdnum, buff, blen, offset)`: the call is recorded and the
next answer of the file taken; 0 once the answers are used up. -/
def pread (w : World) (fdnum blen offset : Int) : PreadOut × World :=
  let w := emit w (Effect.pread fdnum blen offset)
  match w.preads with
  | a :: rest => (a, { w with preads := rest })
  | [] => ({ nbytes := 0, errno := 0, data := [] }, w)

/-- The function `Read`; `done` is the caller's flag before the call. -/
def Read (w : World) (done : Bool) (blen : Int) : ReadOut × World :=
  if w.req.myState ≠ reqState.doRsp then
    if w.req.myState = reqState.odRsp then ({ ret := 0, done := true, buff := [] }, w)
    else
      let (rc, w) := Emsg w "read" ENOMSG "read"
      ({ ret := rc, done := true, buff := [] }, w)
  else
    match w.req.Resp with
    | XrdSsiRespInfo.isData buff =>
      if w.req.respLen ≤ 0 then
        ({ ret := 0, done := true, buff := [] },
         { w with req := { w.req with myState := reqState.odRsp } })
      else if blen ≥ w.req.respLen then
        ({ ret := w.req.respLen, done := true, buff := memcpy buff w.req.respOff w.req.respLen },
         { w with req := { w.req with myState := reqState.odRsp } })
      else
        ({ ret := blen, done := done, buff := memcpy buff w.req.respOff blen },
         { w with req := { w.req with respLen := w.req.respLen - blen,
                                       respOff := w.req.respOff + blen } })
    | XrdSsiRespInfo.isError eNum eMsg =>
      let w := emit w (Effect.setErrInfo w.req.cbInfo eNum eMsg)
      ({ ret := SFS_ERROR, done := true, buff := [] },
       { w with req := { w.req with myState := reqState.odRsp } })
    | XrdSsiRespInfo.isFile fdnum _ =>
      if w.req.fileSz ≤ 0 then
        ({ ret := 0, done := true, buff := [] },
         { w with req := { w.req with myState := reqState.odRsp } })
      else
        let (p, w) := pread w fdnum blen w.req.respOff
        if p.nbytes ≤ 0 then
          if p.nbytes = 0 then
            ({ ret := 0, done := true, buff := [] },
             { w with req := { w.req with myState := reqState.odRsp } })
          else
            let w := { w with req := { w.req with myState := reqState.erRsp } }
            let (rc, w) := Emsg w "read" p.errno "read"
            ({ ret := rc, done := true, buff := [] }, w)
        else
          ({ ret := p.nbytes, done := done, buff := p.data },
           { w with req := { w.req with respOff := w.req.respOff + p.nbytes,
                                         fileSz := w.req.fileSz - p.nbytes } })
    | XrdSsiRespInfo.isStream strmP =>
      let (nbytes, out, w) :=
        if strmP.sType = StreamType.isActive then readStrmA w strmP blen
        else readStrmP w strmP blen
      ({ ret := nbytes, done := w.req.strmEOF && w.req.strBuff.isNone, buff := out }, w)
    | XrdSsiRespInfo.isNone =>
      let w := { w with req := { w.req with myState := reqState.erRsp } }
      let (rc, w) := Emsg w "read" EFAULT "read"
      ({ ret := rc, done := true, buff := [] }, w)


/-- The part of `sendStrmA` taken when no chunk could be obtained: the state
is set to `odRsp` and `strmEOF` to true; the `Emsg` call that follows is
guarded by `!strmEOF`, tested after that assignment. -/
def sendStrmA_noBuff (w : World) (eObj : XrdSsiErrInfo) : Int × World :=
  let w := { w with req := { w.req with myState := reqState.odRsp, strmEOF := true } }
  let w := if !w.req.strmEOF then (EmsgObj w "sendStrmA" eObj "read stream").2 else w
  (1, w)

/-- The part of `sendStrmA` from "Complete the sendfile vector" on, with the
held chunk `data`; `sfDio` is what the sink's `SendFile` returns. -/
def sendStrmA_send (w : World) (data : List Byte) (sfDio : Int) (blen : Int) : Int × World :=
  let buffer := SfData.mem data w.req.respOff
  let sendsz := if w.req.respLen > blen then blen else w.req.respLen
  let w :=
    if w.req.respLen > blen then
      { w with req := { w.req with respLen := w.req.respLen - blen,
                                    respOff := w.req.respOff + blen } }
    else { w with req := { w.req with respLen := 0 } }
  let w := emit w (Effect.SendFile { data := buffer, sendsz := sendsz, fdnum := some (-1) })
  let rc := sfDio
  let w :=
    if w.req.strBuff.isSome && w.req.respLen == 0 then
      emit { w with req := { w.req with strBuff := none } } Effect.strRecycle
    else w
  if rc = 0 then ((if w.req.myState ≠ reqState.odRsp then 1 else 0), w)
  else
    let rc := if rc < 0 then EIO else EFAULT
    let w := { w with req := { w.req with myState := reqState.erRsp, strmEOF := true } }
    Emsg w "sendStrmA" rc "send"

/-- The function `sendStrmA`; `sfDio` is what the sink's `SendFile` returns if
it is called. -/
def sendStrmA (w : World) (strmP : XrdSsiStream) (sfDio : Int) (blen : Int) : Int × World :=
  match w.req.strBuff with
  | some data => sendStrmA_send w data sfDio blen
  | none =>
    let w := { w with req := { w.req with respLen := blen } }
    if w.req.strmEOF then sendStrmA_noBuff w { eNum := 0, eMsg := "" }
    else
      let a : GetBuffOut := strmP.getBuff.head?.getD { buf := none, last := true, err := none }
      let eObj := a.err.getD { eNum := 0, eMsg := "" }
      let w := setGetBuff
        { w with req := { w.req with
            respLen := match a.buf with
              | some d => (d.length : Int)
              | none => blen
            strBuff := a.buf
            strmEOF := a.last } } strmP.getBuff.tail
      match a.buf with
      | none => sendStrmA_noBuff w eObj
      | some data => sendStrmA_send { w with req := { w.req with respOff := 0 } } data sfDio blen

/-- The end of `Send` for a data or file response: a zero-length send carries
the `rID` text and ends the response; then `SendFile`, whose return value is
`sfDio`. -/
def Send_off (w : World) (v : XrdOucSFVec) (sfDio : Int) (blen : Int) : Int × World :=
  let v := if blen = 0 then { v with data := SfData.rID } else v
  let w := if blen = 0 then { w with req := { w.req with myState := reqState.odRsp } } else w
  let v := { v with sendsz := blen }
  let w := emit w (Effect.SendFile v)
  let rc := sfDio
  if rc = 0 then ((if w.req.myState ≠ reqState.odRsp then 1 else 0), w)
  else
    let rc := if rc < 0 then EIO else EFAULT
    let w := { w with req := { w.req with myState := reqState.erRsp } }
    Emsg w "send" rc "send"

/-- The function `Send`; `sfDio` is what the sink's `SendFile` returns if it is
called. The return value 1 is the continuation, 0 the end. -/
def Send (w : World) (sfDio : Int) (blen : Int) : Int × World :=
  let sfVec1 : XrdOucSFVec := { data := SfData.unset, sendsz := 0, fdnum := none }
  if w.req.myState ≠ reqState.doRsp then (1, w)
  else
    match w.req.Resp with
    | XrdSsiRespInfo.isData buff =>
      if blen > 0 then
        let v := { sfVec1 with data := SfData.mem buff w.req.respOff, fdnum := some (-1) }
        if blen > w.req.respLen then
          Send_off { w with req := { w.req with myState := reqState.odRsp } } v sfDio
            w.req.respLen
        else
          Send_off { w with req := { w.req with respLen := w.req.respLen - blen,
                                                 respOff := w.req.respOff + blen } } v sfDio blen
      else Send_off w sfVec1 sfDio 0
    | XrdSsiRespInfo.isError _ _ => (1, w)
    | XrdSsiRespInfo.isFile fdnum _ =>
      if w.req.fileSz > 0 then
        let v := { sfVec1 with data := SfData.fileOff w.req.respOff, fdnum := some fdnum }
        let w1 := if blen > w.req.fileSz then
            { w with req := { w.req with myState := reqState.odRsp } } else w
        let blen := if blen > w.req.fileSz then w.req.fileSz else blen
        Send_off { w1 with req := { w1.req with respOff := w1.req.respOff + blen,
                                                 fileSz := w1.req.fileSz - blen } } v sfDio blen
      else Send_off w sfVec1 sfDio 0
    | XrdSsiRespInfo.isStream strmP =>
      if strmP.sType = StreamType.isPassive then (1, w)
      else sendStrmA w strmP sfDio blen
    | XrdSsiRespInfo.isNone =>
      Emsg { w with req := { w.req with myState := reqState.erRsp } } "send" EFAULT "send"

/-- The bytes a memory segment of a `SendFile` vector hands to the sink. -/
def sfBytes (v : XrdOucSFVec) : List Byte :=
  match v.data with
  | SfData.mem base off => memcpy base off v.sendsz
  | _ => []

/-- Modelled from the spec: the responder's hand-over of an envelope (a member
of the base class, which is not among the sources) stores the envelope in
`Resp` and presents it to `ProcessResponse`. -/
def SetResponse (w : World) (r : XrdSsiRespInfo) : Bool × World :=
  ProcessResponse { w with req := { w.req with Resp := r } } r

/-- The calls the dispatcher, the session and the consumer make on one
request. -/
inductive Event where
  | Activate (oP bR : Option Nat) (rSz : Int)
  | DoIt
  | BindDone
  | SetResponse (r : XrdSsiRespInfo)
  | Read (blen : Int)
  | WantResponse (rCB : Option Nat) (rArg : Int)
  | Done
  | Finalize
  deriving DecidableEq, Repr

/-- Perform one call. A `DoIt` is a run of the job by the scheduler, which
takes it off the queue; a `Read` is issued with a cleared `done` flag. -/
def step (w : World) : Event → World
  | Event.Activate oP bR rSz => Activate w oP bR rSz
  | Event.DoIt => DoIt { w with jobs := w.jobs - 1 }
  | Event.BindDone => BindDone w
  | Event.SetResponse r => (SetResponse w r).2
  | Event.Read blen => (Read w false blen).2
  | Event.WantResponse rCB rArg => (WantResponse w rCB rArg).2
  | Event.Done => Done w
  | Event.Finalize => Finalize w

/-- Perform a sequence of calls, in order. -/
def run (w : World) (evs : List Event) : World := evs.foldl step w

/-- Successive `Read` calls with the given buffer lengths, each issued with a
cleared `done` flag: what each call handed back, with the world after it. -/
def readTrace : World → List Int → List (ReadOut × World)
  | _, [] => []
  | w, blen :: rest => Read w false blen :: readTrace (Read w false blen).2 rest

/-- The bytes handed back by a sequence of `Read` calls, in call order. -/
def bytesOf (t : List (ReadOut × World)) : List Byte := (t.map (fun x => x.1.buff)).flatten

/-- The pool before any request was recycled, with retention limit `freeMax`
(256 unless reconfigured). -/
def emptyPool (freeMax : Int) : Pool := { freeReq := [], freeCnt := 0, freeMax := freeMax }

/-- The world right after `Alloc` handed out a request (reused from the pool `p`
or newly constructed): no job queued, no call recorded yet. -/
def allocWorld (p : Pool) (eiP sP : Option Nat) (sID : String) (cID : Option String)
    (rnum : Int) (preads : List PreadOut) : World :=
  { req := (Alloc p eiP sP sID cID rnum).1
    pool := (Alloc p eiP sP sID cID rnum).2
    jobs := 0
    preads := preads
    log := [] }

/-- Whether the call is the end of `Recycle` (kept on the free list or
destroyed). -/
def Effect.isRecycle : Effect → Bool
  | Effect.Recycle _ => true
  | _ => false

/-- Whether the call is a wake-up callback. -/
def Effect.isWakeUp : Effect → Bool
  | Effect.WakeUp _ _ _ => true
  | _ => false

/-- Whether the call enters the session's `ProcessRequest`. -/
def Effect.isProcessRequest : Effect → Bool
  | Effect.ProcessRequest _ => true
  | _ => false

/-- Whether the call is `Finished`. -/
def Effect.isFinished : Effect → Bool
  | Effect.Finished _ => true
  | _ => false

/-- How many times `Recycle` ran. -/
def recycles (w : World) : Nat := w.log.countP Effect.isRecycle

/-- How many wake-up callbacks were made. -/
def wakeups (w : World) : Nat := w.log.countP Effect.isWakeUp

/-- How many times the session's `ProcessRequest` was entered. -/
def sessionCalls (w : World) : Nat := w.log.countP Effect.isProcessRequest

/-- How many times `Finished` was called. -/
def finishedCalls (w : World) : Nat := w.log.countP Effect.isFinished

/-- How many times the job was handed to the scheduler. -/
def schedules (w : World) : Nat := w.log.count Effect.Schedule

/-- How many times the finalize semaphore was posted. -/
def posts (w : World) : Nat := w.log.count Effect.Post

/-- How many times a caller went to wait on the finalize semaphore. -/
def waits (w : World) : Nat := w.log.count Effect.Wait

/-- The calls that matter to the life cycle of the request: every call except
log messages, error-object updates and stream-chunk releases. -/
def Effect.loud : Effect → Bool
  | Effect.LogEmsg _ _ => false
  | Effect.setErrInfo _ _ _ => false
  | Effect.strRecycle => false
  | Effect.pread _ _ _ => false
  | _ => true

/-- The part of the world that the pull loop never touches. -/
structure Ctl where
  urState : rspState
  schedDone : Bool
  finWait : Bool
  respWait : Bool
  respCB : Option Nat
  respCBarg : Int
  cbInfo : Option Nat
  sessP : Option Nat
  oucBuff : Option Nat
  sfsBref : Option Nat
  reqSize : Int
  jobs : Nat
  pool : Pool
  loud : List Effect

/-- The projection of a world onto `Ctl`. -/
def ctl (w : World) : Ctl :=
  { urState := w.req.urState, schedDone := w.req.schedDone, finWait := w.req.finWait,
    respWait := w.req.respWait, respCB := w.req.respCB, respCBarg := w.req.respCBarg,
    cbInfo := w.req.cbInfo, sessP := w.req.sessP,
    oucBuff := w.req.oucBuff, sfsBref := w.req.sfsBref, reqSize := w.req.reqSize,
    jobs := w.jobs, pool := w.pool, loud := w.log.filter Effect.loud }

/-- The calls `relBuff` makes. -/
def relEff (r : Req) : List Effect :=
  match r.oucBuff, r.sfsBref with
  | some b, _ => [Effect.oucRecycle b]
  | none, some b => [Effect.sfsRecycle b]
  | none, none => []


/-- The life-cycle state of a request and the counts of the calls that matter
to it. -/
structure Abs where
  urState : rspState
  schedDone : Bool
  finWait : Bool
  oucBuff : Option Nat
  sfsBref : Option Nat
  jobs : Nat
  recycles : Nat
  finished : Nat
  posts : Nat
  schedules : Nat
  sessionCalls : Nat
  waits : Nat
  deriving DecidableEq, Repr

/-- The life-cycle view of a world. -/
def abs (w : World) : Abs :=
  { urState := w.req.urState, schedDone := w.req.schedDone, finWait := w.req.finWait,
    oucBuff := w.req.oucBuff, sfsBref := w.req.sfsBref, jobs := w.jobs,
    recycles := recycles w, finished := finishedCalls w, posts := posts w,
    schedules := schedules w, sessionCalls := sessionCalls w, waits := waits w }

/-- The effect of `Recycle` on the life-cycle view. -/
def absRecycle (a : Abs) : Abs :=
  { a with oucBuff := none, sfsBref := if a.oucBuff.isSome then a.sfsBref else none,
           recycles := a.recycles + 1 }

/-- The effect of each call on the life-cycle view. -/
def absStep (a : Abs) : Event → Abs
  | Event.Activate oP bR _ =>
    { a with oucBuff := oP, sfsBref := bR, jobs := a.jobs + 1, schedules := a.schedules + 1 }
  | Event.DoIt =>
    let a := { a with jobs := a.jobs - 1 }
    match a.urState with
    | rspState.isNew => { a with urState := rspState.isBegun, sessionCalls := a.sessionCalls + 1 }
    | rspState.isAbort => absRecycle a
    | rspState.isDone =>
      absRecycle { a with finished := a.finished + 1,
                          posts := if a.finWait then a.posts + 1 else a.posts }
    | _ => a
  | Event.BindDone =>
    match a.urState with
    | rspState.isBegun => { a with urState := rspState.isBound }
    | rspState.isDone =>
      if a.schedDone then a
      else { a with schedDone := true, jobs := a.jobs + 1, schedules := a.schedules + 1 }
    | _ => a
  | Event.Finalize =>
    match a.urState with
    | rspState.isNew => { a with urState := rspState.isAbort }
    | rspState.isBegun => { a with urState := rspState.isDone, finWait := true, waits := a.waits + 1 }
    | rspState.isBound => absRecycle { a with finished := a.finished + 1 }
    | _ => a
  | _ => a

/-- Whether every `DoIt` of the sequence is a run the scheduler has in its
queue when it happens. -/
def scheduled : World → List Event → Bool
  | _, [] => true
  | w, e :: es => (e != Event.DoIt || decide (0 < w.jobs)) && scheduled (step w e) es

/-- How many `Finalize` calls of the sequence find the request bound. -/
def boundFinalizes : World → List Event → Nat
  | _, [] => 0
  | w, e :: es =>
    (if e = Event.Finalize ∧ w.req.urState = rspState.isBound then 1 else 0)
      + boundFinalizes (step w e) es

/-- Whether the call is one the session or the consumer makes between dispatch
and finalize: bind, envelope hand-over, read, and the deferred-wait calls. -/
def Event.isMid : Event → Bool
  | Event.BindDone => true
  | Event.SetResponse _ => true
  | Event.Read _ => true
  | Event.WantResponse _ _ => true
  | Event.Done => true
  | _ => false

/-- Whether the call is `Activate`. -/
def Event.isActivate : Event → Bool
  | Event.Activate _ _ _ => true
  | _ => false

/-- One operation on the pool: an `Alloc` with its arguments, or the `Recycle`
of a request. -/
inductive PoolOp where
  | alloc (eiP sP : Option Nat) (sID : String) (cID : Option String) (rnum : Int)
  | recycle (r : Req)

/-- The pool after one operation. -/
def poolStep (p : Pool) : PoolOp → Pool
  | PoolOp.alloc eiP sP sID cID rnum => (Alloc p eiP sP sID cID rnum).2
  | PoolOp.recycle r => (Recycle { req := r, pool := p, jobs := 0, preads := [], log := [] }).pool

/-- The life-cycle invariant of an activated request whose `DoIt` runs are the
scheduled ones; `bf` is the number of `Finalize` calls that found it bound. -/
def lifeInv (a : Abs) (bf : Nat) : Prop :=
  match a.urState with
  | rspState.isNew => a.jobs = 1 ∧ a.recycles = 0 ∧ a.schedDone = false ∧ bf = 0
  | rspState.isAbort => a.jobs + a.recycles = 1 ∧ a.schedDone = false ∧ bf = 0
  | rspState.isBegun => a.jobs = 0 ∧ a.recycles = 0 ∧ a.schedDone = false ∧ bf = 0
  | rspState.isBound => a.jobs = 0 ∧ a.recycles = bf ∧ a.schedDone = false
  | rspState.isDone =>
    a.jobs + a.recycles ≤ 1 ∧ (a.schedDone = false → a.jobs = 0 ∧ a.recycles = 0) ∧ bf = 0

/-- The calls of a request's life as the spec lists them: activation, dispatch,
then any calls of the session and the consumer (`mid`: bind, envelope
hand-over, reads, deferred-wait calls), then `Finalize`; when no bind had
happened by then, the bind and the scheduled run that follow it. -/
def lifeSeq (oP bR : Option Nat) (rSz : Int) (mid : List Event) : List Event :=
  Event.Activate oP bR rSz :: Event.DoIt :: mid ++ Event.Finalize ::
    (if Event.BindDone ∈ mid then [] else [Event.BindDone, Event.DoIt])

/-- An active stream whose producer has one chunk of three bytes to hand out. -/
def sampleStream : XrdSsiRespInfo :=
  XrdSsiRespInfo.isStream
    { sType := StreamType.isActive
      getBuff := [{ buf := some [1, 2, 3], last := false, err := none }]
      setBuff := [] }

/-- A passive stream whose first fill returns 0 bytes with end-of-stream
clear. -/
def samplePassive : XrdSsiRespInfo :=
  XrdSsiRespInfo.isStream
    { sType := StreamType.isPassive
      getBuff := []
      setBuff := [{ dlen := 0, data := [], last := false, err := none }] }

/-- A newly allocated request (session 2, error object 1, request number 7)
with an empty pool of limit 256. -/
def sampleWorld : World := allocWorld (emptyPool 256) (some 1) (some 2) "sess" (some "cid") 7 []

/-- The state of a data response that still has bytes to deliver: the cursor
and the remaining length add up to the length of the view. -/
def dataInv (data : List Byte) (w : World) : Prop :=
  w.req.myState = reqState.doRsp ∧ w.req.Resp = XrdSsiRespInfo.isData data ∧
  0 ≤ w.req.respOff ∧ w.req.respOff + w.req.respLen = data.length ∧ 0 < w.req.respLen

/-- The bytes of a data response still to deliver. -/
def dataPend (data : List Byte) (w : World) : List Byte := data.drop w.req.respOff.toNat

/-- The answers of an active-stream producer that yields the chunks `cs` and
then signals the end of the stream, either together with the last chunk
(`withLast`) or by a null return after it. -/
def chunkScript : List (List Byte) → Bool → List GetBuffOut
  | [], _ => [{ buf := none, last := true, err := none }]
  | c :: cs, withLast =>
    if cs.isEmpty && withLast then [{ buf := some c, last := true, err := none }]
    else { buf := some c, last := false, err := none } :: chunkScript cs withLast

/-- A producer that ends its stream properly: every answer but the last is a
buffer with end-of-stream clear, and the last answer sets end-of-stream. -/
def goodScript : List GetBuffOut → Prop
  | [] => False
  | [a] => a.last = true
  | a :: b :: rest => a.last = false ∧ a.buf.isSome = true ∧ goodScript (b :: rest)

/-- The bytes of the chunks a producer has still to hand out. -/
def scriptBytes (script : List GetBuffOut) : List Byte :=
  (script.map (fun a => a.buf.getD [])).flatten

/-- The number of chunks a producer has still to hand out. -/
def chunkCount (script : List GetBuffOut) : Nat := script.countP (fun a => a.buf.isSome)

/-- The answers the stream behind `Resp.strmP` has still to give. -/
def respScript (w : World) : List GetBuffOut :=
  match w.req.Resp with
  | XrdSsiRespInfo.isStream s => s.getBuff
  | _ => []

/-- The cursor and remaining length describe a suffix of the held chunk. -/
def heldOK (w : World) : Prop :=
  match w.req.strBuff with
  | none => True
  | some d => 0 ≤ w.req.respOff ∧ 0 ≤ w.req.respLen ∧ w.req.respOff + w.req.respLen = d.length

/-- The bytes of the held chunk not yet copied out. -/
def heldRem (w : World) : List Byte :=
  match w.req.strBuff with
  | none => []
  | some d => d.drop w.req.respOff.toNat

/-- The number of chunks held (0 or 1). -/
def heldCount (w : World) : Nat := if w.req.strBuff.isSome then 1 else 0

/-- How many stream chunks were released. -/
def strRecycles (w : World) : Nat := w.log.count Effect.strRecycle

/-- The bytes an active stream has still to deliver, seen from inside the copy
loop: the rest of the held chunk, then what the producer still has. -/
def loopPend (w : World) (script : List GetBuffOut) : List Byte :=
  heldRem w ++ (if w.req.strmEOF then [] else scriptBytes script)

/-- The state of an active-stream response between reads, while the response
is being produced: a held chunk has bytes left, the producer ends its stream
properly, and end-of-stream has been seen only if a chunk is still held. -/
def strmInv (w : World) : Prop :=
  w.req.myState = reqState.doRsp ∧
  (∃ s, w.req.Resp = XrdSsiRespInfo.isStream s ∧ s.sType = StreamType.isActive) ∧
  heldOK w ∧ (∀ d, w.req.strBuff = some d → 0 < w.req.respLen) ∧
  (w.req.strmEOF = false → goodScript (respScript w)) ∧
  (w.req.strmEOF = true → w.req.strBuff.isSome = true)

/-- The state of an active-stream response once it is exhausted. -/
def strmExh (w : World) : Prop :=
  w.req.myState = reqState.odRsp ∧ w.req.strmEOF = true ∧ w.req.strBuff = none

/-- The bytes an active stream has still to deliver. -/
def strmPend (w : World) : List Byte := loopPend w (respScript w)

/-- What the copy loop of `readStrmA` achieves from the state `l` with the
producer answers `script`, ending in `r`: the first `blen` pending bytes are
appended to the caller's buffer and counted, every chunk is still with the
producer, held or released, and the loop stops with a partly copied chunk
held, or at the end of the stream with nothing held, or with the buffer full
and nothing held. -/
def loopPost (script : List GetBuffOut) (l r : StrmLoop GetBuffOut) : Prop :=
  r.out = l.out ++ (loopPend l.w script).take l.blen.toNat ∧
  r.xlen = l.xlen + (((loopPend l.w script).take l.blen.toNat).length : Int) ∧
  r.w.req.myState = l.w.req.myState ∧ r.w.req.Resp = l.w.req.Resp ∧
  strRecycles r.w + heldCount r.w + chunkCount r.rest =
    strRecycles l.w + heldCount l.w + chunkCount script ∧
  ((r.returned = true ∧ (∃ d, r.w.req.strBuff = some d) ∧ heldOK r.w ∧ 0 < r.w.req.respLen ∧
      loopPend r.w r.rest = (loopPend l.w script).drop l.blen.toNat ∧
      (r.w.req.strmEOF = false → goodScript r.rest) ∧
      l.blen.toNat < (loopPend l.w script).length) ∨
   (r.returned = false ∧ r.w.req.strBuff = none ∧ r.w.req.strmEOF = true ∧
      (loopPend l.w script).length ≤ l.blen.toNat) ∨
   (r.returned = false ∧ r.w.req.strBuff = none ∧ r.w.req.strmEOF = false ∧ r.blen = 0 ∧
      goodScript r.rest ∧ scriptBytes r.rest = (loopPend l.w script).drop l.blen.toNat ∧
      l.blen.toNat ≤ (loopPend l.w script).length))

/-- The envelope of an active stream whose producer yields the chunks `cs` and
then signals the end of the stream (see `chunkScript`). -/
def activeStream (cs : List (List Byte)) (withLast : Bool) (sb : List SetBuffOut) :
    XrdSsiRespInfo :=
  XrdSsiRespInfo.isStream
    { sType := StreamType.isActive, getBuff := chunkScript cs withLast, setBuff := sb }

/-- The chunks of a stream that are with the producer, held or released. -/
def chunksSeen (w : World) : Nat := strRecycles w + heldCount w + chunkCount (respScript w)

/-- The calls the first `Emsg` overload makes on behalf of the request `r`: the
log message, and the error object update when `cbInfo` is set. -/
def emsgLog (r : Req) (pfx : String) (ecode : Int) (op : String) : List Effect :=
  Effect.LogEmsg pfx (Format (if ecode < 0 then -ecode else ecode) op r.sessN) ::
    (match r.cbInfo with
     | some c =>
       [Effect.setErrInfo (some c) (if ecode < 0 then -ecode else ecode)
          (Format (if ecode < 0 then -ecode else ecode) op r.sessN)]
     | none => [])

/-- The error number the second `Emsg` overload reports for an error object. -/
def objCode (e : XrdSsiErrInfo) : Int := if e.eNum ≤ 0 then EFAULT else e.eNum

/-- The text the second `Emsg` overload reports for an error object. -/
def objText (sessN : String) (op : String) (e : XrdSsiErrInfo) : String :=
  "Unable to " ++ op ++ " " ++ sessN ++ "; " ++ (if e.eMsg = "" then "reason unknown" else e.eMsg)

/-- The error object after the producer gave the `GetBuff` answers `script`. -/
def eObjAfterGet (script : List GetBuffOut) (e0 : XrdSsiErrInfo) : XrdSsiErrInfo :=
  script.foldl (fun e a => a.err.getD e) e0

/-- The error object after the producer gave the `SetBuff` answers `script`. -/
def eObjAfterSet (script : List SetBuffOut) (e0 : XrdSsiErrInfo) : XrdSsiErrInfo :=
  script.foldl (fun e a => a.err.getD e) e0

/-- An active stream whose producer fails on the first `GetBuff`: no buffer,
end-of-stream clear, error 5 "bad". -/
def failingStream : XrdSsiRespInfo :=
  XrdSsiRespInfo.isStream
    { sType := StreamType.isActive
      getBuff := [{ buf := none, last := false, err := some { eNum := 5, eMsg := "bad" } }]
      setBuff := [] }

/-- A passive stream whose producer fails on the first `SetBuff`: length -1,
end-of-stream clear, error 5 "bad". -/
def failingPassive : XrdSsiRespInfo :=
  XrdSsiRespInfo.isStream
    { sType := StreamType.isPassive
      getBuff := []
      setBuff := [{ dlen := -1, data := [], last := false,
                    err := some { eNum := 5, eMsg := "bad" } }] }

/-- The sample request after activation, dispatch, bind and the hand-over of
the envelope `r`. -/
def sampleWith (r : XrdSsiRespInfo) : World :=
  run sampleWorld [Event.Activate (some 5) none 10, Event.DoIt, Event.BindDone,
    Event.SetResponse r]

/-- An effect that sets the consumer's error object. -/
def Effect.isSetErrInfo : Effect → Bool
  | Effect.setErrInfo _ _ _ => true
  | _ => false

/-- An effect that is a `pread` call. -/
def Effect.isPread : Effect → Bool
  | Effect.pread _ _ _ => true
  | _ => false

/-- How many times the consumer's error object was set. -/
def errReports (w : World) : Nat := w.log.countP Effect.isSetErrInfo

/-- How many `pread` calls were made. -/
def preadCalls (w : World) : Nat := w.log.countP Effect.isPread

/-- The answer the next `pread` call will get. -/
def nextPread (w : World) : PreadOut :=
  w.preads.head?.getD { nbytes := 0, errno := 0, data := [] }

/-- The sample request with a file response of 10 bytes on descriptor 3, where
`pread` will give the answers `preads`. -/
def fileWorld (preads : List PreadOut) : World :=
  { sampleWith (XrdSsiRespInfo.isFile 3 10) with preads := preads }

/-- The total of the lengths a passive-stream producer reported. -/
def setBytes (pre : List SetBuffOut) : Int := (pre.map (fun a => a.dlen)).sum

/-- The calls the second `Emsg` overload makes on behalf of the request `r`:
the log message, and the error object update when `cbInfo` is set. -/
def emsgObjLog (r : Req) (pfx : String) (e : XrdSsiErrInfo) (op : String) : List Effect :=
  Effect.LogEmsg pfx (objText r.sessN op e) ::
    (match r.cbInfo with
     | some c => [Effect.setErrInfo (some c) (objCode e) (objText r.sessN op e)]
     | none => [])

/-- The situation in which a `Read` of `blen` bytes on an active stream runs
into a failing `GetBuff`: what is left of the held chunk and the chunks `pre`
the producer hands out first fit in the caller's buffer with room to spare,
none of them comes with end-of-stream, and the producer's next answer `a` is
no buffer with end-of-stream clear. -/
def activeFailure (w : World) (blen : Int) (pre : List GetBuffOut) (a : GetBuffOut)
    (post : List GetBuffOut) : Prop :=
  (∃ s, w.req.Resp = XrdSsiRespInfo.isStream s ∧ s.sType = StreamType.isActive ∧
    s.getBuff = pre ++ a :: post) ∧
  heldOK w ∧ w.req.strmEOF = false ∧
  (∀ x ∈ pre, x.buf.isSome = true ∧ x.last = false) ∧
  ((heldRem w).length : Int) + ((scriptBytes pre).length : Int) < blen ∧
  a.buf = none ∧ a.last = false

/-- The situation in which a `Read` of `blen` bytes on a passive stream runs
into a failing `SetBuff`: the answers `pre` the producer gives first report
positive lengths that leave room in the caller's buffer, none of them comes
with end-of-stream, and the producer's next answer `a` is a negative length
with end-of-stream clear. No chunk is held (none ever is on a passive
stream). -/
def passiveFailure (w : World) (blen : Int) (pre : List SetBuffOut) (a : SetBuffOut)
    (post : List SetBuffOut) : Prop :=
  (∃ s, w.req.Resp = XrdSsiRespInfo.isStream s ∧ s.sType = StreamType.isPassive ∧
    s.setBuff = pre ++ a :: post) ∧
  w.req.strBuff = none ∧ w.req.strmEOF = false ∧
  (∀ x ∈ pre, 0 < x.dlen ∧ x.last = false) ∧
  (pre = [] ∨ setBytes pre < blen) ∧
  a.dlen < 0 ∧ a.last = false

/-- A `Read` of `blen` bytes on a stream response runs into a producer failure
that leaves the error `e` in the error object handed to the producer. -/
def streamFailure (w : World) (blen : Int) (pfx : String) (n : Nat) (e : XrdSsiErrInfo) : Prop :=
  (∃ pre a post, activeFailure w blen pre a post ∧ pfx = "readStrmA" ∧
    n = heldCount w + pre.length ∧ e = eObjAfterGet (pre ++ [a]) { eNum := 0, eMsg := "" }) ∨
  (∃ pre a post, passiveFailure w blen pre a post ∧ pfx = "readStrmP" ∧
    n = 0 ∧ e = eObjAfterSet (pre ++ [a]) { eNum := 0, eMsg := "" })

/-- An active stream whose producer hands out the chunk [1, 2] and then fails:
no buffer, end-of-stream clear, error 5 "bad". -/
def failingLater : XrdSsiRespInfo :=
  XrdSsiRespInfo.isStream
    { sType := StreamType.isActive
      getBuff := [{ buf := some [1, 2], last := false, err := none },
                  { buf := none, last := false, err := some { eNum := 5, eMsg := "bad" } }]
      setBuff := [] }

/-- The bytes segments of memory that `SendFile` calls have handed to the sink
so far, in call order. -/
def sentBytes (w : World) : List Byte :=
  (w.log.map (fun e => match e with
    | Effect.SendFile v => sfBytes v
    | _ => [])).flatten

/-- The file ranges (offset, length) that `SendFile` calls have handed to the
sink so far, in call order. -/
def sentRanges (w : World) : List (Int × Int) :=
  w.log.filterMap (fun e => match e with
    | Effect.SendFile v =>
      (match v.data with
       | SfData.fileOff o => some (o, v.sendsz)
       | _ => none)
    | _ => none)

/-- Where a list of ranges ends when each range starts where the one before
it ended, the first at `s`; `none` when they do not follow one another. -/
def contig : Int → List (Int × Int) → Option Int
  | s, [] => some s
  | s, (o, n) :: rest => if o = s then contig (s + n) rest else none

/-- Successive `Send` calls, each given as the return code of the sink's
`SendFile` and the length asked for. -/
def sendRun (w : World) (calls : List (Int × Int)) : World :=
  calls.foldl (fun w c => (Send w c.1 c.2).2) w

/-- The state of a data response under `Send`: while it is being produced, the
cursor and the remaining length split the view and the sink has been handed
the bytes before the cursor; once it is exhausted, the sink has been handed
the whole view. -/
def sendInv (data : List Byte) (w : World) : Prop :=
  w.req.Resp = XrdSsiRespInfo.isData data ∧
  (w.req.myState = reqState.doRsp →
    0 ≤ w.req.respOff ∧ 0 ≤ w.req.respLen ∧ w.req.respOff + w.req.respLen = data.length ∧
    sentBytes w = data.take w.req.respOff.toNat) ∧
  (w.req.myState = reqState.odRsp → sentBytes w = data)

/-- The state of a file response under `Send`: while it is being produced, the
cursor and the remaining length split the file and the sink has been handed
the ranges from 0 to the cursor; once it is exhausted, the ranges reach the file's
length. -/
def sendFileInv (fdnum fsize : Int) (w : World) : Prop :=
  w.req.Resp = XrdSsiRespInfo.isFile fdnum fsize ∧
  (w.req.myState = reqState.doRsp →
    0 ≤ w.req.fileSz ∧ w.req.respOff + w.req.fileSz = fsize ∧
    contig 0 (sentRanges w) = some w.req.respOff) ∧
  (w.req.myState = reqState.odRsp → contig 0 (sentRanges w) = some fsize)

/-- One transfer call of the consumer: a `Read` with its length, or a `Send`
with the return code of the sink's `SendFile` and its length. -/
inductive Xfer where
  | read (blen : Int)
  | send (sfDio : Int) (blen : Int)
  deriving DecidableEq, Repr

/-- Perform one transfer call; a `Read` is issued with a cleared `done` flag. -/
def xferStep (w : World) : Xfer → World
  | Xfer.read blen => (Read w false blen).2
  | Xfer.send sfDio blen => (Send w sfDio blen).2

/-- Perform a sequence of transfer calls, in order. -/
def xferRun (w : World) (xs : List Xfer) : World := xs.foldl xferStep w

/-- The declared length of a data or file envelope (`blen`, `fsize`). -/
def declLen : XrdSsiRespInfo → Option Int
  | XrdSsiRespInfo.isData buff => some buff.length
  | XrdSsiRespInfo.isFile _ fsize => some fsize
  | _ => none

/-- The remaining length the request tracks: `fileSz` for a file response,
`respLen` otherwise. -/
def remaining (r : Req) : Int :=
  match r.Resp with
  | XrdSsiRespInfo.isFile _ _ => r.fileSz
  | _ => r.respLen

/-- The cursor of a data or file response of declared length `L`: while the
response is being produced, offset and remaining length add up to `L`. -/
def cursorInv (L : Int) (w : World) : Prop :=
  declLen w.req.Resp = some L ∧
  (w.req.myState = reqState.doRsp → w.req.respOff + remaining w.req = L)

/-- The sample request after activation, dispatch and bind, holding the
envelope `r` that has not been presented to `ProcessResponse` yet; `pread`
will give the answers `preads`. -/
def boundWith (r : XrdSsiRespInfo) (preads : List PreadOut) : World :=
  { run sampleWorld [Event.Activate (some 5) none 10, Event.DoIt, Event.BindDone] with
    req := { (run sampleWorld
        [Event.Activate (some 5) none 10, Event.DoIt, Event.BindDone]).req with Resp := r }
    preads := preads }

/-- A passive stream whose producer reports 5 bytes, more than it will be
offered, together with the end of the stream. -/
def overflowEOF : XrdSsiRespInfo :=
  XrdSsiRespInfo.isStream
    { sType := StreamType.isPassive
      getBuff := []
      setBuff := [{ dlen := 5, data := [1, 2, 3, 4, 5], last := true, err := none }] }

/-- A passive stream whose producer reports 5 bytes, more than it will be
offered, with end-of-stream clear. -/
def overflowMore : XrdSsiRespInfo :=
  XrdSsiRespInfo.isStream
    { sType := StreamType.isPassive
      getBuff := []
      setBuff := [{ dlen := 5, data := [1, 2, 3, 4, 5], last := false, err := none }] }

/-- An answer of `pread` that hands back 16 bytes. -/
def overrun : PreadOut :=
  { nbytes := 16, errno := 0, data := [1, 2, 3, 4, 5, 6, 7, 8, 9, 10, 11, 12, 13, 14, 15, 16] }

end XrdSsiFileReq

namespace XrdPosixXrootPath

/-! ## The path mapper `XrdPosixXrootPath`

C strings are lists of characters without the terminating NUL; a pointer into
a string is the suffix it points at. -/

/-- The errno value `ENOMEM`. -/
def ENOMEM : Int := 12

/-- The errno value `ENAMETOOLONG`. -/
def ENAMETOOLONG : Int := 36

/-- The text `rproto`, "root://". -/
def rproto : List Char := ['r', 'o', 'o', 't', ':', '/', '/']

/-- The text `xproto`, "xroot://". -/
def xproto : List Char := ['x', 'r', 'o', 'o', 't', ':', '/', '/']

/-- The constant `rprlen = strlen(rproto)`. -/
def rprlen : Nat := rproto.length

/-- The constant `xprlen = strlen(xproto)`. -/
def xprlen : Nat := xproto.length

/-- The terminator of a C string. -/
def nul : Char := Char.ofNat 0

/-- Whether `strncmp(a, b, n)` is 0: the strings, each with its terminator,
agree on their first `n` characters. -/
def strncmp0 (a b : List Char) (n : Nat) : Bool :=
  (a ++ [nul]).take n == (b ++ [nul]).take n

/-- The call `index(s, c)`: the position of the first `c` in `s`, if any. -/
def index : List Char → Char → Option Nat
  | [], _ => none
  | x :: rest, c => if x = c then some 0 else (index rest c).map (fun i => i + 1)

/-- The name translator behind `theN2N`: for the text in `pfnBuff`, the return
code of `pfn2lfn` and the text it leaves in `lfnBuff`. -/
abbrev N2N := List Char → Int × List Char

/-- Which pointer `P2L` returns: its argument `inP`, null, or the storage it
allocated (`relP`). -/
inductive P2LRet where
  | inP
  | null
  | relP
  deriving DecidableEq, Repr

/-- What a call of `P2L` leaves: the pointer returned, the text behind `relP`
(`none` for null) and `errno`. -/
structure P2LOut where
  ret : P2LRet
  relP : Option (List Char)
  errno : Int
  deriving DecidableEq, Repr

/-- The end of `P2L`, from "If only the path is wanted" on: `lfnBuff` is the text
then in the buffer of that name, `quest` the text from the question mark on. -/
def P2L_assemble (mallocOK : Bool) (errno : Int) (inP : List Char) (ponly : Bool)
    (pfxLen cgiLen : Nat) (quest lfnBuff : List Char) : P2LOut :=
  let pfxLen := if ponly then 0 else pfxLen
  let cgiLen := if ponly then 0 else cgiLen
  if !mallocOK then { ret := P2LRet.null, relP := none, errno := ENOMEM }
  else
    let outP := (if pfxLen ≠ 0 then inP.take pfxLen else []) ++ lfnBuff ++
      (if cgiLen ≠ 0 then quest else [])
    { ret := P2LRet.relP, relP := some outP, errno := errno }

/-- The function `P2L`. Besides its arguments it depends on the translator
`theN2N` (`none` when none is installed), on the text `lfnBuff0` that the local
array `lfnBuff` holds before anything is stored in it, on whether `malloc`
succeeds, and on `errno` before the call. -/
def P2L (theN2N : Option N2N) (lfnBuff0 : List Char) (mallocOK : Bool) (errno : Int)
    (inP : List Char) (ponly : Bool) : P2LOut :=
  let same : P2LOut := { ret := P2LRet.inP, relP := none, errno := errno }
  if theN2N.isNone && !ponly then same
  else
    let urlOff : Option Nat :=
      if strncmp0 rproto inP rprlen then some rprlen
      else if strncmp0 xproto inP xprlen then some xprlen
      else none
    match urlOff with
    | none => same
    | some uo =>
      match index (inP.drop uo) '/' with
      | none => same
      | some i =>
        if (inP.drop (uo + i + 1)).head? ≠ some '/' then same
        else
          let pfxLen := uo + i + 1
          let slash := inP.drop pfxLen
          let quest : List Char := match index slash '?' with
            | some q => slash.drop q
            | none => []
          let cgiLen := quest.length
          let pfnLen := match index slash '?' with
            | some q => q
            | none => slash.length
          if pfnLen ≥ 1032 then { ret := P2LRet.null, relP := none, errno := ENAMETOOLONG }
          else
            let pfnBuff := slash.take pfnLen
            match theN2N with
            | some pfn2lfn =>
              if (pfn2lfn pfnBuff).1 ≠ 0 then
                { ret := P2LRet.null, relP := none, errno := (pfn2lfn pfnBuff).1 }
              else P2L_assemble mallocOK errno inP ponly pfxLen cgiLen quest (pfn2lfn pfnBuff).2
            | none => P2L_assemble mallocOK errno inP ponly pfxLen cgiLen quest lfnBuff0

/-- One entry of the mapping list `xplist` (the structure is declared in the
class header): the server, the path it serves and the replacement for that
path, each with its recorded length. -/
structure xpath where
  server : List Char
  servln : Int
  path : List Char
  plen : Int
  nath : Option (List Char)
  nlen : Int
  deriving DecidableEq, Repr

/-- Which pointer `URL` returns: its argument `path`, the value 1, null, or the
caller's buffer. -/
inductive URLRet where
  | path
  | one
  | null
  | buff
  deriving DecidableEq, Repr

/-- What a call of `URL` leaves: the pointer returned and the text stored in
the caller's buffer (the terminator follows it), `none` when the buffer was
not written. -/
structure URLOut where
  ret : URLRet
  buff : Option (List Char)
  deriving DecidableEq, Repr

/-- The loop `while(*(path+1) == '/') path++`. -/
def skipSlashes : List Char → List Char
  | [] => []
  | c :: rest => if rest.head? = some '/' then skipSlashes rest else c :: rest

/-- The loop over `xplist`: the first entry whose path, over its recorded
length, starts `path`. -/
def findPath (path : List Char) : List xpath → Option xpath
  | [] => none
  | x :: rest => if strncmp0 path x.path x.plen.toNat then some x else findPath path rest

/-- The end of `URL`, from "Check if this path starts with one or our known
paths" on; `pathlen` is 0 unless the path was made absolute. -/
def URL_build (xplist : List xpath) (path : List Char) (pathlen : Int) (buff : Bool)
    (blen : Int) : URLOut :=
  let path := skipSlashes path
  match findPath path xplist with
  | none => { ret := URLRet.null, buff := none }
  | some xpnow =>
    if !buff then { ret := URLRet.one, buff := none }
    else
      let pathlen := if pathlen = 0 then (path.length : Int) else pathlen
      let plen := (xprlen : Int) + pathlen + xpnow.servln + 2
      let plen := if xpnow.nath.isSome then plen - xpnow.plen + xpnow.nlen else plen
      if plen ≥ blen then { ret := URLRet.null, buff := none }
      else
        let out := rproto ++ xpnow.server ++ ['/']
        let out := out ++ xpnow.nath.getD []
        let path := if xpnow.nath.isSome then path.drop xpnow.plen.toNat else path
        let out := if path.head? ≠ some '/' then out ++ ['/'] else out
        { ret := URLRet.buff, buff := some (out ++ path) }

/-- The function `URL`, for an object with the mapping list `xplist` and the
working directory `cwdPath` of recorded length `cwdPlen`; `buff` tells whether
the caller's buffer pointer is non-null. The text assembled in `tmpbuff` is
`cwdPath` overwritten from position `cwdPlen` on by the path without its
leading "./". -/
def URL (xplist : List xpath) (cwdPath : Option (List Char)) (cwdPlen : Int)
    (path : List Char) (buff : Bool) (blen : Int) : URLOut :=
  if strncmp0 rproto path rprlen then { ret := URLRet.path, buff := none }
  else if strncmp0 xproto path xprlen then
    if !buff then { ret := URLRet.one, buff := none }
    else if (path.length : Int) > blen then { ret := URLRet.null, buff := none }
    else { ret := URLRet.buff, buff := some (path.drop 1) }
  else
    match cwdPath with
    | some cwd =>
      if path.head? = some '.' ∧ (path.drop 1).head? = some '/' then
        let pathlen := (path.length : Int) + cwdPlen - 2
        if pathlen < 2048 then
          let tmpbuff :=
            if cwdPlen.toNat ≤ cwd.length then cwd.take cwdPlen.toNat ++ path.drop 2 else cwd
          URL_build xplist tmpbuff pathlen buff blen
        else { ret := URLRet.null, buff := none }
      else URL_build xplist path 0 buff blen
    | none => URL_build xplist path 0 buff blen

/-- The text `proto H / /P C`: a URL with host `H`, path `/P` and the text `C`
from the question mark on (empty when there is none). -/
def rootURL (proto H P C : List Char) : List Char := proto ++ H ++ '/' :: '/' :: P ++ C

/-- The parts of a URL of the form root://H//P[?C] or xroot://H//P[?C]: the
protocol is one of the two, the host has no slash, the path has no question
mark, and what follows the path is empty or starts with a question mark. -/
def isRootURL (proto H P C : List Char) : Prop :=
  (proto = rproto ∨ proto = xproto) ∧ '/' ∉ H ∧ '?' ∉ P ∧ (C = [] ∨ C.head? = some '?')

/-- A translator that hands back the path it is given. -/
def idN2N : N2N := fun pfn => (0, pfn)

/-- A translator that fails with code 2. -/
def failN2N : N2N := fun _ => (2, [])

/-- A translator that maps every path to "/b". -/
def constN2N : N2N := fun _ => (0, ['/', 'b'])

/-- The constant `MAXPATHLEN` of `<sys/param.h>` (the value on Linux). -/
def MAXPATHLEN : Nat := 4096

/-- The working directory an object records: the pointer `cwdPath` with the
text behind it, the length `cwdPlen`, and whether the storage `cwdPath` points
at has been given back with `free`. -/
structure CwdState where
  cwdPath : Option (List Char)
  cwdPlen : Int
  freed : Bool
  deriving DecidableEq, Repr

/-- The function `CWD`. The test `*(path+cwdPlen-1) == '/'` looks at the last
character of a path that is not empty (for an empty path it reads the byte
before the string, taken here not to be a slash). When neither branch assigns
`cwdPath`, the pointer keeps its value, which `free` has just released. -/
def CWD (s : CwdState) (path : List Char) : CwdState :=
  let freed := s.cwdPath.isSome || s.freed
  let cwdPlen : Int := path.length
  if path.getLast? = some '/' then { cwdPath := some path, cwdPlen := cwdPlen, freed := false }
  else if cwdPlen ≤ MAXPATHLEN then
    { cwdPath := some (path ++ ['/']), cwdPlen := cwdPlen + 1, freed := false }
  else { cwdPath := s.cwdPath, cwdPlen := cwdPlen, freed := freed }

/-- An entry of the mapping list whose recorded lengths are the lengths of its
strings; its path, a C string, holds no NUL. -/
def xpathOK (x : xpath) : Prop :=
  x.servln = x.server.length ∧ x.plen = x.path.length ∧ nul ∉ x.path ∧
  (match x.nath with
   | some n => x.nlen = n.length
   | none => True)

/-- A directory name of 4097 characters without a slash. -/
@[irreducible]
def longDir : List Char := List.replicate 4097 'a'

/-- A mapping list with one entry: server "s", path "/a", replacement "/b". -/
def sampleList : List xpath :=
  [{ server := ['s'], servln := 1, path := ['/', 'a'], plen := 2,
     nath := some ['/', 'b'], nlen := 2 }]

end XrdPosixXrootPath

namespace XrdSsiFileReq

/-! ## Theorems -/

theorem log_emit (w : World) (e : Effect) : (emit w e).log = w.log ++ [e] := rfl
theorem req_emit (w : World) (e : Effect) : (emit w e).req = w.req := rfl
theorem pool_emit (w : World) (e : Effect) : (emit w e).pool = w.pool := rfl
theorem jobs_emit (w : World) (e : Effect) : (emit w e).jobs = w.jobs := rfl

theorem relBuff_log (w : World) : (relBuff w).log = w.log ++ relEff w.req := by
  unfold relBuff relEff
  split <;> simp [emit]

theorem relBuff_pool (w : World) : (relBuff w).pool = w.pool := by
  unfold relBuff
  split <;> simp [emit]

theorem relBuff_jobs (w : World) : (relBuff w).jobs = w.jobs := by
  unfold relBuff
  split <;> simp [emit]

theorem relBuff_req (w : World) : (relBuff w).req =
    { w.req with oucBuff := none, sfsBref := if w.req.oucBuff.isSome then w.req.sfsBref else none, reqSize := 0 } := by
  unfold relBuff
  split <;> simp_all [emit]

theorem Recycle_log (w : World) :
    (Recycle w).log = w.log ++ relEff w.req ++ [Effect.Recycle (decide (w.pool.freeCnt < w.pool.freeMax))] := by
  unfold Recycle
  simp only [relBuff_pool]
  split_ifs with h
  · have : ¬ w.pool.freeCnt < w.pool.freeMax := by omega
    simp [emit, relBuff_log, this]
  · have : w.pool.freeCnt < w.pool.freeMax := by omega
    simp [emit, relBuff_log, this]

theorem Recycle_req (w : World) : (Recycle w).req =
    { w.req with oucBuff := none, sfsBref := if w.req.oucBuff.isSome then w.req.sfsBref else none, reqSize := 0, tident := none } := by
  unfold Recycle
  simp only [relBuff_pool]
  split_ifs <;> simp_all [emit, relBuff_req]

theorem Recycle_jobs (w : World) : (Recycle w).jobs = w.jobs := by
  unfold Recycle
  simp only [relBuff_pool]
  split_ifs <;> simp [emit, relBuff_jobs]

theorem ctl_setGetBuff (w : World) (s : List GetBuffOut) : ctl (setGetBuff w s) = ctl w := by
  unfold setGetBuff
  split <;> rfl

theorem ctl_setSetBuff (w : World) (s : List SetBuffOut) : ctl (setSetBuff w s) = ctl w := by
  unfold setSetBuff
  split <;> rfl

theorem ctl_heldBlock (l : StrmLoop GetBuffOut) : ctl (heldBlock l).w = ctl l.w := by
  unfold heldBlock
  split
  · split_ifs
    · rfl
    · simp [ctl, emit, Effect.loud]
  · rfl

theorem ctl_getBuffCall (l : StrmLoop GetBuffOut) (a : GetBuffOut) : ctl (getBuffCall l a).w = ctl l.w := rfl

theorem ctl_readStrmA_loop (script : List GetBuffOut) :
    ∀ l : StrmLoop GetBuffOut, ctl (readStrmA_loop script l).w = ctl l.w := by
  induction script with
  | nil =>
    intro l
    unfold readStrmA_loop
    simp only []
    split_ifs <;> simp [ctl_heldBlock, ctl_getBuffCall]
  | cons a rest ih =>
    intro l
    unfold readStrmA_loop
    simp only []
    split_ifs <;> simp [ctl_heldBlock, ctl_getBuffCall, ih]

theorem ctl_readStrmP_loop (script : List SetBuffOut) :
    ∀ l : StrmLoop SetBuffOut, ctl (readStrmP_loop script l).w = ctl l.w := by
  induction script with
  | nil =>
    intro l
    unfold readStrmP_loop
    split_ifs <;> rfl
  | cons a rest ih =>
    intro l
    unfold readStrmP_loop
    simp only []
    split_ifs <;> first | rfl | (rw [ih]; rfl)

theorem ctl_Emsg (w : World) (pfx : String) (ecode : Int) (op : String) :
    ctl (Emsg w pfx ecode op).2 = ctl w := by
  unfold Emsg
  simp only []
  split <;> simp [ctl, emit, Effect.loud]

theorem ctl_EmsgObj (w : World) (pfx : String) (eObj : XrdSsiErrInfo) (op : String) :
    ctl (EmsgObj w pfx eObj op).2 = ctl w := by
  unfold EmsgObj
  simp only []
  split <;> simp [ctl, emit, Effect.loud]

theorem ctl_readStrmA (w : World) (s : XrdSsiStream) (blen : Int) :
    ctl (readStrmA w s blen).2.2 = ctl w := by
  have h := ctl_readStrmA_loop s.getBuff
    { w := w, blen := blen, xlen := 0, dlen := 0, out := [], eObj := { eNum := 0, eMsg := "" },
      returned := false, rest := [] }
  unfold readStrmA
  simp only [] at h ⊢
  generalize readStrmA_loop s.getBuff _ = l at h ⊢
  have h2 := ctl_setGetBuff l.w l.rest
  generalize setGetBuff l.w l.rest = w2 at h2 ⊢
  split_ifs
  · exact h2.trans h
  · exact h2.trans h
  · exact h2.trans h
  · rw [ctl_EmsgObj]; exact h2.trans h

theorem ctl_readStrmP (w : World) (s : XrdSsiStream) (blen : Int) :
    ctl (readStrmP w s blen).2.2 = ctl w := by
  have h := ctl_readStrmP_loop s.setBuff
    { w := w, blen := blen, xlen := 0, dlen := 0, out := [], eObj := { eNum := 0, eMsg := "" },
      returned := false, rest := [] }
  unfold readStrmP
  simp only [] at h ⊢
  generalize readStrmP_loop s.setBuff _ = l at h ⊢
  have h2 := ctl_setSetBuff l.w l.rest
  generalize setSetBuff l.w l.rest = w2 at h2 ⊢
  split_ifs
  · exact h2.trans h
  · exact h2.trans h
  · rw [ctl_EmsgObj]; exact h2.trans h

theorem ctl_pread (w : World) (fdnum blen offset : Int) :
    ctl (pread w fdnum blen offset).2 = ctl w := by
  unfold pread
  simp only []
  split <;> simp [ctl, emit, Effect.loud]

theorem ctl_Read (w : World) (done : Bool) (blen : Int) : ctl (Read w done blen).2 = ctl w := by
  unfold Read
  split
  · split
    · rfl
    · simp only []; rw [ctl_Emsg]
  · split
    · split
      · rfl
      · split <;> rfl
    · simp [ctl, emit, Effect.loud]
    · rename_i fdnum fsize _
      have h := ctl_pread w fdnum blen w.req.respOff
      generalize pread w fdnum blen w.req.respOff = pw at h ⊢
      split
      · rfl
      · simp only []
        split
        · split
          · exact h
          · rw [ctl_Emsg]; exact h
        · exact h
    · simp only []
      split
      · exact ctl_readStrmA _ _ _
      · exact ctl_readStrmP _ _ _
    · simp only []; rw [ctl_Emsg]; rfl

theorem countP_filter_loud (p : Effect → Bool) (hp : ∀ e, p e = true → e.loud = true)
    (l : List Effect) : (l.filter Effect.loud).countP p = l.countP p := by
  induction l with
  | nil => rfl
  | cons e l ih =>
    by_cases hl : e.loud = true
    · simp [List.filter_cons, hl, List.countP_cons, ih]
    · have : p e = false := by
        cases hpe : p e
        · rfl
        · exact absurd (hp e hpe) hl
      simp [List.filter_cons, hl, List.countP_cons, ih, this]

theorem abs_of_ctl (w w1 : World) (h : ctl w1 = ctl w) : abs w1 = abs w := by
  have hl : w1.log.filter Effect.loud = w.log.filter Effect.loud := congrArg Ctl.loud h
  have cnt : ∀ p : Effect → Bool, (∀ e, p e = true → e.loud = true) →
      w1.log.countP p = w.log.countP p := by
    intro p hp
    rw [← countP_filter_loud p hp, ← countP_filter_loud p hp w.log, hl]
  have h1 : w1.req.urState = w.req.urState := congrArg Ctl.urState h
  have h2 : w1.req.schedDone = w.req.schedDone := congrArg Ctl.schedDone h
  have h3 : w1.req.finWait = w.req.finWait := congrArg Ctl.finWait h
  have h4 : w1.req.oucBuff = w.req.oucBuff := congrArg Ctl.oucBuff h
  have h5 : w1.req.sfsBref = w.req.sfsBref := congrArg Ctl.sfsBref h
  have h6 : w1.jobs = w.jobs := congrArg Ctl.jobs h
  have c1 := cnt Effect.isRecycle (by intro e; cases e <;> simp [Effect.isRecycle, Effect.loud])
  have c2 := cnt Effect.isFinished (by intro e; cases e <;> simp [Effect.isFinished, Effect.loud])
  have c3 := cnt Effect.isProcessRequest (by intro e; cases e <;> simp [Effect.isProcessRequest, Effect.loud])
  have c4 := cnt (fun e => e == Effect.Post) (by intro e; cases e <;> simp [Effect.loud])
  have c5 := cnt (fun e => e == Effect.Schedule) (by intro e; cases e <;> simp [Effect.loud])
  have c6 := cnt (fun e => e == Effect.Wait) (by intro e; cases e <;> simp [Effect.loud])
  simp only [abs, recycles, finishedCalls, posts, schedules, sessionCalls, waits, List.count,
    h1, h2, h3, h4, h5, h6, c1, c2, c3, c4, c5, c6]

theorem abs_Read (w : World) (done : Bool) (blen : Int) : abs (Read w done blen).2 = abs w :=
  abs_of_ctl _ _ (ctl_Read w done blen)

theorem countP_relEff (r : Req) (p : Effect → Bool) (h1 : ∀ b, p (Effect.oucRecycle b) = false)
    (h2 : ∀ b, p (Effect.sfsRecycle b) = false) : (relEff r).countP p = 0 := by
  unfold relEff
  split <;> simp [h1, h2]

theorem abs_Recycle (w : World) : abs (Recycle w) = absRecycle (abs w) := by
  simp only [abs, absRecycle, recycles, finishedCalls, posts, schedules, sessionCalls, waits,
    List.count, Recycle_log, Recycle_req, Recycle_jobs, List.countP_append]
  rw [countP_relEff _ _ (by intro b; rfl) (by intro b; rfl),
    countP_relEff _ _ (by intro b; rfl) (by intro b; rfl),
    countP_relEff _ _ (by intro b; rfl) (by intro b; rfl),
    countP_relEff _ _ (by intro b; rfl) (by intro b; rfl),
    countP_relEff _ _ (by intro b; rfl) (by intro b; rfl),
    countP_relEff _ _ (by intro b; rfl) (by intro b; rfl)]
  simp [Effect.isRecycle, Effect.isFinished, Effect.isProcessRequest]

theorem abs_WakeUp (w : World) : abs (WakeUp w) = abs w := by
  simp [abs, WakeUp, emit, recycles, finishedCalls, posts, schedules, sessionCalls, waits,
    List.countP_append, List.count_append, Effect.isRecycle, Effect.isFinished,
    Effect.isProcessRequest]

theorem abs_wake (c : Prop) [Decidable c] (w : World) :
    abs (if c then WakeUp w else w) = abs w := by
  split
  · exact abs_WakeUp w
  · rfl

theorem abs_emit_Finished (w : World) (c : Bool) :
    abs (emit w (Effect.Finished c)) = { abs w with finished := (abs w).finished + 1 } := by
  simp [abs, emit, recycles, finishedCalls, posts, schedules, sessionCalls, waits,
    List.countP_append, List.count_append, Effect.isRecycle, Effect.isFinished,
    Effect.isProcessRequest]

theorem abs_emit_Post (w : World) :
    abs (emit w Effect.Post) = { abs w with posts := (abs w).posts + 1 } := by
  simp [abs, emit, recycles, finishedCalls, posts, schedules, sessionCalls, waits,
    List.countP_append, List.count_append, Effect.isRecycle, Effect.isFinished,
    Effect.isProcessRequest]

theorem abs_emit_quiet (w : World) (e : Effect) (h : e.loud = false) : abs (emit w e) = abs w := by
  apply abs_of_ctl
  simp [ctl, emit, h]

theorem abs_DoIt (w : World) : abs (DoIt { w with jobs := w.jobs - 1 }) = absStep (abs w) Event.DoIt := by
  unfold DoIt
  cases hu : w.req.urState <;> simp only [hu, absStep]
  · simp [abs, emit, recycles, finishedCalls, posts, schedules, sessionCalls, waits,
      List.countP_append, List.count_append, Effect.isRecycle, Effect.isFinished,
      Effect.isProcessRequest, hu]
  · rw [abs_emit_quiet _ (Effect.LogEmsg "DoIt" invalidState) rfl]
    simp [abs, hu, recycles, finishedCalls, posts, schedules, sessionCalls, waits]
  · rw [abs_emit_quiet _ (Effect.LogEmsg "DoIt" invalidState) rfl]
    simp [abs, hu, recycles, finishedCalls, posts, schedules, sessionCalls, waits]
  · rw [abs_Recycle]; simp [abs, hu, recycles, finishedCalls, posts, schedules, sessionCalls, waits]
  · rw [abs_Recycle]
    by_cases hfw : w.req.finWait = true
    · have hf : ∀ (c : Prop) [Decidable c] (w1 : World), w1.req.finWait = true →
          (if c then WakeUp w1 else w1).req.finWait = true := by
        intro c _ w1 h; split <;> simpa [WakeUp, emit] using h
      rw [if_pos (hf _ _ (by simpa [emit] using hfw)), abs_emit_Post, abs_wake, abs_emit_Finished]
      simp [abs, hu, hfw, recycles, finishedCalls, posts, schedules, sessionCalls, waits]
    · have hf : ∀ (c : Prop) [Decidable c] (w1 : World), ¬ w1.req.finWait = true →
          ¬ (if c then WakeUp w1 else w1).req.finWait = true := by
        intro c _ w1 h; split <;> simpa [WakeUp, emit] using h
      rw [if_neg (hf _ _ (by simpa [emit] using hfw)), abs_wake, abs_emit_Finished]
      simp [abs, hu, hfw, recycles, finishedCalls, posts, schedules, sessionCalls, waits]

theorem abs_BindDone (w : World) : abs (BindDone w) = absStep (abs w) Event.BindDone := by
  unfold BindDone
  cases hu : w.req.urState <;> simp only [hu, absStep]
  · rw [abs_emit_quiet _ (Effect.LogEmsg "BindDone" invalidState) rfl]
    simp [abs, hu]
  · simp [abs, hu, recycles, finishedCalls, posts, schedules, sessionCalls, waits]
  · simp [abs, hu]
  · rw [abs_emit_quiet _ (Effect.LogEmsg "BindDone" invalidState) rfl]
    simp [abs, hu]
  · cases hs : w.req.schedDone
    · simp [abs, hu, hs, Schedule, emit, recycles, finishedCalls, posts, schedules, sessionCalls,
        waits, List.countP_append, List.count_append, Effect.isRecycle, Effect.isFinished,
        Effect.isProcessRequest]
    · simp [abs, hu, hs]

theorem abs_Finalize (w : World) : abs (Finalize w) = absStep (abs w) Event.Finalize := by
  unfold Finalize
  cases hu : w.req.urState <;> simp only [hu, absStep]
  · simp [abs, hu, recycles, finishedCalls, posts, schedules, sessionCalls, waits]
  · simp [abs, hu, emit, recycles, finishedCalls, posts, schedules, sessionCalls,
        waits, List.countP_append, List.count_append, Effect.isRecycle, Effect.isFinished,
        Effect.isProcessRequest]
  · rw [abs_Recycle, abs_wake, abs_emit_Finished]
    have h0 : ∀ w0 : World, abs (match w0.req.strBuff with
        | some _ => emit { w0 with req := { w0.req with strBuff := none } } Effect.strRecycle
        | none => w0) = abs w0 := by
      intro w0
      split
      · rw [abs_emit_quiet _ Effect.strRecycle rfl]; rfl
      · rfl
    have h1 := h0 w
    simp only [hu] at h1
    rw [h1]
    simp [abs, hu]
  · simp [abs, hu]
  · simp [abs, hu]

theorem abs_ProcessResponse (w : World) (r : XrdSsiRespInfo) :
    abs (ProcessResponse w r).2 = abs w := by
  unfold ProcessResponse
  split
  · rfl
  · cases r <;> simp only [] <;> first | rfl | (rw [abs_wake]; rfl)

theorem abs_step (w : World) (e : Event) : abs (step w e) = absStep (abs w) e := by
  cases e with
  | Activate oP bR rSz =>
    simp [step, Activate, abs, absStep, Schedule, emit, recycles, finishedCalls, posts, schedules,
      sessionCalls, waits, List.countP_append, List.count_append, Effect.isRecycle,
      Effect.isFinished, Effect.isProcessRequest]
  | DoIt => exact abs_DoIt w
  | BindDone => exact abs_BindDone w
  | SetResponse r =>
    simp only [step, SetResponse, absStep]
    rw [abs_ProcessResponse]; rfl
  | Read blen => exact abs_Read w false blen
  | WantResponse rCB rArg =>
    simp only [step, WantResponse, absStep]
    split <;> rfl
  | Done =>
    simp only [step, Done, absStep]
    split
    · rfl
    · exact abs_WakeUp w
  | Finalize => exact abs_Finalize w

theorem abs_run (evs : List Event) : ∀ w : World, abs (run w evs) = evs.foldl absStep (abs w) := by
  induction evs with
  | nil => intro w; rfl
  | cons e es ih =>
    intro w
    simp only [run, List.foldl_cons] at ih ⊢
    rw [ih, abs_step]

/-- C3 (counterexample): a passive stream whose fill returns 0 bytes with
end-of-stream clear makes `Read` report `done = true` and move `myState` to
`odRsp` (ResponseExhausted), not stay in `doRsp`. -/
theorem C3_counterexample :
    (Read (run sampleWorld [Event.Activate (some 5) none 10, Event.DoIt, Event.BindDone,
        Event.SetResponse samplePassive]) false 4).1 = { ret := 0, done := true, buff := [] } ∧
    (run sampleWorld [Event.Activate (some 5) none 10, Event.DoIt, Event.BindDone,
        Event.SetResponse samplePassive]).req.myState = reqState.doRsp ∧
    (Read (run sampleWorld [Event.Activate (some 5) none 10, Event.DoIt, Event.BindDone,
        Event.SetResponse samplePassive]) false 4).2.req.myState = reqState.odRsp := by
  decide

/-- C3 (amended): for a passive stream in `doRsp`, when the producer's fill
returns 0 bytes with end-of-stream clear, `Read` treats it as the end of the
stream: it returns 0 bytes with `done = true`, reports no error (no call is
made), and moves `myState` to `odRsp` with `strmEOF` set. -/
theorem C3_passive_zero_fill_ends_stream (w : World) (strm : XrdSsiStream) (a : SetBuffOut)
    (rest : List SetBuffOut) (done : Bool) (blen : Int)
    (h1 : w.req.myState = reqState.doRsp) (h2 : w.req.Resp = XrdSsiRespInfo.isStream strm)
    (h3 : strm.sType = StreamType.isPassive) (h4 : w.req.strmEOF = false)
    (h5 : strm.setBuff = a :: rest) (h6 : a.dlen = 0) (h7 : a.last = false)
    (h8 : w.req.strBuff = none) :
    (Read w done blen).1 = { ret := 0, done := true, buff := [] } ∧
    (Read w done blen).2.req.myState = reqState.odRsp ∧
    (Read w done blen).2.req.strmEOF = true ∧
    (Read w done blen).2.log = w.log := by
  simp [Read, h1, h2, h3, readStrmP, readStrmP_loop, h4, h5, h6, h7, h8, setSetBuff]

/-- C3 (amended), at a concrete passive stream. -/
theorem C3_passive_zero_fill_ends_stream_witness :
    (Read (run sampleWorld [Event.Activate (some 5) none 10, Event.DoIt, Event.BindDone,
        Event.SetResponse samplePassive]) false 4).1 = { ret := 0, done := true, buff := [] } ∧
    (Read (run sampleWorld [Event.Activate (some 5) none 10, Event.DoIt, Event.BindDone,
        Event.SetResponse samplePassive]) false 4).2.req.myState = reqState.odRsp ∧
    (Read (run sampleWorld [Event.Activate (some 5) none 10, Event.DoIt, Event.BindDone,
        Event.SetResponse samplePassive]) false 4).2.req.strmEOF = true ∧
    (Read (run sampleWorld [Event.Activate (some 5) none 10, Event.DoIt, Event.BindDone,
        Event.SetResponse samplePassive]) false 4).2.log =
      (run sampleWorld [Event.Activate (some 5) none 10, Event.DoIt, Event.BindDone,
        Event.SetResponse samplePassive]).log :=
  C3_passive_zero_fill_ends_stream _
    { sType := StreamType.isPassive, getBuff := [],
      setBuff := [{ dlen := 0, data := [], last := false, err := none }] }
    { dlen := 0, data := [], last := false, err := none } [] false 4
    (by decide) (by decide) (by decide) (by decide) (by decide) (by decide) (by decide) (by decide)

theorem recycles_Recycle (w : World) : recycles (Recycle w) = recycles w + 1 :=
  congrArg Abs.recycles (abs_Recycle w)

theorem sessionCalls_Recycle (w : World) : sessionCalls (Recycle w) = sessionCalls w :=
  congrArg Abs.sessionCalls (abs_Recycle w)

theorem finishedCalls_Recycle (w : World) : finishedCalls (Recycle w) = finishedCalls w :=
  congrArg Abs.finished (abs_Recycle w)

/-- C6: `Finalize` on a request in `isNew` sets `urState` to `isAbort` and makes
no call (no `Recycle`, no `Finished`), leaving pool and scheduler alone; `DoIt`
on a request in `isAbort` runs `Recycle` once, calls neither `ProcessRequest`
nor `Finished`, and leaves `urState` at `isAbort`. -/
theorem C6_finalize_new_aborts (w w2 : World) (h1 : w.req.urState = rspState.isNew)
    (h2 : w2.req.urState = rspState.isAbort) :
    (Finalize w).req.urState = rspState.isAbort ∧ (Finalize w).log = w.log ∧
    (Finalize w).pool = w.pool ∧ (Finalize w).jobs = w.jobs ∧
    recycles (DoIt w2) = recycles w2 + 1 ∧ sessionCalls (DoIt w2) = sessionCalls w2 ∧
    finishedCalls (DoIt w2) = finishedCalls w2 ∧
    recycles (DoIt (Finalize w)) = recycles w + 1 ∧
    sessionCalls (DoIt (Finalize w)) = sessionCalls w := by
  have hF : (Finalize w).req.urState = rspState.isAbort ∧ (Finalize w).log = w.log ∧
      (Finalize w).pool = w.pool ∧ (Finalize w).jobs = w.jobs := by
    simp [Finalize, h1]
  have hD : ∀ v : World, v.req.urState = rspState.isAbort → DoIt v = Recycle v := by
    intro v hv; simp [DoIt, hv]
  refine ⟨hF.1, hF.2.1, hF.2.2.1, hF.2.2.2, ?_, ?_, ?_, ?_, ?_⟩
  · rw [hD w2 h2, recycles_Recycle]
  · rw [hD w2 h2, sessionCalls_Recycle]
  · rw [hD w2 h2, finishedCalls_Recycle]
  · rw [hD _ hF.1, recycles_Recycle]; simp [recycles, hF.2.1]
  · rw [hD _ hF.1, sessionCalls_Recycle]; simp [sessionCalls, hF.2.1]

/-- C6, at a newly activated request and at the same request once aborted. -/
theorem C6_finalize_new_aborts_witness :
    (Finalize (Activate sampleWorld (some 5) none 10)).req.urState = rspState.isAbort ∧
    (Finalize (Activate sampleWorld (some 5) none 10)).log = (Activate sampleWorld (some 5) none 10).log ∧
    (Finalize (Activate sampleWorld (some 5) none 10)).pool = (Activate sampleWorld (some 5) none 10).pool ∧
    (Finalize (Activate sampleWorld (some 5) none 10)).jobs = (Activate sampleWorld (some 5) none 10).jobs ∧
    recycles (DoIt (Finalize (Activate sampleWorld (some 5) none 10))) =
      recycles (Finalize (Activate sampleWorld (some 5) none 10)) + 1 ∧
    sessionCalls (DoIt (Finalize (Activate sampleWorld (some 5) none 10))) =
      sessionCalls (Finalize (Activate sampleWorld (some 5) none 10)) ∧
    finishedCalls (DoIt (Finalize (Activate sampleWorld (some 5) none 10))) =
      finishedCalls (Finalize (Activate sampleWorld (some 5) none 10)) ∧
    recycles (DoIt (Finalize (Activate sampleWorld (some 5) none 10))) =
      recycles (Activate sampleWorld (some 5) none 10) + 1 ∧
    sessionCalls (DoIt (Finalize (Activate sampleWorld (some 5) none 10))) =
      sessionCalls (Activate sampleWorld (some 5) none 10) :=
  C6_finalize_new_aborts (Activate sampleWorld (some 5) none 10)
    (Finalize (Activate sampleWorld (some 5) none 10)) (by decide) (by decide)

/-- C8: `BindDone` on a request in `isBound` returns the world unchanged (no
field changes, nothing is scheduled, no call is made); so on a request in
`isBegun` a second `BindDone` changes nothing after the first, which leaves
`urState = isBound`. -/
theorem C8_bind_idempotent (w1 w2 : World) (h1 : w1.req.urState = rspState.isBound)
    (h2 : w2.req.urState = rspState.isBegun) :
    BindDone w1 = w1 ∧ BindDone (BindDone w2) = BindDone w2 ∧
    (BindDone w2).req.urState = rspState.isBound ∧ (BindDone w2).log = w2.log ∧
    (BindDone w2).jobs = w2.jobs := by
  simp [BindDone, h1, h2]

/-- C8, at a dispatched request and at the same request once bound. -/
theorem C8_bind_idempotent_witness :
    BindDone (run sampleWorld [Event.Activate (some 5) none 10, Event.DoIt, Event.BindDone]) =
      run sampleWorld [Event.Activate (some 5) none 10, Event.DoIt, Event.BindDone] ∧
    BindDone (BindDone (run sampleWorld [Event.Activate (some 5) none 10, Event.DoIt])) =
      BindDone (run sampleWorld [Event.Activate (some 5) none 10, Event.DoIt]) ∧
    (BindDone (run sampleWorld [Event.Activate (some 5) none 10, Event.DoIt])).req.urState =
      rspState.isBound ∧
    (BindDone (run sampleWorld [Event.Activate (some 5) none 10, Event.DoIt])).log =
      (run sampleWorld [Event.Activate (some 5) none 10, Event.DoIt]).log ∧
    (BindDone (run sampleWorld [Event.Activate (some 5) none 10, Event.DoIt])).jobs =
      (run sampleWorld [Event.Activate (some 5) none 10, Event.DoIt]).jobs :=
  C8_bind_idempotent (run sampleWorld [Event.Activate (some 5) none 10, Event.DoIt, Event.BindDone])
    (run sampleWorld [Event.Activate (some 5) none 10, Event.DoIt]) (by decide) (by decide)

theorem schedDone_inv_step (a : Abs) (e : Event)
    (h : a.urState ≠ rspState.isDone → a.schedDone = false) :
    (absStep a e).urState ≠ rspState.isDone → (absStep a e).schedDone = false := by
  obtain ⟨u, sd, fw, ob, sb, j, rc, fin, po, sc, se, wa⟩ := a
  cases e <;> cases u <;> cases sd <;> simp_all [absStep, absRecycle]

theorem schedDone_inv_foldl (evs : List Event) :
    ∀ a : Abs, (a.urState ≠ rspState.isDone → a.schedDone = false) →
      (evs.foldl absStep a).urState ≠ rspState.isDone → (evs.foldl absStep a).schedDone = false := by
  induction evs with
  | nil => intro a h; exact h
  | cons e es ih => intro a h; exact ih _ (schedDone_inv_step a e h)

theorem Alloc_urState (p : Pool) (eiP sP : Option Nat) (sID : String) (cID : Option String)
    (rnum : Int) : (Alloc p eiP sP sID cID rnum).1.urState = rspState.isNew ∧
      (Alloc p eiP sP sID cID rnum).1.schedDone = false ∧
      (Alloc p eiP sP sID cID rnum).1.finWait = false := by
  unfold Alloc
  cases p.freeReq <;> simp [Init, newReq]

theorem reach_schedDone (p : Pool) (eiP sP : Option Nat) (sID : String) (cID : Option String)
    (rnum : Int) (preads : List PreadOut) (evs : List Event)
    (h : (run (allocWorld p eiP sP sID cID rnum preads) evs).req.urState ≠ rspState.isDone) :
    (run (allocWorld p eiP sP sID cID rnum preads) evs).req.schedDone = false := by
  have h1 := schedDone_inv_foldl evs (abs (allocWorld p eiP sP sID cID rnum preads))
    (fun _ => (Alloc_urState p eiP sP sID cID rnum).2.1)
  rw [← abs_run] at h1
  exact h1 h

theorem BindDone_fix (w : World) (h1 : w.req.urState = rspState.isDone)
    (h2 : w.req.schedDone = true) : BindDone w = w := by
  simp [BindDone, h1, h2]

theorem iterate_fix (f : World → World) (w : World) (h : f w = w) (n : Nat) : f^[n] w = w := by
  induction n with
  | zero => rfl
  | succ n ih => rw [Function.iterate_succ_apply, h, ih]

/-- C7: on a request reached from `Alloc` by any calls and now in `isBegun`
(dispatched, not bound), `Finalize` sets `urState` to `isDone`, installs the
wait handle and makes no call but the `Wait` (no `Recycle`); any number
`n + 1` of `BindDone` calls after it make exactly one call, a `Schedule` (so
none waits or posts), queueing one run; that run of `DoIt` calls `Finished`
once, posts the handle once and runs `Recycle` once. -/
theorem C7_finalize_before_bind (p : Pool) (eiP sP : Option Nat) (sID : String)
    (cID : Option String) (rnum : Int) (preads : List PreadOut) (evs : List Event) (n : Nat)
    (h : (run (allocWorld p eiP sP sID cID rnum preads) evs).req.urState = rspState.isBegun) :
    (Finalize (run (allocWorld p eiP sP sID cID rnum preads) evs)).req.urState = rspState.isDone ∧
    (Finalize (run (allocWorld p eiP sP sID cID rnum preads) evs)).req.finWait = true ∧
    (Finalize (run (allocWorld p eiP sP sID cID rnum preads) evs)).log =
      (run (allocWorld p eiP sP sID cID rnum preads) evs).log ++ [Effect.Wait] ∧
    (BindDone^[n + 1] (Finalize (run (allocWorld p eiP sP sID cID rnum preads) evs))).log =
      (Finalize (run (allocWorld p eiP sP sID cID rnum preads) evs)).log ++ [Effect.Schedule] ∧
    (BindDone^[n + 1] (Finalize (run (allocWorld p eiP sP sID cID rnum preads) evs))).jobs =
      (run (allocWorld p eiP sP sID cID rnum preads) evs).jobs + 1 ∧
    finishedCalls (step (BindDone^[n + 1]
        (Finalize (run (allocWorld p eiP sP sID cID rnum preads) evs))) Event.DoIt) =
      finishedCalls (run (allocWorld p eiP sP sID cID rnum preads) evs) + 1 ∧
    posts (step (BindDone^[n + 1]
        (Finalize (run (allocWorld p eiP sP sID cID rnum preads) evs))) Event.DoIt) =
      posts (run (allocWorld p eiP sP sID cID rnum preads) evs) + 1 ∧
    recycles (step (BindDone^[n + 1]
        (Finalize (run (allocWorld p eiP sP sID cID rnum preads) evs))) Event.DoIt) =
      recycles (run (allocWorld p eiP sP sID cID rnum preads) evs) + 1 ∧
    schedules (step (BindDone^[n + 1]
        (Finalize (run (allocWorld p eiP sP sID cID rnum preads) evs))) Event.DoIt) =
      schedules (run (allocWorld p eiP sP sID cID rnum preads) evs) + 1 ∧
    waits (step (BindDone^[n + 1]
        (Finalize (run (allocWorld p eiP sP sID cID rnum preads) evs))) Event.DoIt) =
      waits (run (allocWorld p eiP sP sID cID rnum preads) evs) + 1 := by
  have hsd := reach_schedDone p eiP sP sID cID rnum preads evs (by rw [h]; decide)
  generalize run (allocWorld p eiP sP sID cID rnum preads) evs = w at h hsd ⊢
  have hF : (Finalize w).req.urState = rspState.isDone ∧ (Finalize w).req.finWait = true ∧
      (Finalize w).log = w.log ++ [Effect.Wait] ∧ (Finalize w).req.schedDone = false ∧
      (Finalize w).jobs = w.jobs := by
    simp [Finalize, h, emit, hsd]
  have hB : (BindDone (Finalize w)).req.urState = rspState.isDone ∧
      (BindDone (Finalize w)).req.schedDone = true ∧
      (BindDone (Finalize w)).log = (Finalize w).log ++ [Effect.Schedule] ∧
      (BindDone (Finalize w)).jobs = w.jobs + 1 := by
    simp [BindDone, hF.1, hF.2.2.2.1, Schedule, emit, hF.2.2.2.2]
  have hI : BindDone^[n + 1] (Finalize w) = BindDone (Finalize w) := by
    rw [Function.iterate_succ_apply]
    exact iterate_fix _ _ (BindDone_fix _ hB.1 hB.2.1) n
  have hA : abs (step (BindDone^[n + 1] (Finalize w)) Event.DoIt) =
      absStep (absStep (absStep (abs w) Event.Finalize) Event.BindDone) Event.DoIt := by
    rw [hI, abs_step, abs_BindDone, abs_Finalize]
  have hu : (abs w).urState = rspState.isBegun := h
  have hs : (abs w).schedDone = false := hsd
  have hA2 : abs (step (BindDone^[n + 1] (Finalize w)) Event.DoIt) =
      { absRecycle (abs w) with
        urState := rspState.isDone, finWait := true, schedDone := true,
        recycles := (abs w).recycles + 1, finished := (abs w).finished + 1,
        posts := (abs w).posts + 1, schedules := (abs w).schedules + 1,
        waits := (abs w).waits + 1 } := by
    rw [hA]
    simp [absStep, hu, hs, absRecycle]
  refine ⟨hF.1, hF.2.1, hF.2.2.1, ?_, ?_, ?_, ?_, ?_, ?_, ?_⟩
  · rw [hI]; exact hB.2.2.1
  · rw [hI]; exact hB.2.2.2
  · exact congrArg Abs.finished hA2
  · exact congrArg Abs.posts hA2
  · exact congrArg Abs.recycles hA2
  · exact congrArg Abs.schedules hA2
  · exact congrArg Abs.waits hA2

/-- C7, at a request that was activated and dispatched, with three binds. -/
theorem C7_finalize_before_bind_witness :
    (run sampleWorld [Event.Activate (some 5) none 10, Event.DoIt]).req.urState = rspState.isBegun ∧
    (BindDone^[2 + 1] (Finalize (run sampleWorld [Event.Activate (some 5) none 10, Event.DoIt]))).log =
      (Finalize (run sampleWorld [Event.Activate (some 5) none 10, Event.DoIt])).log ++ [Effect.Schedule] ∧
    posts (step (BindDone^[2 + 1]
        (Finalize (run sampleWorld [Event.Activate (some 5) none 10, Event.DoIt]))) Event.DoIt) =
      posts (run sampleWorld [Event.Activate (some 5) none 10, Event.DoIt]) + 1 ∧
    recycles (step (BindDone^[2 + 1]
        (Finalize (run sampleWorld [Event.Activate (some 5) none 10, Event.DoIt]))) Event.DoIt) =
      recycles (run sampleWorld [Event.Activate (some 5) none 10, Event.DoIt]) + 1 :=
  ⟨by decide,
   (C7_finalize_before_bind (emptyPool 256) (some 1) (some 2) "sess" (some "cid") 7 []
      [Event.Activate (some 5) none 10, Event.DoIt] 2 (by decide)).2.2.2.1,
   (C7_finalize_before_bind (emptyPool 256) (some 1) (some 2) "sess" (some "cid") 7 []
      [Event.Activate (some 5) none 10, Event.DoIt] 2 (by decide)).2.2.2.2.2.2.1,
   (C7_finalize_before_bind (emptyPool 256) (some 1) (some 2) "sess" (some "cid") 7 []
      [Event.Activate (some 5) none 10, Event.DoIt] 2 (by decide)).2.2.2.2.2.2.2.1⟩

theorem wakeups_WakeUp (w : World) : wakeups (WakeUp w) = wakeups w + 1 := by
  simp [wakeups, WakeUp, emit, List.countP_append, Effect.isWakeUp]

/-- C9: on a request with no envelope yet on which `WantResponse` returned
false, `Done` and one successful envelope hand-over (`ProcessResponse`
returning true, that is `urState` is `isBegun` or `isBound` and the envelope
has a type) make exactly one wake-up callback between them, in either order:
with the hand-over first it makes none and `Done` makes it; with `Done` first
it makes none (it sets `respWait`) and the hand-over makes it. -/
theorem C9_one_wakeup (w : World) (rCB : Option Nat) (rArg : Int) (r : XrdSsiRespInfo)
    (hN : w.req.Resp = XrdSsiRespInfo.isNone)
    (hW : (WantResponse w rCB rArg).1 = false)
    (hu : w.req.urState = rspState.isBegun ∨ w.req.urState = rspState.isBound)
    (hr : r ≠ XrdSsiRespInfo.isNone) :
    ((SetResponse (WantResponse w rCB rArg).2 r).1 = true ∧
      wakeups (SetResponse (WantResponse w rCB rArg).2 r).2 = wakeups w ∧
      wakeups (Done (SetResponse (WantResponse w rCB rArg).2 r).2) = wakeups w + 1) ∧
    ((SetResponse (Done (WantResponse w rCB rArg).2) r).1 = true ∧
      wakeups (Done (WantResponse w rCB rArg).2) = wakeups w ∧
      wakeups (SetResponse (Done (WantResponse w rCB rArg).2) r).2 = wakeups w + 1) := by
  have hm : w.req.myState ≠ reqState.doRsp := by
    intro hm; simp [WantResponse, hm] at hW
  have hw1 : (WantResponse w rCB rArg).2 =
      { w with req := { w.req with respCB := rCB, respCBarg := rArg, respWait := false } } := by
    simp [WantResponse, hm]
  have hu2 : ¬ (w.req.urState ≠ rspState.isBegun ∧ w.req.urState ≠ rspState.isBound) := by
    rcases hu with hu | hu <;> simp [hu]
  rw [hw1]
  constructor
  · unfold SetResponse ProcessResponse
    simp only []
    rw [if_neg hu2]
    cases r <;> simp [Done, wakeups, WakeUp, emit, List.countP_append, Effect.isWakeUp] at hr ⊢
  · have hD : Done { w with req := { w.req with respCB := rCB, respCBarg := rArg, respWait := false } } =
        { w with req := { w.req with respCB := rCB, respCBarg := rArg, respWait := true } } := by
      simp [Done, hN]
    rw [hD]
    unfold SetResponse ProcessResponse
    simp only []
    rw [if_neg hu2]
    cases r <;> simp [wakeups, WakeUp, emit, List.countP_append, Effect.isWakeUp] at hr ⊢

/-- C9, at a dispatched request and a data envelope. -/
theorem C9_one_wakeup_witness :
    ((SetResponse (WantResponse (run sampleWorld [Event.Activate (some 5) none 10, Event.DoIt])
        (some 9) 77).2 (XrdSsiRespInfo.isData [1, 2])).1 = true ∧
      wakeups (SetResponse (WantResponse (run sampleWorld [Event.Activate (some 5) none 10, Event.DoIt])
        (some 9) 77).2 (XrdSsiRespInfo.isData [1, 2])).2 =
        wakeups (run sampleWorld [Event.Activate (some 5) none 10, Event.DoIt]) ∧
      wakeups (Done (SetResponse (WantResponse (run sampleWorld [Event.Activate (some 5) none 10, Event.DoIt])
        (some 9) 77).2 (XrdSsiRespInfo.isData [1, 2])).2) =
        wakeups (run sampleWorld [Event.Activate (some 5) none 10, Event.DoIt]) + 1) ∧
    ((SetResponse (Done (WantResponse (run sampleWorld [Event.Activate (some 5) none 10, Event.DoIt])
        (some 9) 77).2) (XrdSsiRespInfo.isData [1, 2])).1 = true ∧
      wakeups (Done (WantResponse (run sampleWorld [Event.Activate (some 5) none 10, Event.DoIt])
        (some 9) 77).2) = wakeups (run sampleWorld [Event.Activate (some 5) none 10, Event.DoIt]) ∧
      wakeups (SetResponse (Done (WantResponse (run sampleWorld [Event.Activate (some 5) none 10, Event.DoIt])
        (some 9) 77).2) (XrdSsiRespInfo.isData [1, 2])).2 =
        wakeups (run sampleWorld [Event.Activate (some 5) none 10, Event.DoIt]) + 1) :=
  C9_one_wakeup (run sampleWorld [Event.Activate (some 5) none 10, Event.DoIt]) (some 9) 77
    (XrdSsiRespInfo.isData [1, 2]) (by decide) (by decide) (by decide) (by decide)

theorem poolStep_inv (p : Pool) (op : PoolOp)
    (h : p.freeCnt = p.freeReq.length ∧ p.freeCnt ≤ p.freeMax) :
    (poolStep p op).freeCnt = (poolStep p op).freeReq.length ∧
    (poolStep p op).freeCnt ≤ (poolStep p op).freeMax ∧ (poolStep p op).freeMax = p.freeMax := by
  obtain ⟨h1, h2⟩ := h
  cases op with
  | alloc eiP sP sID cID rnum =>
    simp only [poolStep, Alloc]
    cases hq : p.freeReq with
    | nil => simp [hq] at h1 ⊢; omega
    | cons a l => simp [hq] at h1 ⊢; omega
  | recycle r =>
    simp only [poolStep, Recycle, relBuff_pool]
    split_ifs with hc
    · simp [emit, relBuff_pool]; omega
    · simp [emit, relBuff_pool]; omega

theorem poolStep_foldl_inv (ops : List PoolOp) :
    ∀ p : Pool, p.freeCnt = p.freeReq.length ∧ p.freeCnt ≤ p.freeMax →
      (ops.foldl poolStep p).freeCnt = (ops.foldl poolStep p).freeReq.length ∧
      (ops.foldl poolStep p).freeCnt ≤ (ops.foldl poolStep p).freeMax ∧
      (ops.foldl poolStep p).freeMax = p.freeMax := by
  induction ops with
  | nil => intro p h; exact ⟨h.1, h.2, rfl⟩
  | cons op ops ih =>
    intro p h
    have h1 := poolStep_inv p op h
    have h2 := ih (poolStep p op) ⟨h1.1, h1.2.1⟩
    exact ⟨h2.1, h2.2.1, h2.2.2.trans h1.2.2⟩

/-- C10: after any sequence of `Alloc` and `Recycle` operations from the empty
pool with limit `freeMax >= 0` (256 in the source), `freeCnt` is the length of
the free list and `0 <= freeCnt <= freeMax`; and a `Recycle` entered with
`freeCnt = freeMax` destroys the request (it ends in `Recycle false`) and
leaves the pool, free list and count included, as it was. -/
theorem C10_pool_bounded (freeMax : Int) (h : 0 ≤ freeMax) (ops : List PoolOp) (w : World)
    (hc : w.pool.freeCnt = w.pool.freeMax) :
    (ops.foldl poolStep (emptyPool freeMax)).freeCnt =
      (ops.foldl poolStep (emptyPool freeMax)).freeReq.length ∧
    0 ≤ (ops.foldl poolStep (emptyPool freeMax)).freeCnt ∧
    (ops.foldl poolStep (emptyPool freeMax)).freeCnt ≤
      (ops.foldl poolStep (emptyPool freeMax)).freeMax ∧
    (ops.foldl poolStep (emptyPool freeMax)).freeMax = freeMax ∧
    (Recycle w).pool = w.pool ∧
    (Recycle w).log = w.log ++ relEff w.req ++ [Effect.Recycle false] := by
  have h1 := poolStep_foldl_inv ops (emptyPool freeMax) (by simp [emptyPool, h])
  refine ⟨h1.1, ?_, h1.2.1, h1.2.2, ?_, ?_⟩
  · rw [h1.1]; exact Int.natCast_nonneg _
  · unfold Recycle
    simp only [relBuff_pool]
    rw [if_pos (by omega)]
    simp [emit, relBuff_pool]
  · rw [Recycle_log]
    simp [hc]

/-- C10, at the source's limit 256 with two requests recycled and one
reallocated, and at a full pool of limit 1. -/
theorem C10_pool_bounded_witness :
    ([PoolOp.recycle rawReq, PoolOp.recycle rawReq,
        PoolOp.alloc none none "s" none 3].foldl poolStep (emptyPool 256)).freeCnt =
      ([PoolOp.recycle rawReq, PoolOp.recycle rawReq,
        PoolOp.alloc none none "s" none 3].foldl poolStep (emptyPool 256)).freeReq.length ∧
    0 ≤ ([PoolOp.recycle rawReq, PoolOp.recycle rawReq,
        PoolOp.alloc none none "s" none 3].foldl poolStep (emptyPool 256)).freeCnt ∧
    ([PoolOp.recycle rawReq, PoolOp.recycle rawReq,
        PoolOp.alloc none none "s" none 3].foldl poolStep (emptyPool 256)).freeCnt ≤
      ([PoolOp.recycle rawReq, PoolOp.recycle rawReq,
        PoolOp.alloc none none "s" none 3].foldl poolStep (emptyPool 256)).freeMax ∧
    ([PoolOp.recycle rawReq, PoolOp.recycle rawReq,
        PoolOp.alloc none none "s" none 3].foldl poolStep (emptyPool 256)).freeMax = 256 ∧
    (Recycle (Recycle { sampleWorld with pool := emptyPool 1 })).pool =
      (Recycle { sampleWorld with pool := emptyPool 1 }).pool ∧
    (Recycle (Recycle { sampleWorld with pool := emptyPool 1 })).log =
      (Recycle { sampleWorld with pool := emptyPool 1 }).log ++
        relEff (Recycle { sampleWorld with pool := emptyPool 1 }).req ++ [Effect.Recycle false] :=
  C10_pool_bounded 256 (by decide)
    [PoolOp.recycle rawReq, PoolOp.recycle rawReq, PoolOp.alloc none none "s" none 3]
    (Recycle { sampleWorld with pool := emptyPool 1 }) (by decide)

theorem lifeInv_step (a : Abs) (bf : Nat) (e : Event) (hA : e.isActivate = false)
    (hS : e = Event.DoIt → 0 < a.jobs) (h : lifeInv a bf) :
    lifeInv (absStep a e)
      (bf + if e = Event.Finalize ∧ a.urState = rspState.isBound then 1 else 0) := by
  obtain ⟨u, sd, fw, ob, sb, j, rc, fin, po, sc, se, wa⟩ := a
  cases e <;> cases u <;> cases sd <;>
    simp_all [lifeInv, absStep, absRecycle, Event.isActivate] <;> omega

theorem lifeInv_run (evs : List Event) :
    ∀ (w : World) (bf : Nat), lifeInv (abs w) bf → (∀ e ∈ evs, e.isActivate = false) →
      scheduled w evs = true → lifeInv (abs (run w evs)) (bf + boundFinalizes w evs) := by
  induction evs with
  | nil => intro w bf h _ _; simpa [run, boundFinalizes] using h
  | cons e es ih =>
    intro w bf h hA hS
    simp only [scheduled, Bool.and_eq_true, Bool.or_eq_true, bne_iff_ne, ne_eq,
      decide_eq_true_eq] at hS
    have h1 := lifeInv_step (abs w) bf e (hA e (List.mem_cons_self _ _))
      (fun he => by
        rcases hS.1 with h0 | h0
        · exact absurd he h0
        · exact h0) h
    rw [← abs_step] at h1
    have h2 := ih (step w e) _ h1 (fun x hx => hA x (List.mem_cons_of_mem _ hx)) hS.2
    have : run w (e :: es) = run (step w e) es := rfl
    rw [this]
    have hb : boundFinalizes w (e :: es) =
        (if e = Event.Finalize ∧ w.req.urState = rspState.isBound then 1 else 0)
          + boundFinalizes (step w e) es := rfl
    rw [hb, ← Nat.add_assoc]
    exact h2

theorem lifeInv_le (a : Abs) (bf : Nat) (h : lifeInv a bf) (hb : bf ≤ 1) : a.recycles ≤ 1 := by
  obtain ⟨u, sd, fw, ob, sb, j, rc, fin, po, sc, se, wa⟩ := a
  cases u <;> simp_all [lifeInv] <;> omega

theorem lifeInv_activated (p : Pool) (eiP sP : Option Nat) (sID : String) (cID : Option String)
    (rnum : Int) (preads : List PreadOut) (oP bR : Option Nat) (rSz : Int) :
    lifeInv (abs (Activate (allocWorld p eiP sP sID cID rnum preads) oP bR rSz)) 0 := by
  have h := Alloc_urState p eiP sP sID cID rnum
  simp [lifeInv, abs, Activate, Schedule, emit, allocWorld, h.1, h.2.1, recycles, Effect.isRecycle]

theorem release_keeps_urState (a : Abs) (e : Event) (h : (absStep a e).recycles ≠ a.recycles) :
    (absStep a e).urState = a.urState := by
  obtain ⟨u, sd, fw, ob, sb, j, rc, fin, po, sc, se, wa⟩ := a
  cases e <;> cases u <;> cases sd <;> simp_all [absStep, absRecycle]

/-- C5 (counterexample): on an activated, dispatched and bound request a second
`Finalize` runs `Recycle` again, in a sequence whose only `DoIt` is the
scheduled one: the first `Finalize` releases the request and leaves `urState`
at `isBound`, where `Finalize` is no no-op. Likewise two `DoIt` runs on an
aborted request release it twice. -/
theorem C5_counterexample :
    scheduled (Activate sampleWorld (some 5) none 10)
      [Event.DoIt, Event.BindDone, Event.Finalize, Event.Finalize] = true ∧
    recycles (run (Activate sampleWorld (some 5) none 10)
      [Event.DoIt, Event.BindDone, Event.Finalize]) = 1 ∧
    (run (Activate sampleWorld (some 5) none 10)
      [Event.DoIt, Event.BindDone, Event.Finalize]).req.urState = rspState.isBound ∧
    recycles (run (Activate sampleWorld (some 5) none 10)
      [Event.DoIt, Event.BindDone, Event.Finalize, Event.Finalize]) = 2 ∧
    recycles (run (Activate sampleWorld (some 5) none 10)
      [Event.Finalize, Event.DoIt, Event.DoIt]) = 2 := by
  decide

/-- C5 (amended): for every sequence of `DoIt`, `BindDone`, envelope hand-over,
`Read`, deferred-wait and `Finalize` calls on one activated request in which
every `DoIt` is a run the scheduler has queued (one per `Schedule` call) and at
most one `Finalize` finds the request bound, `Recycle` runs at most once. The
step that releases the request leaves `urState` as it was (`isAbort`, `isDone`
or `isBound`): the guarantee rests on `urState` together with the `schedDone`
flag and the one-run-per-`Schedule` discipline. -/
theorem C5_recycled_at_most_once (p : Pool) (eiP sP : Option Nat) (sID : String)
    (cID : Option String) (rnum : Int) (preads : List PreadOut) (oP bR : Option Nat) (rSz : Int)
    (evs : List Event) (hA : ∀ e ∈ evs, e.isActivate = false)
    (hS : scheduled (Activate (allocWorld p eiP sP sID cID rnum preads) oP bR rSz) evs = true)
    (hF : boundFinalizes (Activate (allocWorld p eiP sP sID cID rnum preads) oP bR rSz) evs ≤ 1) :
    recycles (run (Activate (allocWorld p eiP sP sID cID rnum preads) oP bR rSz) evs) ≤ 1 ∧
    ∀ (v : World) (e : Event), recycles (step v e) ≠ recycles v →
      (step v e).req.urState = v.req.urState := by
  constructor
  · have h := lifeInv_run evs _ 0 (lifeInv_activated p eiP sP sID cID rnum preads oP bR rSz) hA hS
    exact lifeInv_le _ _ h (by omega)
  · intro v e h
    have h1 : (absStep (abs v) e).recycles ≠ (abs v).recycles := by
      rw [← abs_step]; exact h
    have h2 := release_keeps_urState (abs v) e h1
    rw [← abs_step] at h2
    exact h2

/-- C5 (amended), at a request that is dispatched, bound, read and finalized
once, with a late duplicate bind. -/
theorem C5_recycled_at_most_once_witness :
    recycles (run (Activate (allocWorld (emptyPool 256) (some 1) (some 2) "sess" (some "cid") 7 [])
        (some 5) none 10)
      [Event.DoIt, Event.BindDone, Event.SetResponse (XrdSsiRespInfo.isData [1, 2]),
       Event.Read 1, Event.Finalize, Event.BindDone]) ≤ 1 ∧
    ∀ (v : World) (e : Event), recycles (step v e) ≠ recycles v →
      (step v e).req.urState = v.req.urState :=
  C5_recycled_at_most_once (emptyPool 256) (some 1) (some 2) "sess" (some "cid") 7 []
    (some 5) none 10
    [Event.DoIt, Event.BindDone, Event.SetResponse (XrdSsiRespInfo.isData [1, 2]),
     Event.Read 1, Event.Finalize, Event.BindDone]
    (by decide) (by decide) (by decide)

theorem mid_foldl (mid : List Event) :
    ∀ a : Abs, (∀ e ∈ mid, e.isMid = true) →
      (a.urState = rspState.isBegun ∨ a.urState = rspState.isBound) →
      mid.foldl absStep a =
        { a with urState := if a.urState = rspState.isBound ∨ Event.BindDone ∈ mid
                            then rspState.isBound else rspState.isBegun } := by
  induction mid with
  | nil =>
    intro a _ hu
    obtain ⟨u, sd, fw, ob, sb, j, rc, fin, po, sc, se, wa⟩ := a
    rcases hu with hu | hu <;> simp only [] at hu <;> subst hu <;> simp
  | cons e es ih =>
    intro a hm hu
    have he := hm e (List.mem_cons_self _ _)
    have hes : ∀ x ∈ es, x.isMid = true := fun x hx => hm x (List.mem_cons_of_mem _ hx)
    obtain ⟨u, sd, fw, ob, sb, j, rc, fin, po, sc, se, wa⟩ := a
    simp only [List.foldl_cons]
    cases e <;> simp [Event.isMid] at he
    · -- BindDone
      rcases hu with hu | hu <;> simp only [] at hu <;> subst hu
      · rw [ih _ hes (Or.inr rfl)]; simp [absStep]
      · rw [ih _ hes (Or.inr rfl)]; simp [absStep]
    all_goals
      simp only [absStep]
      rw [ih _ hes hu]
      simp

theorem run_append (w : World) (l1 l2 : List Event) : run w (l1 ++ l2) = run (run w l1) l2 := by
  simp [run, List.foldl_append]

theorem Finalize_strBuff (w : World) (h : w.req.urState = rspState.isBound) :
    (Finalize w).req.strBuff = none := by
  simp only [Finalize, h]
  rw [Recycle_req]
  simp only []
  split <;> split <;> simp_all [WakeUp, emit]

/-- C4 (counterexample): after activation, dispatch, bind, a data envelope, a
read and `Finalize`, `urState` is `isBound`, not `isDone`; when `Finalize`
comes before the bind while an active-stream chunk is held, the chunk is still
held after the follow-up bind and run; and when `Activate` was given both
buffer references the `sfsBref` is still set at the end. -/
theorem C4_counterexample :
    (run sampleWorld (lifeSeq (some 5) none 10
      [Event.BindDone, Event.SetResponse (XrdSsiRespInfo.isData [1, 2]), Event.Read 1])).req.urState
      = rspState.isBound ∧
    (run sampleWorld (lifeSeq (some 5) none 10
      [Event.SetResponse sampleStream, Event.Read 1])).req.strBuff = some [1, 2, 3] ∧
    (run sampleWorld (lifeSeq (some 5) (some 6) 10
      [Event.BindDone, Event.SetResponse (XrdSsiRespInfo.isData [1, 2]), Event.Read 1])).req.sfsBref
      = some 6 := by
  decide

/-- C4 (amended): for every life of a request as in `lifeSeq` (activation with
at most one of the two buffer references, dispatch, any bind / envelope /
read / deferred-wait calls, `Finalize`, and the follow-up bind and run when
`Finalize` came before the bind), `Recycle` runs exactly once and the request
buffer is released (`oucBuff` and `sfsBref` null); `urState` ends `isDone` when
`Finalize` came before the bind and stays `isBound` when it came after; and
when it came after the bind no stream chunk is held (`strBuff` null). -/
theorem C4_life_ends_released (p : Pool) (eiP sP : Option Nat) (sID : String)
    (cID : Option String) (rnum : Int) (preads : List PreadOut) (oP bR : Option Nat) (rSz : Int)
    (mid : List Event) (hm : ∀ e ∈ mid, e.isMid = true) (hb : oP = none ∨ bR = none) :
    recycles (run (allocWorld p eiP sP sID cID rnum preads) (lifeSeq oP bR rSz mid)) = 1 ∧
    (run (allocWorld p eiP sP sID cID rnum preads) (lifeSeq oP bR rSz mid)).req.urState =
      (if Event.BindDone ∈ mid then rspState.isBound else rspState.isDone) ∧
    (run (allocWorld p eiP sP sID cID rnum preads) (lifeSeq oP bR rSz mid)).req.oucBuff = none ∧
    (run (allocWorld p eiP sP sID cID rnum preads) (lifeSeq oP bR rSz mid)).req.sfsBref = none ∧
    (Event.BindDone ∈ mid →
      (run (allocWorld p eiP sP sID cID rnum preads) (lifeSeq oP bR rSz mid)).req.strBuff = none) := by
  have h0 := Alloc_urState p eiP sP sID cID rnum
  generalize hw0 : allocWorld p eiP sP sID cID rnum preads = w0
  have hu0 : (abs w0).urState = rspState.isNew := by rw [← hw0]; exact h0.1
  have hr0 : (abs w0).recycles = 0 := by rw [← hw0]; rfl
  have hs0 : (abs w0).schedDone = false := by rw [← hw0]; exact h0.2.1
  have hA := abs_run (lifeSeq oP bR rSz mid) w0
  have hmidA : (mid.foldl absStep (absStep (absStep (abs w0) (Event.Activate oP bR rSz)) Event.DoIt)) = _ :=
    mid_foldl mid _ hm (by simp [absStep, hu0])
  simp only [lifeSeq, List.foldl_cons, List.foldl_append] at hA
  rw [hmidA] at hA
  have key : (abs (run w0 (lifeSeq oP bR rSz mid))).recycles = 1 ∧
      (abs (run w0 (lifeSeq oP bR rSz mid))).urState =
        (if Event.BindDone ∈ mid then rspState.isBound else rspState.isDone) ∧
      (abs (run w0 (lifeSeq oP bR rSz mid))).oucBuff = none ∧
      (abs (run w0 (lifeSeq oP bR rSz mid))).sfsBref = none := by
    simp only [lifeSeq]
    rw [hA]
    by_cases hB : Event.BindDone ∈ mid
    · rcases hb with hb | hb <;> simp [hB, absStep, absRecycle, hu0, hr0, hb]
    · rcases hb with hb | hb <;> simp [hB, absStep, absRecycle, hu0, hr0, hs0, hb]
  refine ⟨key.1, key.2.1, key.2.2.1, key.2.2.2, ?_⟩
  intro hB
  have hsplit : lifeSeq oP bR rSz mid =
      (Event.Activate oP bR rSz :: Event.DoIt :: mid) ++ [Event.Finalize] := by
    simp [lifeSeq, hB]
  rw [hsplit, run_append]
  have hmidU : (abs (run w0 (Event.Activate oP bR rSz :: Event.DoIt :: mid))).urState =
      rspState.isBound := by
    rw [abs_run]
    simp only [List.foldl_cons]
    rw [hmidA]
    simp [hB]
  exact Finalize_strBuff _ hmidU

/-- C4 (amended), at a bound request with a data envelope read once. -/
theorem C4_life_ends_released_witness :
    recycles (run (allocWorld (emptyPool 256) (some 1) (some 2) "sess" (some "cid") 7 [])
      (lifeSeq (some 5) none 10
        [Event.BindDone, Event.SetResponse (XrdSsiRespInfo.isData [1, 2]), Event.Read 1])) = 1 ∧
    (run (allocWorld (emptyPool 256) (some 1) (some 2) "sess" (some "cid") 7 [])
      (lifeSeq (some 5) none 10
        [Event.BindDone, Event.SetResponse (XrdSsiRespInfo.isData [1, 2]), Event.Read 1])).req.urState =
      (if Event.BindDone ∈
          [Event.BindDone, Event.SetResponse (XrdSsiRespInfo.isData [1, 2]), Event.Read 1]
        then rspState.isBound else rspState.isDone) ∧
    (run (allocWorld (emptyPool 256) (some 1) (some 2) "sess" (some "cid") 7 [])
      (lifeSeq (some 5) none 10
        [Event.BindDone, Event.SetResponse (XrdSsiRespInfo.isData [1, 2]), Event.Read 1])).req.oucBuff =
      none ∧
    (run (allocWorld (emptyPool 256) (some 1) (some 2) "sess" (some "cid") 7 [])
      (lifeSeq (some 5) none 10
        [Event.BindDone, Event.SetResponse (XrdSsiRespInfo.isData [1, 2]), Event.Read 1])).req.sfsBref =
      none ∧
    (Event.BindDone ∈
        [Event.BindDone, Event.SetResponse (XrdSsiRespInfo.isData [1, 2]), Event.Read 1] →
      (run (allocWorld (emptyPool 256) (some 1) (some 2) "sess" (some "cid") 7 [])
        (lifeSeq (some 5) none 10
          [Event.BindDone, Event.SetResponse (XrdSsiRespInfo.isData [1, 2]),
           Event.Read 1])).req.strBuff = none) :=
  C4_life_ends_released (emptyPool 256) (some 1) (some 2) "sess" (some "cid") 7 []
    (some 5) none 10
    [Event.BindDone, Event.SetResponse (XrdSsiRespInfo.isData [1, 2]), Event.Read 1]
    (by decide) (by decide)

theorem Read_exhausted (w : World) (done : Bool) (blen : Int) (h : w.req.myState = reqState.odRsp) :
    Read w done blen = ({ ret := 0, done := true, buff := [] }, w) := by
  simp [Read, h]

theorem readTrace_exhausted (blens : List Int) (w : World) (h : w.req.myState = reqState.odRsp) :
    readTrace w blens = blens.map (fun _ => ({ ret := 0, done := true, buff := [] }, w)) := by
  induction blens with
  | nil => rfl
  | cons b bs ih => simp [readTrace, Read_exhausted w false b h, ih]

theorem bytesOf_cons (x : ReadOut × World) (t : List (ReadOut × World)) :
    bytesOf (x :: t) = x.1.buff ++ bytesOf t := rfl

theorem bytesOf_exhausted (blens : List Int) (w : World) (h : w.req.myState = reqState.odRsp) :
    bytesOf (readTrace w blens) = [] := by
  rw [readTrace_exhausted blens w h]
  induction blens with
  | nil => rfl
  | cons b bs ih => simpa [bytesOf_cons] using ih

/-- Delivery of a pending byte sequence: if from every state satisfying `Inv`
a read of `b > 0` hands back the first `b` pending bytes and either exhausts
the response, having delivered everything, or stays in `Inv` with the rest
pending, then a sequence of reads hands back a prefix of the pending bytes. -/
theorem trace_bytes (Inv : World → Prop) (pend : World → List Byte)
    (hstep : ∀ (w : World) (b : Nat), Inv w → 0 < b →
      (Read w false b).1.buff = (pend w).take b ∧
      (((Read w false b).2.req.myState = reqState.odRsp ∧ (pend w).length ≤ b) ∨
       (Inv (Read w false b).2 ∧ pend (Read w false b).2 = (pend w).drop b))) :
    ∀ (blens : List Nat) (w : World), Inv w → (∀ b ∈ blens, 0 < b) →
      bytesOf (readTrace w (blens.map (fun b : Nat => (b : Int)))) = (pend w).take blens.sum := by
  intro blens
  induction blens with
  | nil => intro w _ _; simp [readTrace, bytesOf]
  | cons b bs ih =>
    intro w hI hb
    have hs := hstep w b hI (hb b (List.mem_cons_self _ _))
    simp only [List.map_cons, readTrace, bytesOf_cons, List.sum_cons]
    rw [hs.1]
    rcases hs.2 with ⟨hx, hl⟩ | ⟨hI2, hp⟩
    · rw [bytesOf_exhausted _ _ hx, List.append_nil, List.take_of_length_le hl,
        List.take_of_length_le (by omega)]
    · rw [ih _ hI2 (fun x hx => hb x (List.mem_cons_of_mem _ hx)), hp, List.take_add]

/-- A property of every call of a read sequence, from one of each call. -/
theorem trace_forall (Inv Exh : World → Prop) (P : ReadOut × World → Prop)
    (hstep : ∀ (w : World) (b : Nat), Inv w → 0 < b →
      P (Read w false b) ∧ (Exh (Read w false b).2 ∨ Inv (Read w false b).2))
    (hex : ∀ (w : World), Exh w →
      w.req.myState = reqState.odRsp ∧ P ({ ret := 0, done := true, buff := [] }, w)) :
    ∀ (blens : List Nat) (w : World), Inv w → (∀ b ∈ blens, 0 < b) →
      ∀ x ∈ readTrace w (blens.map (fun b : Nat => (b : Int))), P x := by
  intro blens
  induction blens with
  | nil => intro w _ _ x hx; simp [readTrace] at hx
  | cons b bs ih =>
    intro w hI hb x hx
    have hs := hstep w b hI (hb b (List.mem_cons_self _ _))
    simp only [List.map_cons, readTrace, List.mem_cons] at hx
    rcases hx with hx | hx
    · rw [hx]; exact hs.1
    · rcases hs.2 with h2 | h2
      · rw [readTrace_exhausted _ _ (hex _ h2).1] at hx
        simp only [List.mem_map] at hx
        obtain ⟨_, _, hx⟩ := hx
        rw [← hx]; exact (hex _ h2).2
      · exact ih _ h2 (fun y hy => hb y (List.mem_cons_of_mem _ hy)) x hx

/-- When the `done` flag of each call of a read sequence is set: as soon as the
lengths requested so far cover the pending bytes. -/
theorem trace_done (Inv : World → Prop) (pend : World → List Byte)
    (hstep : ∀ (w : World) (b : Nat), Inv w → 0 < b →
      (Read w false b).1.done = decide ((pend w).length ≤ b) ∧
      (((Read w false b).2.req.myState = reqState.odRsp ∧ (pend w).length ≤ b) ∨
       (Inv (Read w false b).2 ∧ pend (Read w false b).2 = (pend w).drop b ∧
        b < (pend w).length))) :
    ∀ (blens : List Nat) (w : World) (k : Nat), Inv w → (∀ b ∈ blens, 0 < b) →
      k < blens.length →
      ((readTrace w (blens.map (fun b : Nat => (b : Int))))[k]?).map (fun x => x.1.done) =
        some (decide ((pend w).length ≤ (blens.take (k + 1)).sum)) := by
  intro blens
  induction blens with
  | nil => intro w k _ _ hk; simp at hk
  | cons b bs ih =>
    intro w k hI hb hk
    have hs := hstep w b hI (hb b (List.mem_cons_self _ _))
    cases k with
    | zero => simp [readTrace, hs.1]
    | succ k =>
      have hk2 : k < bs.length := by simpa using hk
      simp only [List.map_cons, readTrace, List.getElem?_cons_succ, List.take_succ_cons,
        List.sum_cons]
      rcases hs.2 with ⟨hx, hl⟩ | ⟨hI2, hp, hlt⟩
      · rw [readTrace_exhausted _ _ hx]
        have : (pend w).length ≤ b + (List.take (k + 1) bs).sum := by omega
        rw [decide_eq_true this]
        simp [hk2]
      · rw [ih _ k hI2 (fun y hy => hb y (List.mem_cons_of_mem _ hy)) hk2, hp]
        simp only [List.length_drop, Option.some.injEq, decide_eq_decide]
        omega

theorem Read_data_step (data : List Byte) (w : World) (b : Nat) (hI : dataInv data w)
    (hb : 0 < b) :
    (Read w false b).1.buff = (dataPend data w).take b ∧
    (Read w false b).1.ret = ((Read w false b).1.buff.length : Int) ∧
    (Read w false b).1.done = decide ((dataPend data w).length ≤ b) ∧
    (((Read w false b).2.req.myState = reqState.odRsp ∧ (dataPend data w).length ≤ b) ∨
     (dataInv data (Read w false b).2 ∧
      dataPend data (Read w false b).2 = (dataPend data w).drop b ∧
      b < (dataPend data w).length)) := by
  obtain ⟨h1, h2, h3, h4, h5⟩ := hI
  have hlen : (dataPend data w).length = w.req.respLen.toNat := by
    simp only [dataPend, List.length_drop]; omega
  have hnot : ¬ w.req.respLen ≤ 0 := by omega
  unfold Read
  simp only [h1, ne_eq, not_true_eq_false, if_false, h2, hnot]
  by_cases hc : (b : Int) ≥ w.req.respLen
  · rw [if_pos hc]
    have hle : (dataPend data w).length ≤ b := by omega
    refine ⟨?_, ?_, ?_, Or.inl ⟨rfl, hle⟩⟩
    · simp only [memcpy, dataPend]
      rw [List.take_of_length_le (by simp only [List.length_drop]; omega),
        List.take_of_length_le (by simp only [List.length_drop]; omega)]
    · simp only [memcpy, List.length_take, List.length_drop]; omega
    · simp [hle]
  · rw [if_neg hc]
    have hlt : b < (dataPend data w).length := by omega
    refine ⟨?_, ?_, ?_, Or.inr ⟨⟨rfl, rfl, ?_, ?_, ?_⟩, ?_, hlt⟩⟩
    · simp [memcpy, dataPend]
    · simp only [memcpy, List.length_take, List.length_drop, Int.toNat_ofNat]; omega
    · simp; omega
    · simp only []; omega
    · simp only []; omega
    · simp only []; omega
    · simp only [dataPend, List.drop_drop]
      congr 1
      omega

theorem dataInv_attach (w0 : World) (data : List Byte)
    (hu : w0.req.urState = rspState.isBegun ∨ w0.req.urState = rspState.isBound)
    (hd : data ≠ []) :
    (SetResponse w0 (XrdSsiRespInfo.isData data)).1 = true ∧
    dataInv data (SetResponse w0 (XrdSsiRespInfo.isData data)).2 ∧
    dataPend data (SetResponse w0 (XrdSsiRespInfo.isData data)).2 = data := by
  have hu2 : ¬ (w0.req.urState ≠ rspState.isBegun ∧ w0.req.urState ≠ rspState.isBound) := by
    rcases hu with hu | hu <;> simp [hu]
  have hl : 0 < data.length := List.length_pos.mpr hd
  unfold SetResponse ProcessResponse
  simp only []
  rw [if_neg hu2]
  simp only [true_and]
  constructor
  · unfold dataInv
    split <;> simp [WakeUp, emit] <;> omega
  · unfold dataPend
    split <;> simp [WakeUp, emit]

/-- C1: a data envelope of length `L > 0` is handed over to a request in
`isBegun` or `isBound`, then read with any positive buffer lengths `blens`.
The hand-over succeeds; the bytes handed back, in call order, are the first
`sum blens` bytes of the envelope, hence all of it once `sum blens >= L`; each
call returns the number of bytes it stored; and call `k` reports
`done = true` exactly when the lengths of calls `0..k` add up to `L` or more,
that is on the call that hands back the final byte and not before. -/
theorem C1_data_round_trip (w0 : World) (data : List Byte) (blens : List Nat)
    (hu : w0.req.urState = rspState.isBegun ∨ w0.req.urState = rspState.isBound)
    (hd : data ≠ []) (hb : ∀ b ∈ blens, 0 < b) :
    (SetResponse w0 (XrdSsiRespInfo.isData data)).1 = true ∧
    bytesOf (readTrace (SetResponse w0 (XrdSsiRespInfo.isData data)).2
      (blens.map (fun b : Nat => (b : Int)))) = data.take blens.sum ∧
    (data.length ≤ blens.sum →
      bytesOf (readTrace (SetResponse w0 (XrdSsiRespInfo.isData data)).2
        (blens.map (fun b : Nat => (b : Int)))) = data) ∧
    (∀ x ∈ readTrace (SetResponse w0 (XrdSsiRespInfo.isData data)).2
        (blens.map (fun b : Nat => (b : Int))), x.1.ret = (x.1.buff.length : Int)) ∧
    (∀ k, k < blens.length →
      ((readTrace (SetResponse w0 (XrdSsiRespInfo.isData data)).2
        (blens.map (fun b : Nat => (b : Int))))[k]?).map (fun x => x.1.done) =
        some (decide (data.length ≤ (blens.take (k + 1)).sum))) := by
  obtain ⟨h1, h2, h3⟩ := dataInv_attach w0 data hu hd
  have hbytes := trace_bytes (dataInv data) (dataPend data)
    (fun w b hI hb0 => by
      have h := Read_data_step data w b hI hb0
      refine ⟨h.1, ?_⟩
      rcases h.2.2.2 with hx | hx
      · exact Or.inl hx
      · exact Or.inr ⟨hx.1, hx.2.1⟩) blens _ h2 hb
  rw [h3] at hbytes
  refine ⟨h1, hbytes, ?_, ?_, ?_⟩
  · intro hl
    rw [hbytes, List.take_of_length_le hl]
  · exact trace_forall (dataInv data) (fun w => w.req.myState = reqState.odRsp)
      (fun x => x.1.ret = (x.1.buff.length : Int))
      (fun w b hI hb0 => by
        have h := Read_data_step data w b hI hb0
        refine ⟨h.2.1, ?_⟩
        rcases h.2.2.2 with hx | hx
        · exact Or.inl hx.1
        · exact Or.inr hx.1)
      (fun w hw => ⟨hw, rfl⟩) blens _ h2 hb
  · intro k hk
    have h := trace_done (dataInv data) (dataPend data)
      (fun w b hI hb0 => by
        have h := Read_data_step data w b hI hb0
        exact ⟨h.2.2.1, h.2.2.2⟩) blens _ k h2 hb hk
    rw [h3] at h
    exact h

/-- C1, at a five-byte envelope read with buffers of 2, 2, 2 and 2 bytes. -/
theorem C1_data_round_trip_witness :
    (SetResponse (run sampleWorld [Event.Activate (some 5) none 10, Event.DoIt, Event.BindDone])
      (XrdSsiRespInfo.isData [1, 2, 3, 4, 5])).1 = true ∧
    bytesOf (readTrace (SetResponse
        (run sampleWorld [Event.Activate (some 5) none 10, Event.DoIt, Event.BindDone])
        (XrdSsiRespInfo.isData [1, 2, 3, 4, 5])).2
      ([2, 2, 2, 2].map (fun b : Nat => (b : Int)))) = [1, 2, 3, 4, 5].take [2, 2, 2, 2].sum ∧
    ([1, 2, 3, 4, 5].length ≤ [2, 2, 2, 2].sum →
      bytesOf (readTrace (SetResponse
          (run sampleWorld [Event.Activate (some 5) none 10, Event.DoIt, Event.BindDone])
          (XrdSsiRespInfo.isData [1, 2, 3, 4, 5])).2
        ([2, 2, 2, 2].map (fun b : Nat => (b : Int)))) = [1, 2, 3, 4, 5]) ∧
    (∀ x ∈ readTrace (SetResponse
          (run sampleWorld [Event.Activate (some 5) none 10, Event.DoIt, Event.BindDone])
          (XrdSsiRespInfo.isData [1, 2, 3, 4, 5])).2
        ([2, 2, 2, 2].map (fun b : Nat => (b : Int))), x.1.ret = (x.1.buff.length : Int)) ∧
    (∀ k, k < [2, 2, 2, 2].length →
      ((readTrace (SetResponse
          (run sampleWorld [Event.Activate (some 5) none 10, Event.DoIt, Event.BindDone])
          (XrdSsiRespInfo.isData [1, 2, 3, 4, 5])).2
        ([2, 2, 2, 2].map (fun b : Nat => (b : Int))))[k]?).map (fun x => x.1.done) =
        some (decide ([1, 2, 3, 4, 5].length ≤ ([2, 2, 2, 2].take (k + 1)).sum))) :=
  C1_data_round_trip
    (run sampleWorld [Event.Activate (some 5) none 10, Event.DoIt, Event.BindDone])
    [1, 2, 3, 4, 5] [2, 2, 2, 2] (by decide) (by decide) (by decide)

theorem heldBlock_spec (l : StrmLoop GetBuffOut) (hret : l.returned = false) (hb : 0 < l.blen)
    (hok : heldOK l.w) :
    (heldBlock l).w.req.myState = l.w.req.myState ∧ (heldBlock l).w.req.Resp = l.w.req.Resp ∧
    (heldBlock l).w.req.strmEOF = l.w.req.strmEOF ∧
    (((heldBlock l).returned = true ∧ (∃ d, (heldBlock l).w.req.strBuff = some d) ∧
        heldOK (heldBlock l).w ∧ 0 < (heldBlock l).w.req.respLen ∧
        (heldBlock l).out = l.out ++ (heldRem l.w).take l.blen.toNat ∧
        (heldBlock l).xlen = l.xlen + l.blen ∧
        heldRem (heldBlock l).w = (heldRem l.w).drop l.blen.toNat ∧
        l.blen.toNat < (heldRem l.w).length ∧
        strRecycles (heldBlock l).w = strRecycles l.w ∧
        heldCount (heldBlock l).w = heldCount l.w) ∨
     ((heldBlock l).returned = false ∧ (heldBlock l).w.req.strBuff = none ∧
        (heldBlock l).out = l.out ++ heldRem l.w ∧
        (heldBlock l).xlen = l.xlen + (heldRem l.w).length ∧
        (heldBlock l).blen = l.blen - (heldRem l.w).length ∧
        (heldRem l.w).length ≤ l.blen.toNat ∧
        strRecycles (heldBlock l).w = strRecycles l.w + heldCount l.w)) := by
  unfold heldBlock
  cases hs : l.w.req.strBuff with
  | none =>
    simp only [hs]
    simp [heldRem, hs, hret, heldCount]
  | some d =>
    simp only [heldOK, hs] at hok
    obtain ⟨h1, h2, h3⟩ := hok
    simp only []
    by_cases hc : l.w.req.respLen > l.blen
    · rw [if_pos hc]
      refine ⟨rfl, rfl, rfl, Or.inl ⟨rfl, ⟨d, hs⟩, ?_, ?_, ?_, rfl, ?_, ?_, rfl, ?_⟩⟩
      · simp only [heldOK, hs]; omega
      · simp only []; omega
      · simp [heldRem, hs, memcpy]
      · simp only [heldRem, hs, List.drop_drop]
        congr 1; omega
      · simp only [heldRem, hs, List.length_drop]; omega
      · simp [heldCount, hs]
    · rw [if_neg hc]
      refine ⟨rfl, rfl, rfl, Or.inr ⟨hret, rfl, ?_, ?_, ?_, ?_, ?_⟩⟩
      · simp only [heldRem, hs, memcpy]
        rw [List.take_of_length_le (by simp only [List.length_drop]; omega)]
      · simp only [heldRem, hs, List.length_drop]; omega
      · simp only [heldRem, hs, List.length_drop]; omega
      · simp only [heldRem, hs, List.length_drop]; omega
      · simp [strRecycles, emit, heldCount, hs, List.count_append]

theorem scriptBytes_cons (a : GetBuffOut) (rest : List GetBuffOut) :
    scriptBytes (a :: rest) = a.buf.getD [] ++ scriptBytes rest := rfl

theorem chunkCount_cons (a : GetBuffOut) (rest : List GetBuffOut) :
    chunkCount (a :: rest) = (if a.buf.isSome then 1 else 0) + chunkCount rest := by
  simp only [chunkCount, List.countP_cons]; omega

theorem good_cons (a : GetBuffOut) (rest : List GetBuffOut) (h : goodScript (a :: rest)) :
    (a.last = true → rest = []) ∧ (a.last = false → a.buf.isSome = true ∧ goodScript rest) := by
  cases rest with
  | nil => simp_all [goodScript]
  | cons b rest => simp_all [goodScript]

theorem loop_exit (script : List GetBuffOut) (l h : StrmLoop GetBuffOut)
    (hgood : l.w.req.strmEOF = false → goodScript script)
    (hm : h.w.req.myState = l.w.req.myState) (hR : h.w.req.Resp = l.w.req.Resp)
    (hE : h.w.req.strmEOF = l.w.req.strmEOF) (hr : h.returned = false)
    (hsb : h.w.req.strBuff = none) (hout : h.out = l.out ++ heldRem l.w)
    (hxl : h.xlen = l.xlen + (heldRem l.w).length)
    (hbl : h.blen = l.blen - (heldRem l.w).length)
    (hle : (heldRem l.w).length ≤ l.blen.toNat)
    (hrc : strRecycles h.w = strRecycles l.w + heldCount l.w)
    (hc : h.w.req.strmEOF = true ∨ h.blen = 0) :
    loopPost script l { h with rest := script } := by
  have hhc : heldCount h.w = 0 := by simp [heldCount, hsb]
  refine ⟨?_, ?_, hm, hR, ?_, ?_⟩
  · simp only [hout, loopPend]
    rw [List.take_append_eq_append_take, List.take_of_length_le hle]
    cases hEl : l.w.req.strmEOF
    · have hb0 : h.blen = 0 := by
        rcases hc with hc | hc
        · rw [hE, hEl] at hc; exact absurd hc (by decide)
        · exact hc
      have : l.blen.toNat - (heldRem l.w).length = 0 := by omega
      simp [this]
    · simp
  · simp only [hxl, loopPend]
    rw [List.take_append_eq_append_take, List.take_of_length_le hle]
    cases hEl : l.w.req.strmEOF
    · have hb0 : h.blen = 0 := by
        rcases hc with hc | hc
        · rw [hE, hEl] at hc; exact absurd hc (by decide)
        · exact hc
      have : l.blen.toNat - (heldRem l.w).length = 0 := by omega
      simp [this]
    · simp
  · simp only [hrc, hhc]; omega
  · cases hEl : l.w.req.strmEOF
    · have hb0 : h.blen = 0 := by
        rcases hc with hc | hc
        · rw [hE, hEl] at hc; exact absurd hc (by decide)
        · exact hc
      refine Or.inr (Or.inr ⟨hr, hsb, hE.trans hEl, hb0, hgood hEl, ?_, ?_⟩)
      · simp only [loopPend, hEl]
        rw [List.drop_append_eq_append_drop, List.drop_of_length_le (by omega)]
        have : l.blen.toNat - (heldRem l.w).length = 0 := by omega
        simp [this]
      · simp only [loopPend, List.length_append]; omega
    · refine Or.inr (Or.inl ⟨hr, hsb, hE.trans hEl, ?_⟩)
      simp [loopPend, hEl, hle]

theorem loop_returned (script : List GetBuffOut) (l h : StrmLoop GetBuffOut)
    (hgood : l.w.req.strmEOF = false → goodScript script)
    (hm : h.w.req.myState = l.w.req.myState) (hR : h.w.req.Resp = l.w.req.Resp)
    (hE : h.w.req.strmEOF = l.w.req.strmEOF) (hr : h.returned = true)
    (hd : ∃ d, h.w.req.strBuff = some d) (hok : heldOK h.w) (hpos : 0 < h.w.req.respLen)
    (hout : h.out = l.out ++ (heldRem l.w).take l.blen.toNat)
    (hxl : h.xlen = l.xlen + l.blen) (hb : 0 < l.blen)
    (hrem : heldRem h.w = (heldRem l.w).drop l.blen.toNat)
    (hlt : l.blen.toNat < (heldRem l.w).length)
    (hrc : strRecycles h.w = strRecycles l.w) (hhc : heldCount h.w = heldCount l.w) :
    loopPost script l { h with rest := script } := by
  have hz : l.blen.toNat - (heldRem l.w).length = 0 := by omega
  refine ⟨?_, ?_, hm, hR, ?_, Or.inl ⟨hr, hd, hok, hpos, ?_, ?_, ?_⟩⟩
  · simp only [hout, loopPend]
    rw [List.take_append_eq_append_take, hz]
    simp
  · simp only [hxl, loopPend]
    rw [List.take_append_eq_append_take, hz]
    simp only [List.take_zero, List.append_nil, List.length_take]
    omega
  · simp only [hrc, hhc]
  · simp only [loopPend, hrem, hE]
    rw [List.drop_append_eq_append_drop, hz]
    simp
  · intro h0
    exact hgood (hE ▸ h0)
  · simp only [loopPend, List.length_append]; omega

theorem readStrmA_loop_spec (script : List GetBuffOut) :
    ∀ l : StrmLoop GetBuffOut, l.returned = false → 0 < l.blen → heldOK l.w →
      (l.w.req.strmEOF = false → goodScript script) →
      loopPost script l (readStrmA_loop script l) := by
  induction script with
  | nil =>
    intro l hret hb hok hgood
    have hEl : l.w.req.strmEOF = true := by
      cases h : l.w.req.strmEOF
      · exact absurd (hgood h) (by simp [goodScript])
      · rfl
    rw [readStrmA_loop]
    obtain ⟨hm, hR, hE, hcase⟩ := heldBlock_spec l hret hb hok
    generalize heldBlock l = h at hm hR hE hcase ⊢
    simp only []
    rcases hcase with ⟨hr, hd, hok2, hpos, hout, hxl, hrem, hlt, hrc, hhc⟩ |
      ⟨hr, hsb, hout, hxl, hbl, hle, hrc⟩
    · rw [if_pos hr]
      exact loop_returned [] l h hgood hm hR hE hr hd hok2 hpos hout hxl hb hrem hlt hrc hhc
    · rw [if_neg (by simp [hr])]
      rw [if_neg (by simp [hE, hEl])]
      exact loop_exit [] l h hgood hm hR hE hr hsb hout hxl hbl hle hrc (Or.inl (hE.trans hEl))
  | cons a rest ih =>
    intro l hret hb hok hgood
    rw [readStrmA_loop]
    obtain ⟨hm, hR, hE, hcase⟩ := heldBlock_spec l hret hb hok
    generalize heldBlock l = h at hm hR hE hcase ⊢
    simp only []
    rcases hcase with ⟨hr, hd, hok2, hpos, hout, hxl, hrem, hlt, hrc, hhc⟩ |
      ⟨hr, hsb, hout, hxl, hbl, hle, hrc⟩
    · rw [if_pos hr]
      exact loop_returned _ l h hgood hm hR hE hr hd hok2 hpos hout hxl hb hrem hlt hrc hhc
    · rw [if_neg (by simp [hr])]
      by_cases hcond : (!h.w.req.strmEOF && h.blen != 0) = true
      · rw [if_pos hcond]
        simp only [Bool.and_eq_true, Bool.not_eq_true', bne_iff_ne, ne_eq] at hcond
        obtain ⟨hE0, hb0⟩ := hcond
        have hEl : l.w.req.strmEOF = false := hE ▸ hE0
        have hg := good_cons a rest (hgood hEl)
        have hhc : heldCount h.w = 0 := by simp [heldCount, hsb]
        cases hbuf : a.buf with
        | none =>
          have hlast : a.last = true := by
            cases hl : a.last
            · have := (hg.2 hl).1; simp [hbuf] at this
            · rfl
          have hrest : rest = [] := hg.1 hlast
          have hsome : (getBuffCall h a).w.req.strBuff.isSome = false := by
            simp [getBuffCall, hbuf]
          rw [if_neg (by simp [hsome])]
          refine ⟨?_, ?_, ?_, ?_, ?_, Or.inr (Or.inl ⟨?_, ?_, ?_, ?_⟩)⟩
          · simp only [getBuffCall, hout, loopPend, hEl, scriptBytes_cons, hbuf, hrest]
            simp [scriptBytes, List.take_of_length_le hle]
          · simp only [getBuffCall, hxl, loopPend, hEl, scriptBytes_cons, hbuf, hrest]
            simp [scriptBytes, List.take_of_length_le hle]
          · simpa [getBuffCall] using hm
          · simpa [getBuffCall] using hR
          · simp only [getBuffCall, chunkCount_cons, hbuf, heldCount, strRecycles] at hrc ⊢
            simp [hrc]
          · simpa [getBuffCall] using hr
          · simp [getBuffCall, hbuf]
          · simp [getBuffCall, hlast]
          · simp only [loopPend, hEl, scriptBytes_cons, hbuf, hrest]
            simp [scriptBytes, hle]
        | some d =>
          have hsome : (getBuffCall h a).w.req.strBuff.isSome = true := by
            simp [getBuffCall, hbuf]
          rw [if_pos hsome]
          have hb2 : 0 < (getBuffCall h a).blen := by
            simp only [getBuffCall]; omega
          have hok3 : heldOK (getBuffCall h a).w := by
            simp [heldOK, getBuffCall, hbuf]
          have hg3 : (getBuffCall h a).w.req.strmEOF = false → goodScript rest := by
            intro h0
            have : a.last = false := by simpa [getBuffCall] using h0
            exact (hg.2 this).2
          have hp := ih (getBuffCall h a) (by simpa [getBuffCall] using hr) hb2 hok3 hg3
          generalize readStrmA_loop rest (getBuffCall h a) = r at hp ⊢
          have hpend : loopPend (getBuffCall h a).w rest = scriptBytes (a :: rest) := by
            simp only [loopPend, heldRem, getBuffCall, hbuf, scriptBytes_cons, Int.toNat_zero,
              List.drop_zero, Option.getD_some]
            cases hl : a.last
            · simp
            · simp [hg.1 hl, scriptBytes]
          have hP : loopPend l.w (a :: rest) = heldRem l.w ++ scriptBytes (a :: rest) := by
            simp [loopPend, hEl]
          have hbl2 : (getBuffCall h a).blen.toNat = l.blen.toNat - (heldRem l.w).length := by
            simp only [getBuffCall]; omega
          obtain ⟨p1, p2, p3, p4, p5, p6⟩ := hp
          rw [hpend, hbl2] at p1 p2 p6
          refine ⟨?_, ?_, ?_, ?_, ?_, ?_⟩
          · rw [p1, hP, List.take_append_eq_append_take, List.take_of_length_le hle]
            simp [getBuffCall, hout]
          · rw [p2, hP, List.take_append_eq_append_take, List.take_of_length_le hle]
            simp only [getBuffCall, hxl, List.length_append, List.length_take]
            push_cast
            omega
          · rw [p3]; simpa [getBuffCall] using hm
          · rw [p4]; simpa [getBuffCall] using hR
          · rw [p5]
            simp only [getBuffCall, chunkCount_cons, hbuf, heldCount, strRecycles] at hrc ⊢
            simp [hrc]; omega
          · rcases p6 with ⟨q1, q2, q3, q4, q5, q6, q7⟩ | ⟨q1, q2, q3, q4⟩ |
              ⟨q1, q2, q3, q4, q5, q6, q7⟩
            · refine Or.inl ⟨q1, q2, q3, q4, ?_, q6, ?_⟩
              · rw [q5, hP, List.drop_append_eq_append_drop, List.drop_of_length_le hle]
                simp
              · rw [hP, List.length_append]; omega
            · refine Or.inr (Or.inl ⟨q1, q2, q3, ?_⟩)
              rw [hP, List.length_append]; omega
            · refine Or.inr (Or.inr ⟨q1, q2, q3, q4, q5, ?_, ?_⟩)
              · rw [q6, hP, List.drop_append_eq_append_drop, List.drop_of_length_le hle]
                simp
              · rw [hP, List.length_append]; omega
      · rw [if_neg hcond]
        have hc : h.w.req.strmEOF = true ∨ h.blen = 0 := by
          simp only [Bool.and_eq_true, Bool.not_eq_true', bne_iff_ne, ne_eq, not_and,
            Decidable.not_not] at hcond
          cases hh : h.w.req.strmEOF
          · exact Or.inr (hcond hh)
          · exact Or.inl rfl
        exact loop_exit _ l h hgood hm hR hE hr hsb hout hxl hbl hle hrc hc

theorem setGetBuff_eq (w : World) (s : XrdSsiStream) (sc : List GetBuffOut)
    (h : w.req.Resp = XrdSsiRespInfo.isStream s) :
    setGetBuff w sc =
      { w with req := { w.req with Resp := XrdSsiRespInfo.isStream { s with getBuff := sc } } } := by
  simp [setGetBuff, h]

theorem Read_strm_step (w : World) (b : Nat) (hI : strmInv w) (hb : 0 < b) :
    (Read w false b).1.buff = (strmPend w).take b ∧
    (Read w false b).1.ret = ((Read w false b).1.buff.length : Int) ∧
    (Read w false b).1.done =
      ((Read w false b).2.req.strmEOF && (Read w false b).2.req.strBuff.isNone) ∧
    strRecycles (Read w false b).2 + heldCount (Read w false b).2 +
        chunkCount (respScript (Read w false b).2) =
      strRecycles w + heldCount w + chunkCount (respScript w) ∧
    ((strmExh (Read w false b).2 ∧ (strmPend w).length ≤ b ∧ (Read w false b).1.done = true) ∨
     (strmInv (Read w false b).2 ∧ strmPend (Read w false b).2 = (strmPend w).drop b ∧
      (Read w false b).1.done = false ∧ b ≤ (strmPend w).length)) := by
  obtain ⟨h1, ⟨s, h2, h3⟩, h4, h5, h6, h7⟩ := hI
  have hrs : respScript w = s.getBuff := by simp [respScript, h2]
  have hp := readStrmA_loop_spec s.getBuff
    { w := w, blen := b, xlen := 0, dlen := 0, out := [], eObj := { eNum := 0, eMsg := "" },
      returned := false, rest := [] } rfl (by simpa using hb) h4
    (by intro h0; rw [← hrs]; exact h6 h0)
  unfold Read
  simp only [h1, ne_eq, not_true_eq_false, if_false, h2, h3, if_true]
  unfold readStrmA
  simp only []
  generalize readStrmA_loop s.getBuff _ = r at hp ⊢
  obtain ⟨p1, p2, p3, p4, p5, p6⟩ := hp
  simp only [Int.toNat_ofNat, List.nil_append, zero_add] at p1 p2 p3 p4 p5 p6
  have hR : r.w.req.Resp = XrdSsiRespInfo.isStream s := p4.trans h2
  rw [setGetBuff_eq r.w s r.rest hR]
  have hpend : strmPend w = loopPend w s.getBuff := by simp [strmPend, hrs]
  rw [hpend, hrs]
  rcases p6 with ⟨q1, ⟨d, q2⟩, q3, q4, q5, q6, q7⟩ | ⟨q1, q2, q3, q4⟩ |
    ⟨q1, q2, q3, q4, q5, q6, q7⟩
  · simp only [q1, if_true]
    refine ⟨p1, ?_, ?_, ?_, Or.inr ⟨⟨?_, ?_, ?_, ?_, ?_, ?_⟩, ?_, ?_, ?_⟩⟩
    · rw [p2, p1]
    · simp [q2]
    · simpa [strRecycles, heldCount, respScript] using p5
    · exact p3.trans h1
    · exact ⟨_, rfl, h3⟩
    · simpa [heldOK] using q3
    · intro _ _; exact q4
    · intro h0; simpa [respScript] using q6 h0
    · intro _; simp [q2]
    · simpa [strmPend, loopPend, heldRem, respScript] using q5
    · simp [q2]
    · omega
  · simp only [q1, q3, Bool.false_eq_true, ↓reduceIte]
    refine ⟨p1, ?_, ?_, ?_, Or.inl ⟨⟨rfl, rfl, q2⟩, q4, ?_⟩⟩
    · rw [p2, p1]
    · simp [q2, q3]
    · simpa [strRecycles, heldCount, respScript] using p5
    · simp [q2, q3]
  · simp only [q1, q3, q4, Bool.false_eq_true, ↓reduceIte]
    refine ⟨p1, ?_, ?_, ?_, Or.inr ⟨⟨?_, ?_, ?_, ?_, ?_, ?_⟩, ?_, ?_, ?_⟩⟩
    · rw [p2, p1]
    · simp [q3]
    · simpa [strRecycles, heldCount, respScript] using p5
    · exact p3.trans h1
    · exact ⟨_, rfl, h3⟩
    · simp [heldOK, q2]
    · intro d hd; simp [q2] at hd
    · intro _; simpa [respScript] using q5
    · intro h0; simp [q3] at h0
    · simpa [strmPend, loopPend, heldRem, respScript, q2, q3] using q6
    · simp [q3]
    · exact q7

theorem pairwise_exhausted (blens : List Int) (w : World) :
    (blens.map (fun _ => (({ ret := 0, done := true, buff := [] } : ReadOut), w))).Pairwise
      (fun x y => x.1.done = true → y.1 = { ret := 0, done := true, buff := [] }) := by
  induction blens with
  | nil => simp
  | cons b bs ih =>
    simp only [List.map_cons, List.pairwise_cons]
    refine ⟨?_, ih⟩
    intro y hy _
    simp only [List.mem_map] at hy
    obtain ⟨_, _, hy⟩ := hy
    rw [← hy]

/-- Once a call of a read sequence reports `done`, every later call hands back
0 bytes with `done` set. -/
theorem trace_after_done (Inv : World → Prop)
    (hstep : ∀ (w : World) (b : Nat), Inv w → 0 < b →
      ((Read w false b).1.done = true → (Read w false b).2.req.myState = reqState.odRsp) ∧
      ((Read w false b).2.req.myState = reqState.odRsp ∨ Inv (Read w false b).2)) :
    ∀ (blens : List Nat) (w : World), Inv w → (∀ b ∈ blens, 0 < b) →
      (readTrace w (blens.map (fun b : Nat => (b : Int)))).Pairwise
        (fun x y => x.1.done = true → y.1 = { ret := 0, done := true, buff := [] }) := by
  intro blens
  induction blens with
  | nil => intro w _ _; simp [readTrace]
  | cons b bs ih =>
    intro w hI hb
    have hs := hstep w b hI (hb b (List.mem_cons_self _ _))
    simp only [List.map_cons, readTrace, List.pairwise_cons]
    constructor
    · intro y hy hd
      rw [readTrace_exhausted _ _ (hs.1 hd)] at hy
      simp only [List.mem_map] at hy
      obtain ⟨_, _, hy⟩ := hy
      rw [← hy]
    · rcases hs.2 with h2 | h2
      · rw [readTrace_exhausted _ _ h2]
        exact pairwise_exhausted _ _
      · exact ih _ h2 (fun y hy => hb y (List.mem_cons_of_mem _ hy))

/-- A call of a read sequence reports `done` only when the lengths requested
cover the pending bytes. -/
theorem trace_done_covers (Inv : World → Prop) (pend : World → List Byte)
    (hstep : ∀ (w : World) (b : Nat), Inv w → 0 < b →
      ((Read w false b).1.done = true → (pend w).length ≤ b) ∧
      (((Read w false b).2.req.myState = reqState.odRsp ∧ (pend w).length ≤ b) ∨
       (Inv (Read w false b).2 ∧ pend (Read w false b).2 = (pend w).drop b))) :
    ∀ (blens : List Nat) (w : World), Inv w → (∀ b ∈ blens, 0 < b) →
      (∃ x ∈ readTrace w (blens.map (fun b : Nat => (b : Int))), x.1.done = true) →
      (pend w).length ≤ blens.sum := by
  intro blens
  induction blens with
  | nil => intro w _ _ hx; simp [readTrace] at hx
  | cons b bs ih =>
    intro w hI hb hx
    have hs := hstep w b hI (hb b (List.mem_cons_self _ _))
    obtain ⟨x, hx, hd⟩ := hx
    simp only [List.map_cons, readTrace, List.mem_cons] at hx
    simp only [List.sum_cons]
    rcases hx with hx | hx
    · rw [hx] at hd
      have := hs.1 hd
      omega
    · rcases hs.2 with ⟨_, hl⟩ | ⟨hI2, hp⟩
      · omega
      · have := ih _ hI2 (fun y hy => hb y (List.mem_cons_of_mem _ hy)) ⟨x, hx, hd⟩
        rw [hp, List.length_drop] at this
        omega

/-- A read sequence that asks for more than the pending bytes sees `done`. -/
theorem trace_eventually_done (Inv : World → Prop) (pend : World → List Byte)
    (hstep : ∀ (w : World) (b : Nat), Inv w → 0 < b →
      ((Read w false b).1.done = true) ∨
       (Inv (Read w false b).2 ∧ pend (Read w false b).2 = (pend w).drop b ∧
        b ≤ (pend w).length)) :
    ∀ (blens : List Nat) (w : World), Inv w → (∀ b ∈ blens, 0 < b) →
      (pend w).length < blens.sum →
      ∃ x ∈ readTrace w (blens.map (fun b : Nat => (b : Int))), x.1.done = true := by
  intro blens
  induction blens with
  | nil => intro w _ _ hl; simp at hl
  | cons b bs ih =>
    intro w hI hb hl
    simp only [List.sum_cons] at hl
    simp only [List.map_cons, readTrace]
    rcases hstep w b hI (hb b (List.mem_cons_self _ _)) with hd | ⟨hI2, hp, hle⟩
    · exact ⟨_, List.mem_cons_self _ _, hd⟩
    · obtain ⟨x, hx, hd⟩ := ih _ hI2 (fun y hy => hb y (List.mem_cons_of_mem _ hy))
        (by rw [hp, List.length_drop]; omega)
      exact ⟨x, List.mem_cons_of_mem _ hx, hd⟩

theorem chunkScript_spec (cs : List (List Byte)) (withLast : Bool) :
    goodScript (chunkScript cs withLast) ∧ scriptBytes (chunkScript cs withLast) = cs.flatten ∧
    chunkCount (chunkScript cs withLast) = cs.length := by
  induction cs with
  | nil => simp [chunkScript, goodScript, scriptBytes, chunkCount]
  | cons c cs ih =>
    unfold chunkScript
    by_cases hc : (cs.isEmpty && withLast) = true
    · rw [if_pos hc]
      simp only [Bool.and_eq_true, List.isEmpty_iff] at hc
      simp [goodScript, scriptBytes, chunkCount, hc.1]
    · rw [if_neg hc]
      obtain ⟨g1, g2, g3⟩ := ih
      refine ⟨?_, ?_, ?_⟩
      · cases hcs : chunkScript cs withLast with
        | nil => rw [hcs] at g1; exact absurd g1 (by simp [goodScript])
        | cons a rest => rw [hcs] at g1; exact ⟨rfl, rfl, g1⟩
      · rw [scriptBytes_cons, g2]; rfl
      · rw [chunkCount_cons, g3]; simp; omega

theorem strmInv_attach (w0 : World) (cs : List (List Byte)) (withLast : Bool)
    (sb : List SetBuffOut)
    (hu : w0.req.urState = rspState.isBegun ∨ w0.req.urState = rspState.isBound)
    (h1 : w0.req.strBuff = none) (h2 : w0.req.strmEOF = false) :
    (SetResponse w0 (XrdSsiRespInfo.isStream
      { sType := StreamType.isActive, getBuff := chunkScript cs withLast, setBuff := sb })).1 = true ∧
    strmInv (SetResponse w0 (XrdSsiRespInfo.isStream
      { sType := StreamType.isActive, getBuff := chunkScript cs withLast, setBuff := sb })).2 ∧
    strmPend (SetResponse w0 (XrdSsiRespInfo.isStream
      { sType := StreamType.isActive, getBuff := chunkScript cs withLast, setBuff := sb })).2 =
      cs.flatten ∧
    heldCount (SetResponse w0 (XrdSsiRespInfo.isStream
      { sType := StreamType.isActive, getBuff := chunkScript cs withLast, setBuff := sb })).2 +
      chunkCount (respScript (SetResponse w0 (XrdSsiRespInfo.isStream
      { sType := StreamType.isActive, getBuff := chunkScript cs withLast, setBuff := sb })).2) =
      cs.length := by
  have hu2 : ¬ (w0.req.urState ≠ rspState.isBegun ∧ w0.req.urState ≠ rspState.isBound) := by
    rcases hu with hu | hu <;> simp [hu]
  obtain ⟨g1, g2, g3⟩ := chunkScript_spec cs withLast
  unfold SetResponse ProcessResponse
  simp only []
  rw [if_neg hu2]
  simp only [true_and]
  refine ⟨?_, ?_, ?_⟩
  · unfold strmInv
    split <;> simp [WakeUp, emit, heldOK, respScript, h1, h2, g1]
  · unfold strmPend loopPend
    split <;> simp [WakeUp, emit, heldRem, respScript, h1, h2, g2]
  · split <;> simp [WakeUp, emit, heldCount, respScript, h1, g3]

/-- C2: an active stream whose producer yields the chunks `cs` (of any lengths)
and then signals end of stream, with the last chunk or by a null return, is
handed to a request in `isBegun` or `isBound` that holds no chunk, and read
with any positive buffer lengths `blens`. The bytes handed back, in call order,
are the first `sum blens` bytes of `cs.flatten`, each byte once. Every call
returns the number of bytes it stored and reports `done` exactly when, after
it, end of stream has been signalled and no chunk is held; after every call
each chunk is still with the producer, held, or released once, and a held
chunk has bytes left to copy (a chunk is released when, and only when, it is
drained). Once a call reports `done`, all of `cs.flatten` has been handed back
and every later call returns 0 bytes with `done` set; and a sequence that asks
for more than `cs.flatten` has does see `done`. -/
theorem C2_active_stream_delivery (w0 : World) (cs : List (List Byte)) (withLast : Bool)
    (sb : List SetBuffOut) (blens : List Nat)
    (hu : w0.req.urState = rspState.isBegun ∨ w0.req.urState = rspState.isBound)
    (h1 : w0.req.strBuff = none) (h2 : w0.req.strmEOF = false) (hb : ∀ b ∈ blens, 0 < b) :
    (SetResponse w0 (activeStream cs withLast sb)).1 = true ∧
    bytesOf (readTrace (SetResponse w0 (activeStream cs withLast sb)).2
      (blens.map (fun b : Nat => (b : Int)))) = cs.flatten.take blens.sum ∧
    (∀ x ∈ readTrace (SetResponse w0 (activeStream cs withLast sb)).2
        (blens.map (fun b : Nat => (b : Int))),
      x.1.ret = (x.1.buff.length : Int) ∧
      x.1.done = (x.2.req.strmEOF && x.2.req.strBuff.isNone) ∧
      strRecycles x.2 + heldCount x.2 + chunkCount (respScript x.2) =
        strRecycles (SetResponse w0 (activeStream cs withLast sb)).2 + cs.length ∧
      (∀ d, x.2.req.strBuff = some d →
        0 < x.2.req.respLen ∧ 0 ≤ x.2.req.respOff ∧
        x.2.req.respOff + x.2.req.respLen = d.length)) ∧
    (readTrace (SetResponse w0 (activeStream cs withLast sb)).2
        (blens.map (fun b : Nat => (b : Int)))).Pairwise
      (fun x y => x.1.done = true → y.1 = { ret := 0, done := true, buff := [] }) ∧
    ((∃ x ∈ readTrace (SetResponse w0 (activeStream cs withLast sb)).2
        (blens.map (fun b : Nat => (b : Int))), x.1.done = true) →
      bytesOf (readTrace (SetResponse w0 (activeStream cs withLast sb)).2
        (blens.map (fun b : Nat => (b : Int)))) = cs.flatten) ∧
    (cs.flatten.length < blens.sum →
      ∃ x ∈ readTrace (SetResponse w0 (activeStream cs withLast sb)).2
        (blens.map (fun b : Nat => (b : Int))), x.1.done = true) := by
  obtain ⟨a1, a2, a3, a4⟩ := strmInv_attach w0 cs withLast sb hu h1 h2
  unfold activeStream
  generalize (SetResponse w0 (XrdSsiRespInfo.isStream
    { sType := StreamType.isActive, getBuff := chunkScript cs withLast, setBuff := sb })) = at0
    at a1 a2 a3 a4 ⊢
  have hbytes := trace_bytes strmInv strmPend
    (fun w b hI hb0 => by
      have h := Read_strm_step w b hI hb0
      refine ⟨h.1, ?_⟩
      rcases h.2.2.2.2 with hx | hx
      · exact Or.inl ⟨hx.1.1, hx.2.1⟩
      · exact Or.inr ⟨hx.1, hx.2.1⟩) blens at0.2 a2 hb
  rw [a3] at hbytes
  refine ⟨a1, hbytes, ?_, ?_, ?_, ?_⟩
  · have hN : chunksSeen at0.2 = strRecycles at0.2 + cs.length := by
      simp only [chunksSeen]; omega
    exact trace_forall (fun w => strmInv w ∧ chunksSeen w = strRecycles at0.2 + cs.length)
      (fun w => strmExh w ∧ chunksSeen w = strRecycles at0.2 + cs.length)
      (fun x => x.1.ret = (x.1.buff.length : Int) ∧
        x.1.done = (x.2.req.strmEOF && x.2.req.strBuff.isNone) ∧
        strRecycles x.2 + heldCount x.2 + chunkCount (respScript x.2) =
          strRecycles at0.2 + cs.length ∧
        (∀ d, x.2.req.strBuff = some d →
          0 < x.2.req.respLen ∧ 0 ≤ x.2.req.respOff ∧
          x.2.req.respOff + x.2.req.respLen = d.length))
      (fun w b hI hb0 => by
        obtain ⟨s1, s2, s3, s4, s5⟩ := Read_strm_step w b hI.1 hb0
        have hc : chunksSeen (Read w false b).2 = strRecycles at0.2 + cs.length := by
          rw [← hI.2]; exact s4
        refine ⟨⟨s2, s3, hc, ?_⟩, ?_⟩
        · intro d hd
          rcases s5 with hx | hx
          · rw [hx.1.2.2] at hd; exact absurd hd (by simp)
          · obtain ⟨_, _, k1, k2, _, _⟩ := hx.1
            simp only [heldOK, hd] at k1
            exact ⟨k2 d hd, k1.1, k1.2.2⟩
        · rcases s5 with hx | hx
          · exact Or.inl ⟨hx.1, hc⟩
          · exact Or.inr ⟨hx.1, hc⟩)
      (fun w hw => by
        obtain ⟨⟨e1, e2, e3⟩, hc⟩ := hw
        refine ⟨e1, rfl, ?_, hc, ?_⟩
        · simp [e2, e3]
        · intro d hd; rw [e3] at hd; exact absurd hd (by simp))
      blens at0.2 ⟨a2, hN⟩ hb
  · exact trace_after_done strmInv
      (fun w b hI hb0 => by
        have h := Read_strm_step w b hI hb0
        rcases h.2.2.2.2 with hx | hx
        · exact ⟨fun _ => hx.1.1, Or.inl hx.1.1⟩
        · exact ⟨fun hd => by rw [hx.2.2.1] at hd; exact absurd hd (by simp), Or.inr hx.1⟩)
      blens at0.2 a2 hb
  · intro hx
    have hl := trace_done_covers strmInv strmPend
      (fun w b hI hb0 => by
        have h := Read_strm_step w b hI hb0
        rcases h.2.2.2.2 with hx | hx
        · exact ⟨fun _ => hx.2.1, Or.inl ⟨hx.1.1, hx.2.1⟩⟩
        · exact ⟨fun hd => by rw [hx.2.2.1] at hd; exact absurd hd (by simp),
            Or.inr ⟨hx.1, hx.2.1⟩⟩)
      blens at0.2 a2 hb hx
    rw [a3] at hl
    rw [hbytes, List.take_of_length_le hl]
  · intro hl
    exact trace_eventually_done strmInv strmPend
      (fun w b hI hb0 => by
        have h := Read_strm_step w b hI hb0
        rcases h.2.2.2.2 with hx | hx
        · exact Or.inl hx.2.2
        · exact Or.inr ⟨hx.1, hx.2.1, hx.2.2.2⟩)
      blens at0.2 a2 hb (by rw [a3]; exact hl)

/-- C2, at the chunks `[1,2,3]`, `[]`, `[4,5]` with end of stream signalled by
a null return, read with buffers of 2, 2, 2 and 2 bytes. -/
theorem C2_active_stream_delivery_witness :
    (SetResponse (run sampleWorld [Event.Activate (some 5) none 10, Event.DoIt, Event.BindDone])
      (activeStream [[1, 2, 3], [], [4, 5]] false [])).1 = true ∧
    bytesOf (readTrace (SetResponse
        (run sampleWorld [Event.Activate (some 5) none 10, Event.DoIt, Event.BindDone])
        (activeStream [[1, 2, 3], [], [4, 5]] false [])).2
      ([2, 2, 2, 2].map (fun b : Nat => (b : Int)))) =
      [[1, 2, 3], [], [4, 5]].flatten.take [2, 2, 2, 2].sum ∧
    ((∃ x ∈ readTrace (SetResponse
          (run sampleWorld [Event.Activate (some 5) none 10, Event.DoIt, Event.BindDone])
          (activeStream [[1, 2, 3], [], [4, 5]] false [])).2
        ([2, 2, 2, 2].map (fun b : Nat => (b : Int))), x.1.done = true) →
      bytesOf (readTrace (SetResponse
          (run sampleWorld [Event.Activate (some 5) none 10, Event.DoIt, Event.BindDone])
          (activeStream [[1, 2, 3], [], [4, 5]] false [])).2
        ([2, 2, 2, 2].map (fun b : Nat => (b : Int)))) = [[1, 2, 3], [], [4, 5]].flatten) ∧
    ([[1, 2, 3], [], [4, 5]].flatten.length < [2, 2, 2, 2].sum →
      ∃ x ∈ readTrace (SetResponse
          (run sampleWorld [Event.Activate (some 5) none 10, Event.DoIt, Event.BindDone])
          (activeStream [[1, 2, 3], [], [4, 5]] false [])).2
        ([2, 2, 2, 2].map (fun b : Nat => (b : Int))), x.1.done = true) :=
  ⟨(C2_active_stream_delivery
      (run sampleWorld [Event.Activate (some 5) none 10, Event.DoIt, Event.BindDone])
      [[1, 2, 3], [], [4, 5]] false [] [2, 2, 2, 2]
      (by decide) (by decide) (by decide) (by decide)).1,
   (C2_active_stream_delivery
      (run sampleWorld [Event.Activate (some 5) none 10, Event.DoIt, Event.BindDone])
      [[1, 2, 3], [], [4, 5]] false [] [2, 2, 2, 2]
      (by decide) (by decide) (by decide) (by decide)).2.1,
   (C2_active_stream_delivery
      (run sampleWorld [Event.Activate (some 5) none 10, Event.DoIt, Event.BindDone])
      [[1, 2, 3], [], [4, 5]] false [] [2, 2, 2, 2]
      (by decide) (by decide) (by decide) (by decide)).2.2.2.2.1,
   (C2_active_stream_delivery
      (run sampleWorld [Event.Activate (some 5) none 10, Event.DoIt, Event.BindDone])
      [[1, 2, 3], [], [4, 5]] false [] [2, 2, 2, 2]
      (by decide) (by decide) (by decide) (by decide)).2.2.2.2.2⟩

/-- C11 (the code at the failing input): a request finalized before the bind
while it holds a partly read stream chunk is put on the free list by the
follow-up `DoIt` with `strBuff` still set, and the chunk is never released
(no `strRecycle` call is made). Likewise a request activated with both buffer
references is pooled with `sfsBref` set, and a request aborted while a
deferred wait is pending is pooled with `respWait` set. -/
theorem C11_pooled_with_live_buffer :
    (run sampleWorld (lifeSeq (some 5) none 10
      [Event.SetResponse sampleStream, Event.Read 1])).pool.freeReq.map (fun r => r.strBuff)
      = [some [1, 2, 3]] ∧
    strRecycles (run sampleWorld (lifeSeq (some 5) none 10
      [Event.SetResponse sampleStream, Event.Read 1])) = 0 ∧
    (run sampleWorld (lifeSeq (some 5) (some 6) 10
      [Event.BindDone])).pool.freeReq.map (fun r => r.sfsBref) = [some 6] ∧
    (run sampleWorld [Event.Activate (some 5) none 10, Event.WantResponse (some 9) 7,
      Event.Done, Event.Finalize, Event.DoIt]).pool.freeReq.map (fun r => r.respWait)
      = [true] := by
  decide

theorem wake_req (c : Prop) [Decidable c] (w : World) :
    (if c then WakeUp w else w).req = { w.req with respWait := if c then false else w.req.respWait } := by
  split <;> simp [WakeUp, emit]

/-- C12: for an envelope with a type (Data, Error, File or Stream),
`ProcessResponse` returns true exactly when `urState` is `isBegun` or
`isBound`; it then leaves `myState = doRsp` and the cursor 0, with the
remaining length set to the data length for Data, to 0 for Error and Stream,
and `fileSz` to the file size for File; when `urState` is `isNew`, `isAbort`
or `isDone` it returns false and the world is unchanged. -/
theorem C12_process_response (w : World) (r : XrdSsiRespInfo)
    (hr : r ≠ XrdSsiRespInfo.isNone) :
    ((ProcessResponse w r).1 = true ↔
      (w.req.urState = rspState.isBegun ∨ w.req.urState = rspState.isBound)) ∧
    ((ProcessResponse w r).1 = true →
      (ProcessResponse w r).2.req.myState = reqState.doRsp ∧
      (ProcessResponse w r).2.req.respOff = 0 ∧
      (∀ buff, r = XrdSsiRespInfo.isData buff →
        (ProcessResponse w r).2.req.respLen = buff.length) ∧
      (∀ eNum eMsg, r = XrdSsiRespInfo.isError eNum eMsg →
        (ProcessResponse w r).2.req.respLen = 0) ∧
      (∀ strmP, r = XrdSsiRespInfo.isStream strmP →
        (ProcessResponse w r).2.req.respLen = 0) ∧
      (∀ fdnum fsize, r = XrdSsiRespInfo.isFile fdnum fsize →
        (ProcessResponse w r).2.req.fileSz = fsize)) ∧
    ((w.req.urState = rspState.isNew ∨ w.req.urState = rspState.isAbort ∨
        w.req.urState = rspState.isDone) → ProcessResponse w r = (false, w)) := by
  unfold ProcessResponse
  cases hu : w.req.urState <;> cases r <;> simp [wake_req] at hr ⊢

/-- C12, at a dispatched request and a data envelope of two bytes. -/
theorem C12_process_response_witness :
    ((ProcessResponse (run sampleWorld [Event.Activate (some 5) none 10, Event.DoIt])
        (XrdSsiRespInfo.isData [1, 2])).1 = true ↔
      ((run sampleWorld [Event.Activate (some 5) none 10, Event.DoIt]).req.urState
          = rspState.isBegun ∨
       (run sampleWorld [Event.Activate (some 5) none 10, Event.DoIt]).req.urState
          = rspState.isBound)) ∧
    (ProcessResponse (run sampleWorld [Event.Activate (some 5) none 10, Event.DoIt])
        (XrdSsiRespInfo.isData [1, 2])).2.req.myState = reqState.doRsp ∧
    (ProcessResponse (run sampleWorld [Event.Activate (some 5) none 10, Event.DoIt])
        (XrdSsiRespInfo.isData [1, 2])).2.req.respOff = 0 ∧
    (ProcessResponse (run sampleWorld [Event.Activate (some 5) none 10, Event.DoIt])
        (XrdSsiRespInfo.isData [1, 2])).2.req.respLen = 2 :=
  ⟨(C12_process_response (run sampleWorld [Event.Activate (some 5) none 10, Event.DoIt])
      (XrdSsiRespInfo.isData [1, 2]) (by decide)).1,
   ((C12_process_response (run sampleWorld [Event.Activate (some 5) none 10, Event.DoIt])
      (XrdSsiRespInfo.isData [1, 2]) (by decide)).2.1 (by decide)).1,
   ((C12_process_response (run sampleWorld [Event.Activate (some 5) none 10, Event.DoIt])
      (XrdSsiRespInfo.isData [1, 2]) (by decide)).2.1 (by decide)).2.1,
   ((C12_process_response (run sampleWorld [Event.Activate (some 5) none 10, Event.DoIt])
      (XrdSsiRespInfo.isData [1, 2]) (by decide)).2.1 (by decide)).2.2.1 [1, 2] rfl⟩

theorem ProcessResponse_urState (w : World) (r : XrdSsiRespInfo) :
    (ProcessResponse w r).2.req.urState = w.req.urState := by
  unfold ProcessResponse
  split
  · rfl
  · cases r <;> simp [wake_req]

theorem mid_urState (mid : List Event) (w : World) (hm : ∀ e ∈ mid, e.isMid = true)
    (hu : w.req.urState = rspState.isBegun ∨ w.req.urState = rspState.isBound) :
    (run w mid).req.urState = rspState.isBegun ∨ (run w mid).req.urState = rspState.isBound := by
  have h := congrArg Abs.urState ((abs_run mid w).trans (mid_foldl mid (abs w) hm hu))
  have h2 : (run w mid).req.urState =
      if w.req.urState = rspState.isBound ∨ Event.BindDone ∈ mid then rspState.isBound
      else rspState.isBegun := h
  rw [h2]
  split
  · exact Or.inr rfl
  · exact Or.inl rfl

/-- C13 (counterexample): on a bound request whose two-byte data envelope has
been read in part (cursor 1, remaining 1), a second `ProcessResponse` with
another data envelope returns true and resets the cursor to 0 and the
remaining length to 3. -/
theorem C13_counterexample :
    (run (sampleWith (XrdSsiRespInfo.isData [1, 2])) [Event.Read 1]).req.respOff = 1 ∧
    (run (sampleWith (XrdSsiRespInfo.isData [1, 2])) [Event.Read 1]).req.respLen = 1 ∧
    (ProcessResponse (run (sampleWith (XrdSsiRespInfo.isData [1, 2])) [Event.Read 1])
      (XrdSsiRespInfo.isData [7, 8, 9])).1 = true ∧
    (ProcessResponse (run (sampleWith (XrdSsiRespInfo.isData [1, 2])) [Event.Read 1])
      (XrdSsiRespInfo.isData [7, 8, 9])).2.req.respOff = 0 ∧
    (ProcessResponse (run (sampleWith (XrdSsiRespInfo.isData [1, 2])) [Event.Read 1])
      (XrdSsiRespInfo.isData [7, 8, 9])).2.req.respLen = 3 := by
  decide

/-- C13 (amended): `ProcessResponse` does not itself limit a request to one
envelope. Once it has returned true, a later call with an envelope that has a
type, after any bind / envelope / read / deferred-wait calls, returns true
again and sets `myState = doRsp` and the cursor to 0 anew; a call returns
false and leaves the world unchanged whenever `urState` is neither `isBegun`
nor `isBound`. -/
theorem C13_later_envelope_accepted (w : World) (r1 r2 : XrdSsiRespInfo) (mid : List Event)
    (h1 : (ProcessResponse w r1).1 = true) (h2 : r2 ≠ XrdSsiRespInfo.isNone)
    (hm : ∀ e ∈ mid, e.isMid = true) :
    (ProcessResponse (run (ProcessResponse w r1).2 mid) r2).1 = true ∧
    (ProcessResponse (run (ProcessResponse w r1).2 mid) r2).2.req.myState = reqState.doRsp ∧
    (ProcessResponse (run (ProcessResponse w r1).2 mid) r2).2.req.respOff = 0 ∧
    (∀ buff, r2 = XrdSsiRespInfo.isData buff →
      (ProcessResponse (run (ProcessResponse w r1).2 mid) r2).2.req.respLen = buff.length) ∧
    (∀ v : World, ¬ (v.req.urState = rspState.isBegun ∨ v.req.urState = rspState.isBound) →
      ProcessResponse v r2 = (false, v)) := by
  have hu : w.req.urState = rspState.isBegun ∨ w.req.urState = rspState.isBound := by
    unfold ProcessResponse at h1
    split at h1
    · simp at h1
    · rename_i hn
      cases hw : w.req.urState <;> simp_all
  have hu1 : (ProcessResponse w r1).2.req.urState = rspState.isBegun ∨
      (ProcessResponse w r1).2.req.urState = rspState.isBound := by
    rw [ProcessResponse_urState]; exact hu
  have hu2 := mid_urState mid _ hm hu1
  generalize run (ProcessResponse w r1).2 mid = w2 at hu2 ⊢
  have hn : ¬ (w2.req.urState ≠ rspState.isBegun ∧ w2.req.urState ≠ rspState.isBound) := by
    rcases hu2 with h | h <;> simp [h]
  refine ⟨?_, ?_, ?_, ?_, ?_⟩
  · unfold ProcessResponse; rw [if_neg hn]; cases r2 <;> simp at h2 ⊢
  · unfold ProcessResponse; rw [if_neg hn]; cases r2 <;> simp [wake_req] at h2 ⊢
  · unfold ProcessResponse; rw [if_neg hn]; cases r2 <;> simp [wake_req] at h2 ⊢
  · intro buff hb
    subst hb
    unfold ProcessResponse; rw [if_neg hn]; simp [wake_req]
  · intro v hv
    unfold ProcessResponse
    rw [if_pos]
    cases hvu : v.req.urState <;> simp_all

/-- C13 (amended), at a bound request with a data envelope read in part. -/
theorem C13_later_envelope_accepted_witness :
    (ProcessResponse (run (ProcessResponse
        (run sampleWorld [Event.Activate (some 5) none 10, Event.DoIt, Event.BindDone])
        (XrdSsiRespInfo.isData [1, 2])).2 [Event.Read 1, Event.BindDone])
      (XrdSsiRespInfo.isData [7, 8, 9])).1 = true ∧
    (ProcessResponse (run (ProcessResponse
        (run sampleWorld [Event.Activate (some 5) none 10, Event.DoIt, Event.BindDone])
        (XrdSsiRespInfo.isData [1, 2])).2 [Event.Read 1, Event.BindDone])
      (XrdSsiRespInfo.isData [7, 8, 9])).2.req.myState = reqState.doRsp ∧
    (ProcessResponse (run (ProcessResponse
        (run sampleWorld [Event.Activate (some 5) none 10, Event.DoIt, Event.BindDone])
        (XrdSsiRespInfo.isData [1, 2])).2 [Event.Read 1, Event.BindDone])
      (XrdSsiRespInfo.isData [7, 8, 9])).2.req.respOff = 0 ∧
    (∀ buff, XrdSsiRespInfo.isData [7, 8, 9] = XrdSsiRespInfo.isData buff →
      (ProcessResponse (run (ProcessResponse
          (run sampleWorld [Event.Activate (some 5) none 10, Event.DoIt, Event.BindDone])
          (XrdSsiRespInfo.isData [1, 2])).2 [Event.Read 1, Event.BindDone])
        (XrdSsiRespInfo.isData [7, 8, 9])).2.req.respLen = buff.length) ∧
    (∀ v : World, ¬ (v.req.urState = rspState.isBegun ∨ v.req.urState = rspState.isBound) →
      ProcessResponse v (XrdSsiRespInfo.isData [7, 8, 9]) = (false, v)) :=
  C13_later_envelope_accepted
    (run sampleWorld [Event.Activate (some 5) none 10, Event.DoIt, Event.BindDone])
    (XrdSsiRespInfo.isData [1, 2]) (XrdSsiRespInfo.isData [7, 8, 9])
    [Event.Read 1, Event.BindDone] (by decide) (by decide) (by decide)

theorem Emsg_eq (w : World) (pfx : String) (ecode : Int) (op : String) :
    Emsg w pfx ecode op = (SFS_ERROR, { w with log := w.log ++ emsgLog w.req pfx ecode op }) := by
  unfold Emsg emsgLog
  cases hc : w.req.cbInfo <;> simp [emit, hc]

/-- C14: `Read` on a request whose `myState` is not `doRsp` sets `done`, stores
no byte and leaves every field of the request as it was; it returns 0 exactly
when `myState` is `odRsp`, and then makes no call; in every other state
(`wtReq`, `xqReq`, `wtRsp`, `erRsp`) it returns `SFS_ERROR` and reports
`ENOMSG` through `Emsg` (log message, and error object when `cbInfo` is
set). -/
theorem C14_read_without_response (w : World) (done : Bool) (blen : Int)
    (h : w.req.myState ≠ reqState.doRsp) :
    (Read w done blen).1.done = true ∧ (Read w done blen).1.buff = [] ∧
    (Read w done blen).2.req = w.req ∧
    ((Read w done blen).1.ret = 0 ↔ w.req.myState = reqState.odRsp) ∧
    ((Read w done blen).1.ret = 0 ∨ (Read w done blen).1.ret = SFS_ERROR) ∧
    (Read w done blen).2.log =
      w.log ++ (if w.req.myState = reqState.odRsp then [] else emsgLog w.req "read" ENOMSG "read") := by
  unfold Read
  rw [if_pos h]
  by_cases ho : w.req.myState = reqState.odRsp
  · simp [ho]
  · simp [ho, Emsg_eq, SFS_ERROR]

/-- C14, at a request that was activated and dispatched but has no response. -/
theorem C14_read_without_response_witness :
    (Read (run sampleWorld [Event.Activate (some 5) none 10, Event.DoIt]) false 4).1.done = true ∧
    (Read (run sampleWorld [Event.Activate (some 5) none 10, Event.DoIt]) false 4).1.buff = [] ∧
    (Read (run sampleWorld [Event.Activate (some 5) none 10, Event.DoIt]) false 4).2.req =
      (run sampleWorld [Event.Activate (some 5) none 10, Event.DoIt]).req ∧
    ((Read (run sampleWorld [Event.Activate (some 5) none 10, Event.DoIt]) false 4).1.ret = 0 ↔
      (run sampleWorld [Event.Activate (some 5) none 10, Event.DoIt]).req.myState
        = reqState.odRsp) ∧
    ((Read (run sampleWorld [Event.Activate (some 5) none 10, Event.DoIt]) false 4).1.ret = 0 ∨
      (Read (run sampleWorld [Event.Activate (some 5) none 10, Event.DoIt]) false 4).1.ret
        = SFS_ERROR) ∧
    (Read (run sampleWorld [Event.Activate (some 5) none 10, Event.DoIt]) false 4).2.log =
      (run sampleWorld [Event.Activate (some 5) none 10, Event.DoIt]).log ++
        (if (run sampleWorld [Event.Activate (some 5) none 10, Event.DoIt]).req.myState
            = reqState.odRsp then []
         else emsgLog (run sampleWorld [Event.Activate (some 5) none 10, Event.DoIt]).req
           "read" ENOMSG "read") :=
  C14_read_without_response (run sampleWorld [Event.Activate (some 5) none 10, Event.DoIt])
    false 4 (by decide)

/-- C15: for an error envelope in `doRsp`, `Read` makes exactly one call, the
error object update with the envelope's number and text, returns `SFS_ERROR`
with `done` set and moves `myState` to `odRsp`; every later `Read` returns 0
bytes with `done` set and makes no call, so the log still ends in that single
update. -/
theorem C15_error_once (w : World) (done : Bool) (blen : Int) (eNum : Int) (eMsg : String)
    (later : List Int)
    (h1 : w.req.myState = reqState.doRsp) (h2 : w.req.Resp = XrdSsiRespInfo.isError eNum eMsg) :
    (Read w done blen).1 = { ret := SFS_ERROR, done := true, buff := [] } ∧
    (Read w done blen).2.req.myState = reqState.odRsp ∧
    (Read w done blen).2.log = w.log ++ [Effect.setErrInfo w.req.cbInfo eNum eMsg] ∧
    (∀ x ∈ readTrace (Read w done blen).2 later,
      x.1 = { ret := 0, done := true, buff := [] } ∧
      x.2.log = w.log ++ [Effect.setErrInfo w.req.cbInfo eNum eMsg]) := by
  have hR : Read w done blen =
      ({ ret := SFS_ERROR, done := true, buff := [] },
       { emit w (Effect.setErrInfo w.req.cbInfo eNum eMsg) with
         req := { w.req with myState := reqState.odRsp } }) := by
    simp [Read, h1, h2, emit]
  rw [hR]
  refine ⟨rfl, rfl, rfl, ?_⟩
  intro x hx
  rw [readTrace_exhausted _ _ rfl] at hx
  simp only [List.mem_map] at hx
  obtain ⟨_, _, hx⟩ := hx
  rw [← hx]
  exact ⟨rfl, rfl⟩

/-- C15, at an error envelope (13, "denied") followed by two more reads. -/
theorem C15_error_once_witness :
    (Read (sampleWith (XrdSsiRespInfo.isError 13 "denied")) false 4).1 =
      { ret := SFS_ERROR, done := true, buff := [] } ∧
    (Read (sampleWith (XrdSsiRespInfo.isError 13 "denied")) false 4).2.req.myState
      = reqState.odRsp ∧
    (Read (sampleWith (XrdSsiRespInfo.isError 13 "denied")) false 4).2.log =
      (sampleWith (XrdSsiRespInfo.isError 13 "denied")).log ++
        [Effect.setErrInfo (sampleWith (XrdSsiRespInfo.isError 13 "denied")).req.cbInfo
          13 "denied"] ∧
    (∀ x ∈ readTrace (Read (sampleWith (XrdSsiRespInfo.isError 13 "denied")) false 4).2 [4, 4],
      x.1 = { ret := 0, done := true, buff := [] } ∧
      x.2.log = (sampleWith (XrdSsiRespInfo.isError 13 "denied")).log ++
        [Effect.setErrInfo (sampleWith (XrdSsiRespInfo.isError 13 "denied")).req.cbInfo
          13 "denied"]) :=
  C15_error_once (sampleWith (XrdSsiRespInfo.isError 13 "denied")) false 4 13 "denied" [4, 4]
    (by decide) (by decide)

/-- C16 (counterexample): after a `Read` of an error envelope the state is
`odRsp` (ResponseExhausted), not `erRsp` (ResponseFailed). -/
theorem C16_counterexample :
    (sampleWith (XrdSsiRespInfo.isError 13 "denied")).req.myState = reqState.doRsp ∧
    (Read (sampleWith (XrdSsiRespInfo.isError 13 "denied")) false 4).2.req.myState
      = reqState.odRsp ∧
    (Read (sampleWith (XrdSsiRespInfo.isError 13 "denied")) false 4).2.req.myState
      ≠ reqState.erRsp := by
  decide

/-- C16 (amended): after a `Read` on a request in `doRsp` with an error
envelope, `myState` is `odRsp` (ResponseExhausted). -/
theorem C16_error_exhausts (w : World) (done : Bool) (blen : Int) (eNum : Int) (eMsg : String)
    (h1 : w.req.myState = reqState.doRsp) (h2 : w.req.Resp = XrdSsiRespInfo.isError eNum eMsg) :
    (Read w done blen).2.req.myState = reqState.odRsp := by
  simp [Read, h1, h2]

/-- C16 (amended), at an error envelope (13, "denied"). -/
theorem C16_error_exhausts_witness :
    (Read (sampleWith (XrdSsiRespInfo.isError 13 "denied")) false 4).2.req.myState
      = reqState.odRsp :=
  C16_error_exhausts (sampleWith (XrdSsiRespInfo.isError 13 "denied")) false 4 13 "denied"
    (by decide) (by decide)

theorem Read_failed (w : World) (done : Bool) (blen : Int) (h : w.req.myState = reqState.erRsp) :
    Read w done blen = ({ ret := SFS_ERROR, done := true, buff := [] },
      { w with log := w.log ++ emsgLog w.req "read" ENOMSG "read" }) := by
  unfold Read
  rw [if_pos (by rw [h]; decide), if_neg (by rw [h]; decide)]
  simp [Emsg_eq]

theorem readTrace_failed (blens : List Int) :
    ∀ w : World, w.req.myState = reqState.erRsp →
      readTrace w blens = (List.range blens.length).map (fun k =>
        (({ ret := SFS_ERROR, done := true, buff := [] } : ReadOut),
         { w with log := w.log ++
             (List.replicate (k + 1) (emsgLog w.req "read" ENOMSG "read")).flatten })) := by
  induction blens with
  | nil => intro w _; simp [readTrace]
  | cons b bs ih =>
    intro w h
    rw [readTrace, Read_failed w false b h]
    simp only []
    rw [ih { w with log := w.log ++ emsgLog w.req "read" ENOMSG "read" } h, List.length_cons,
      List.range_succ_eq_map, List.map_cons, List.map_map]
    congr 1
    · simp
    · apply List.map_congr_left
      intro k _
      simp [List.replicate_succ, List.append_assoc]

/-- C17 (counterexample): a file response whose `pread` fails with errno 5.
The failing `Read` sets the consumer's error object once; the next `Read`
returns `SFS_ERROR` again and sets the error object a second time. -/
theorem C17_counterexample :
    (fileWorld [{ nbytes := -1, errno := 5, data := [] }]).req.myState = reqState.doRsp ∧
    errReports (fileWorld [{ nbytes := -1, errno := 5, data := [] }]) = 0 ∧
    (Read (fileWorld [{ nbytes := -1, errno := 5, data := [] }]) false 4).1.ret = SFS_ERROR ∧
    (Read (fileWorld [{ nbytes := -1, errno := 5, data := [] }]) false 4).2.req.myState
      = reqState.erRsp ∧
    errReports (Read (fileWorld [{ nbytes := -1, errno := 5, data := [] }]) false 4).2 = 1 ∧
    (Read (Read (fileWorld [{ nbytes := -1, errno := 5, data := [] }]) false 4).2 false 4).1.ret
      = SFS_ERROR ∧
    errReports
      (Read (Read (fileWorld [{ nbytes := -1, errno := 5, data := [] }]) false 4).2 false 4).2
      = 2 := by
  decide

theorem pread_eq (w : World) (fdnum blen offset : Int) :
    pread w fdnum blen offset =
      (nextPread w, { w with preads := w.preads.tail,
                             log := w.log ++ [Effect.pread fdnum blen offset] }) := by
  unfold pread nextPread
  cases hp : w.preads <;> simp [emit, hp]

/-- C17 (amended): for a file response in `doRsp`, `Read` does this. With
`fileSz ≤ 0` it makes no call, returns 0 with `done` set and moves to `odRsp`.
Otherwise it calls `pread` once, with the envelope's descriptor, the caller's
length and the cursor `respOff` as offset. If `pread` returns n > 0, `Read`
returns n with the bytes read, adds n to `respOff` and takes n from `fileSz`.
If it returns 0, `Read` returns 0 with `done` set and moves to `odRsp`. If it
fails, `Read` moves to `erRsp`, sets `done`, returns `SFS_ERROR` and reports
the `errno` through `Emsg`; each later `Read` makes no `pread` call, returns
`SFS_ERROR` with `done` set and reports `ENOMSG` through `Emsg` once more. -/
theorem C17_file_read (w : World) (done : Bool) (blen fdnum fsize : Int) (later : List Int)
    (h1 : w.req.myState = reqState.doRsp)
    (h2 : w.req.Resp = XrdSsiRespInfo.isFile fdnum fsize) :
    if w.req.fileSz ≤ 0 then
      Read w done blen = ({ ret := 0, done := true, buff := [] },
        { w with req := { w.req with myState := reqState.odRsp } })
    else
      (Read w done blen).2.preads = w.preads.tail ∧
      (Read w done blen).2.log = w.log ++ Effect.pread fdnum blen w.req.respOff ::
        (if (nextPread w).nbytes < 0 then emsgLog w.req "read" (nextPread w).errno "read"
         else []) ∧
      (if 0 < (nextPread w).nbytes then
        (Read w done blen).1 =
          { ret := (nextPread w).nbytes, done := done, buff := (nextPread w).data } ∧
        (Read w done blen).2.req =
          { w.req with respOff := w.req.respOff + (nextPread w).nbytes,
                       fileSz := w.req.fileSz - (nextPread w).nbytes }
       else if (nextPread w).nbytes = 0 then
        (Read w done blen).1 = { ret := 0, done := true, buff := [] } ∧
        (Read w done blen).2.req = { w.req with myState := reqState.odRsp }
       else
        (Read w done blen).1 = { ret := SFS_ERROR, done := true, buff := [] } ∧
        (Read w done blen).2.req = { w.req with myState := reqState.erRsp } ∧
        readTrace (Read w done blen).2 later = (List.range later.length).map (fun k =>
          (({ ret := SFS_ERROR, done := true, buff := [] } : ReadOut),
           { (Read w done blen).2 with log := (Read w done blen).2.log ++
               (List.replicate (k + 1) (emsgLog w.req "read" ENOMSG "read")).flatten }))) := by
  by_cases hz : w.req.fileSz ≤ 0
  · rw [if_pos hz]
    simp [Read, h1, h2, hz]
  · rw [if_neg hz]
    have hR : Read w done blen =
        if (nextPread w).nbytes ≤ 0 then
          if (nextPread w).nbytes = 0 then
            ({ ret := 0, done := true, buff := [] },
             { w with preads := w.preads.tail,
                      log := w.log ++ [Effect.pread fdnum blen w.req.respOff],
                      req := { w.req with myState := reqState.odRsp } })
          else
            ({ ret := SFS_ERROR, done := true, buff := [] },
             { w with preads := w.preads.tail,
                      log := w.log ++ Effect.pread fdnum blen w.req.respOff ::
                        emsgLog w.req "read" (nextPread w).errno "read",
                      req := { w.req with myState := reqState.erRsp } })
        else
          ({ ret := (nextPread w).nbytes, done := done, buff := (nextPread w).data },
           { w with preads := w.preads.tail,
                    log := w.log ++ [Effect.pread fdnum blen w.req.respOff],
                    req := { w.req with respOff := w.req.respOff + (nextPread w).nbytes,
                                        fileSz := w.req.fileSz - (nextPread w).nbytes } }) := by
      unfold Read
      rw [if_neg (by simp [h1])]
      simp only [h2, if_neg hz, pread_eq]
      split
      · split
        · rfl
        · simp [Emsg_eq, emsgLog]
      · rfl
    by_cases hpos : 0 < (nextPread w).nbytes
    · rw [hR, if_neg (by omega), if_pos hpos, if_neg (by omega)]
      simp
    · by_cases h0 : (nextPread w).nbytes = 0
      · rw [hR, if_pos (by omega), if_pos h0, if_neg hpos, if_pos h0, if_neg (by omega)]
        simp
      · rw [hR, if_pos (by omega), if_neg h0, if_neg hpos, if_neg h0, if_pos (by omega)]
        refine ⟨rfl, rfl, rfl, rfl, ?_⟩
        rw [readTrace_failed later _ rfl]
        rfl

/-- C17 (amended), on a 10-byte file response: with `fileSz` forced to 0; where
`pread` hands back 4 bytes; where it hands back 0; where it fails with errno 5
and two more reads follow. -/
theorem C17_file_read_witness :
    (Read { fileWorld [] with req := { (fileWorld []).req with fileSz := 0 } } false 4 =
      ({ ret := 0, done := true, buff := [] },
       { fileWorld [] with
         req := { (fileWorld []).req with fileSz := 0, myState := reqState.odRsp } })) ∧
    ((Read (fileWorld [{ nbytes := 4, errno := 0, data := [1, 2, 3, 4] }]) false 4).1 =
        { ret := 4, done := false, buff := [1, 2, 3, 4] } ∧
      (Read (fileWorld [{ nbytes := 4, errno := 0, data := [1, 2, 3, 4] }]) false 4).2.req.respOff
        = 4 ∧
      (Read (fileWorld [{ nbytes := 4, errno := 0, data := [1, 2, 3, 4] }]) false 4).2.req.fileSz
        = 6) ∧
    ((Read (fileWorld [{ nbytes := 0, errno := 0, data := [] }]) false 4).1 =
        { ret := 0, done := true, buff := [] } ∧
      (Read (fileWorld [{ nbytes := 0, errno := 0, data := [] }]) false 4).2.req.myState
        = reqState.odRsp) ∧
    ((Read (fileWorld [{ nbytes := -1, errno := 5, data := [] }]) false 4).1 =
        { ret := SFS_ERROR, done := true, buff := [] } ∧
      (Read (fileWorld [{ nbytes := -1, errno := 5, data := [] }]) false 4).2.req.myState
        = reqState.erRsp ∧
      (readTrace (Read (fileWorld [{ nbytes := -1, errno := 5, data := [] }]) false 4).2
        [4, 4]).map (fun x => x.1.ret) = [SFS_ERROR, SFS_ERROR]) := by
  have a := C17_file_read { fileWorld [] with req := { (fileWorld []).req with fileSz := 0 } }
    false 4 3 10 [] (by decide) (by decide)
  have b := C17_file_read (fileWorld [{ nbytes := 4, errno := 0, data := [1, 2, 3, 4] }])
    false 4 3 10 [] (by decide) (by decide)
  have c := C17_file_read (fileWorld [{ nbytes := 0, errno := 0, data := [] }])
    false 4 3 10 [] (by decide) (by decide)
  have d := C17_file_read (fileWorld [{ nbytes := -1, errno := 5, data := [] }])
    false 4 3 10 [4, 4] (by decide) (by decide)
  rw [if_pos (by decide)] at a
  rw [if_neg (by decide)] at b c d
  obtain ⟨_, _, b⟩ := b
  obtain ⟨_, _, c⟩ := c
  obtain ⟨_, _, d⟩ := d
  rw [if_pos (by decide)] at b
  rw [if_neg (by decide), if_pos (by decide)] at c
  rw [if_neg (by decide), if_neg (by decide)] at d
  refine ⟨a, ⟨b.1, ?_, ?_⟩, ⟨c.1, ?_⟩, ⟨d.1, ?_, ?_⟩⟩
  · rw [b.2]; rfl
  · rw [b.2]; rfl
  · rw [c.2]
  · rw [d.2.1]
  · rw [d.2.2]; rfl

/-- C18 (counterexample): a data response of 3 bytes and a transfer length of 3.
`Read` marks the response exhausted (`odRsp`) and leaves the cursor at 0 and the
remaining length at 3; `Send` with a succeeding sink returns the continuation
and leaves `doRsp`, the cursor at 3 and the remaining length at 0. -/
theorem C18_counterexample :
    (sampleWith (XrdSsiRespInfo.isData [1, 2, 3])).req.myState = reqState.doRsp ∧
    (sampleWith (XrdSsiRespInfo.isData [1, 2, 3])).req.respLen = 3 ∧
    (Read (sampleWith (XrdSsiRespInfo.isData [1, 2, 3])) false 3).2.req.myState
      = reqState.odRsp ∧
    (Read (sampleWith (XrdSsiRespInfo.isData [1, 2, 3])) false 3).2.req.respOff = 0 ∧
    (Read (sampleWith (XrdSsiRespInfo.isData [1, 2, 3])) false 3).2.req.respLen = 3 ∧
    (Send (sampleWith (XrdSsiRespInfo.isData [1, 2, 3])) 0 3).1 = 1 ∧
    (Send (sampleWith (XrdSsiRespInfo.isData [1, 2, 3])) 0 3).2.req.myState
      = reqState.doRsp ∧
    (Send (sampleWith (XrdSsiRespInfo.isData [1, 2, 3])) 0 3).2.req.respOff = 3 ∧
    (Send (sampleWith (XrdSsiRespInfo.isData [1, 2, 3])) 0 3).2.req.respLen = 0 := by
  decide

theorem Send_data_end (w : World) (buff : List Byte) (blen : Int)
    (h1 : w.req.myState = reqState.doRsp) (h2 : w.req.Resp = XrdSsiRespInfo.isData buff)
    (h0 : w.req.respLen = 0) (h3 : 0 < blen) :
    Send w 0 blen = (0,
      { w with log := w.log ++
                 [Effect.SendFile { data := SfData.rID, sendsz := 0, fdnum := some (-1) }],
               req := { w.req with myState := reqState.odRsp } }) := by
  have hgt : blen > 0 := h3
  simp [Send, Send_off, h1, h2, hgt, h0, emit]

/-- C18 (amended): for a data response in `doRsp` and a length `blen > 0`,
`Send` with a succeeding sink makes one `SendFile` call whose memory segment
holds exactly the bytes `Read` stores, and `Read` makes no call. When `blen`
differs from the remaining length `respLen`, both leave the same request state
(cursor, remaining length, `myState`), `Send` returns 0 exactly when `Read`
moved to `odRsp`, and that is the case exactly when `respLen < blen`. When
`blen = respLen`, `Read` moves to `odRsp` with the cursor unchanged, while
`Send` returns 1, stays in `doRsp` with the cursor at the end and remaining
length 0; the next `Send` hands over a zero-length segment holding the
request id, moves to `odRsp` and returns 0. -/
theorem C18_read_send_data (w : World) (done : Bool) (buff : List Byte) (blen : Int)
    (h1 : w.req.myState = reqState.doRsp) (h2 : w.req.Resp = XrdSsiRespInfo.isData buff)
    (h3 : 0 < blen) :
    ∃ v, (Send w 0 blen).2.log = w.log ++ [Effect.SendFile v] ∧
      sfBytes v = (Read w done blen).1.buff ∧
      (Read w done blen).2.log = w.log ∧
      (if blen = w.req.respLen then
        (Read w done blen).2.req = { w.req with myState := reqState.odRsp } ∧
        (Send w 0 blen).1 = 1 ∧
        (Send w 0 blen).2.req =
          { w.req with respLen := 0, respOff := w.req.respOff + blen } ∧
        (Send (Send w 0 blen).2 0 blen).1 = 0 ∧
        (Send (Send w 0 blen).2 0 blen).2.req =
          { w.req with respLen := 0, respOff := w.req.respOff + blen,
                       myState := reqState.odRsp } ∧
        (Send (Send w 0 blen).2 0 blen).2.log = w.log ++ [Effect.SendFile v,
          Effect.SendFile { data := SfData.rID, sendsz := 0, fdnum := some (-1) }]
       else
        (Send w 0 blen).2.req = (Read w done blen).2.req ∧
        ((Send w 0 blen).1 = 0 ↔ (Read w done blen).2.req.myState = reqState.odRsp) ∧
        ((Read w done blen).2.req.myState = reqState.odRsp ↔ w.req.respLen < blen)) := by
  have hgt : blen > 0 := h3
  rcases lt_trichotomy blen w.req.respLen with hlt | heq | hgt2
  · -- more remains than is asked for
    have hn1 : ¬ w.req.respLen ≤ 0 := by omega
    have hn2 : ¬ blen ≥ w.req.respLen := by omega
    have hn3 : ¬ blen > w.req.respLen := by omega
    have hn4 : ¬ blen = 0 := by omega
    have hn5 : ¬ blen = w.req.respLen := by omega
    refine ⟨{ data := SfData.mem buff w.req.respOff, sendsz := blen, fdnum := some (-1) },
      ?_, ?_, ?_, ?_⟩
    · simp [Send, Send_off, h1, h2, hgt, hn3, hn4, emit]
    · simp [Read, h1, h2, hn1, hn2, sfBytes]
    · simp [Read, h1, h2, hn1, hn2]
    · rw [if_neg hn5]
      refine ⟨?_, ?_, ?_⟩
      · simp [Send, Send_off, Read, h1, h2, hgt, hn1, hn2, hn3, hn4, emit]
      · simp [Send, Send_off, Read, h1, h2, hgt, hn1, hn2, hn3, hn4, emit]
      · simp [Read, h1, h2, hn1, hn2]
        omega
  · -- exactly what remains is asked for
    have hn1 : ¬ w.req.respLen ≤ 0 := by omega
    have hn2 : blen ≥ w.req.respLen := by omega
    have hn3 : ¬ blen > w.req.respLen := by omega
    have hn4 : ¬ blen = 0 := by omega
    refine ⟨{ data := SfData.mem buff w.req.respOff, sendsz := blen, fdnum := some (-1) },
      ?_, ?_, ?_, ?_⟩
    · simp [Send, Send_off, h1, h2, hgt, hn3, hn4, emit]
    · simp [Read, h1, h2, hn1, hn2, sfBytes, heq]
    · simp [Read, h1, h2, hn1, hn2]
    · rw [if_pos heq]
      have hS : Send w 0 blen = (1,
          { w with log := w.log ++ [Effect.SendFile
                { data := SfData.mem buff w.req.respOff, sendsz := blen, fdnum := some (-1) }],
                   req := { w.req with respLen := 0,
                                       respOff := w.req.respOff + blen } }) := by
        have hd : w.req.respLen - blen = 0 := by omega
        simp [Send, Send_off, h1, h2, hgt, hn3, hn4, emit, hd]
      have hT := Send_data_end
          { w with log := w.log ++ [Effect.SendFile
                { data := SfData.mem buff w.req.respOff, sendsz := blen, fdnum := some (-1) }],
                   req := { w.req with respLen := 0,
                                       respOff := w.req.respOff + blen } } buff blen h1 h2 rfl h3
      refine ⟨?_, ?_, ?_, ?_, ?_, ?_⟩
      · simp [Read, h1, h2, hn1, hn2]
      · rw [hS]
      · rw [hS]
      · rw [hS, hT]
      · rw [hS, hT]
      · rw [hS, hT]; simp
  · -- less remains than is asked for
    have hn2 : blen ≥ w.req.respLen := by omega
    have hn5 : ¬ blen = w.req.respLen := by omega
    by_cases hz : w.req.respLen = 0
    · refine ⟨{ data := SfData.rID, sendsz := 0, fdnum := some (-1) }, ?_, ?_, ?_, ?_⟩
      · simp [Send, Send_off, h1, h2, hgt, hgt2, hz, emit]
      · simp [Read, h1, h2, hz, sfBytes]
      · simp [Read, h1, h2, hz]
      · rw [if_neg hn5]
        refine ⟨?_, ?_, ?_⟩
        · simp [Send, Send_off, Read, h1, h2, hgt, hgt2, hz, emit]
        · simp [Send, Send_off, Read, h1, h2, hgt, hgt2, hz, emit]
        · simp [Read, h1, h2, hz]
          omega
    · refine ⟨{ data := SfData.mem buff w.req.respOff, sendsz := w.req.respLen,
                fdnum := some (-1) }, ?_, ?_, ?_, ?_⟩
      · simp [Send, Send_off, h1, h2, hgt, hgt2, hz, emit]
      · by_cases hneg : w.req.respLen ≤ 0
        · have : w.req.respLen.toNat = 0 := by omega
          simp [Read, h1, h2, hneg, sfBytes, memcpy, this]
        · simp [Read, h1, h2, hneg, hn2, sfBytes]
      · by_cases hneg : w.req.respLen ≤ 0
        · simp [Read, h1, h2, hneg]
        · simp [Read, h1, h2, hneg, hn2]
      · rw [if_neg hn5]
        refine ⟨?_, ?_, ?_⟩
        · by_cases hneg : w.req.respLen ≤ 0
          · simp [Send, Send_off, Read, h1, h2, hgt, hgt2, hz, hneg, emit]
          · simp [Send, Send_off, Read, h1, h2, hgt, hgt2, hz, hneg, hn2, emit]
        · by_cases hneg : w.req.respLen ≤ 0
          · simp [Send, Send_off, Read, h1, h2, hgt, hgt2, hz, hneg, emit]
          · simp [Send, Send_off, Read, h1, h2, hgt, hgt2, hz, hneg, hn2, emit]
        · by_cases hneg : w.req.respLen ≤ 0
          · simp [Read, h1, h2, hneg]
            omega
          · simp [Read, h1, h2, hneg, hn2]
            omega

/-- C18 (amended), on a data response of 3 bytes: with a transfer length of 3
(equal to what remains) and with a transfer length of 2. -/
theorem C18_read_send_data_witness :
    (∃ v, (Send (sampleWith (XrdSsiRespInfo.isData [1, 2, 3])) 0 3).2.log =
        (sampleWith (XrdSsiRespInfo.isData [1, 2, 3])).log ++ [Effect.SendFile v] ∧
      sfBytes v = (Read (sampleWith (XrdSsiRespInfo.isData [1, 2, 3])) false 3).1.buff ∧
      (Read (sampleWith (XrdSsiRespInfo.isData [1, 2, 3])) false 3).2.log =
        (sampleWith (XrdSsiRespInfo.isData [1, 2, 3])).log ∧
      (if (3 : Int) = (sampleWith (XrdSsiRespInfo.isData [1, 2, 3])).req.respLen then
        (Read (sampleWith (XrdSsiRespInfo.isData [1, 2, 3])) false 3).2.req =
          { (sampleWith (XrdSsiRespInfo.isData [1, 2, 3])).req with
            myState := reqState.odRsp } ∧
        (Send (sampleWith (XrdSsiRespInfo.isData [1, 2, 3])) 0 3).1 = 1 ∧
        (Send (sampleWith (XrdSsiRespInfo.isData [1, 2, 3])) 0 3).2.req =
          { (sampleWith (XrdSsiRespInfo.isData [1, 2, 3])).req with
            respLen := 0,
            respOff := (sampleWith (XrdSsiRespInfo.isData [1, 2, 3])).req.respOff + 3 } ∧
        (Send (Send (sampleWith (XrdSsiRespInfo.isData [1, 2, 3])) 0 3).2 0 3).1 = 0 ∧
        (Send (Send (sampleWith (XrdSsiRespInfo.isData [1, 2, 3])) 0 3).2 0 3).2.req =
          { (sampleWith (XrdSsiRespInfo.isData [1, 2, 3])).req with
            respLen := 0,
            respOff := (sampleWith (XrdSsiRespInfo.isData [1, 2, 3])).req.respOff + 3,
            myState := reqState.odRsp } ∧
        (Send (Send (sampleWith (XrdSsiRespInfo.isData [1, 2, 3])) 0 3).2 0 3).2.log =
          (sampleWith (XrdSsiRespInfo.isData [1, 2, 3])).log ++ [Effect.SendFile v,
            Effect.SendFile { data := SfData.rID, sendsz := 0, fdnum := some (-1) }]
       else
        (Send (sampleWith (XrdSsiRespInfo.isData [1, 2, 3])) 0 3).2.req =
          (Read (sampleWith (XrdSsiRespInfo.isData [1, 2, 3])) false 3).2.req ∧
        ((Send (sampleWith (XrdSsiRespInfo.isData [1, 2, 3])) 0 3).1 = 0 ↔
          (Read (sampleWith (XrdSsiRespInfo.isData [1, 2, 3])) false 3).2.req.myState
            = reqState.odRsp) ∧
        ((Read (sampleWith (XrdSsiRespInfo.isData [1, 2, 3])) false 3).2.req.myState
            = reqState.odRsp ↔
          (sampleWith (XrdSsiRespInfo.isData [1, 2, 3])).req.respLen < 3))) ∧
    (∃ v, (Send (sampleWith (XrdSsiRespInfo.isData [1, 2, 3])) 0 2).2.log =
        (sampleWith (XrdSsiRespInfo.isData [1, 2, 3])).log ++ [Effect.SendFile v] ∧
      sfBytes v = (Read (sampleWith (XrdSsiRespInfo.isData [1, 2, 3])) false 2).1.buff ∧
      (Read (sampleWith (XrdSsiRespInfo.isData [1, 2, 3])) false 2).2.log =
        (sampleWith (XrdSsiRespInfo.isData [1, 2, 3])).log ∧
      (if (2 : Int) = (sampleWith (XrdSsiRespInfo.isData [1, 2, 3])).req.respLen then
        (Read (sampleWith (XrdSsiRespInfo.isData [1, 2, 3])) false 2).2.req =
          { (sampleWith (XrdSsiRespInfo.isData [1, 2, 3])).req with
            myState := reqState.odRsp } ∧
        (Send (sampleWith (XrdSsiRespInfo.isData [1, 2, 3])) 0 2).1 = 1 ∧
        (Send (sampleWith (XrdSsiRespInfo.isData [1, 2, 3])) 0 2).2.req =
          { (sampleWith (XrdSsiRespInfo.isData [1, 2, 3])).req with
            respLen := 0,
            respOff := (sampleWith (XrdSsiRespInfo.isData [1, 2, 3])).req.respOff + 2 } ∧
        (Send (Send (sampleWith (XrdSsiRespInfo.isData [1, 2, 3])) 0 2).2 0 2).1 = 0 ∧
        (Send (Send (sampleWith (XrdSsiRespInfo.isData [1, 2, 3])) 0 2).2 0 2).2.req =
          { (sampleWith (XrdSsiRespInfo.isData [1, 2, 3])).req with
            respLen := 0,
            respOff := (sampleWith (XrdSsiRespInfo.isData [1, 2, 3])).req.respOff + 2,
            myState := reqState.odRsp } ∧
        (Send (Send (sampleWith (XrdSsiRespInfo.isData [1, 2, 3])) 0 2).2 0 2).2.log =
          (sampleWith (XrdSsiRespInfo.isData [1, 2, 3])).log ++ [Effect.SendFile v,
            Effect.SendFile { data := SfData.rID, sendsz := 0, fdnum := some (-1) }]
       else
        (Send (sampleWith (XrdSsiRespInfo.isData [1, 2, 3])) 0 2).2.req =
          (Read (sampleWith (XrdSsiRespInfo.isData [1, 2, 3])) false 2).2.req ∧
        ((Send (sampleWith (XrdSsiRespInfo.isData [1, 2, 3])) 0 2).1 = 0 ↔
          (Read (sampleWith (XrdSsiRespInfo.isData [1, 2, 3])) false 2).2.req.myState
            = reqState.odRsp) ∧
        ((Read (sampleWith (XrdSsiRespInfo.isData [1, 2, 3])) false 2).2.req.myState
            = reqState.odRsp ↔
          (sampleWith (XrdSsiRespInfo.isData [1, 2, 3])).req.respLen < 2))) :=
  ⟨C18_read_send_data (sampleWith (XrdSsiRespInfo.isData [1, 2, 3])) false [1, 2, 3] 3
      (by decide) (by decide) (by decide),
   C18_read_send_data (sampleWith (XrdSsiRespInfo.isData [1, 2, 3])) false [1, 2, 3] 2
      (by decide) (by decide) (by decide)⟩

/-- C19: when `Send` on an active stream in `doRsp` holds no chunk and the
producer's `GetBuff` returns no buffer with end-of-stream clear, `Send` returns
the continuation 1, makes no call at all (no log message, no error object
update, no `SendFile`) and leaves `myState = odRsp` with `strmEOF` set: the
producer's error is not reported and the state is not `erRsp`. -/
theorem C19_send_failure_dropped (w : World) (strmP : XrdSsiStream) (a : GetBuffOut)
    (rest : List GetBuffOut) (sfDio blen : Int)
    (h1 : w.req.myState = reqState.doRsp) (h2 : w.req.Resp = XrdSsiRespInfo.isStream strmP)
    (h3 : strmP.sType = StreamType.isActive) (h4 : w.req.strBuff = none)
    (h5 : w.req.strmEOF = false) (h6 : strmP.getBuff = a :: rest) (h7 : a.buf = none)
    (h8 : a.last = false) :
    (Send w sfDio blen).1 = 1 ∧ (Send w sfDio blen).2.req.myState = reqState.odRsp ∧
    (Send w sfDio blen).2.req.myState ≠ reqState.erRsp ∧
    (Send w sfDio blen).2.req.strmEOF = true ∧ (Send w sfDio blen).2.log = w.log := by
  have hS : Send w sfDio blen = sendStrmA w strmP sfDio blen := by
    simp [Send, h1, h2, h3]
  rw [hS]
  simp [sendStrmA, sendStrmA_noBuff, h4, h5, h6, h7, h8, setGetBuff, h2]

/-- C19, at the sample request with an active stream whose first `GetBuff`
fails with error 5. -/
theorem C19_send_failure_dropped_witness :
    (Send (sampleWith failingStream) 0 4).1 = 1 ∧
    (Send (sampleWith failingStream) 0 4).2.req.myState = reqState.odRsp ∧
    (Send (sampleWith failingStream) 0 4).2.req.myState ≠ reqState.erRsp ∧
    (Send (sampleWith failingStream) 0 4).2.req.strmEOF = true ∧
    (Send (sampleWith failingStream) 0 4).2.log = (sampleWith failingStream).log :=
  C19_send_failure_dropped (sampleWith failingStream)
    { sType := StreamType.isActive
      getBuff := [{ buf := none, last := false, err := some { eNum := 5, eMsg := "bad" } }]
      setBuff := [] }
    { buf := none, last := false, err := some { eNum := 5, eMsg := "bad" } } [] 0 4
    (by decide) (by decide) (by decide) (by decide) (by decide) (by decide) (by decide)
    (by decide)

theorem EmsgObj_eq (w : World) (pfx : String) (e : XrdSsiErrInfo) (op : String) :
    EmsgObj w pfx e op =
      (SFS_ERROR, { w with log := w.log ++ emsgObjLog w.req pfx e op }) := by
  unfold EmsgObj emsgObjLog objText objCode
  cases hc : w.req.cbInfo <;> simp [emit, hc]

theorem heldBlock_drain (l : StrmLoop GetBuffOut) (hret : l.returned = false)
    (hok : heldOK l.w) (hlt : ((heldRem l.w).length : Int) < l.blen) :
    (heldBlock l).returned = false ∧ (heldBlock l).blen = l.blen - (heldRem l.w).length ∧
    (heldBlock l).eObj = l.eObj ∧ (heldBlock l).w.req.strBuff = none ∧
    (heldBlock l).w.req.strmEOF = l.w.req.strmEOF ∧
    (heldBlock l).w.req.myState = l.w.req.myState ∧ (heldBlock l).w.req.Resp = l.w.req.Resp ∧
    (heldBlock l).w.req.cbInfo = l.w.req.cbInfo ∧ (heldBlock l).w.req.sessN = l.w.req.sessN ∧
    (heldBlock l).w.log = l.w.log ++ List.replicate (heldCount l.w) Effect.strRecycle := by
  unfold heldBlock
  cases hs : l.w.req.strBuff with
  | none => simp [hs, hret, heldRem, heldCount]
  | some d =>
    simp only [heldOK, hs] at hok
    obtain ⟨h1, h2, h3⟩ := hok
    have hlen : ((heldRem l.w).length : Int) = l.w.req.respLen := by
      simp only [heldRem, hs, List.length_drop]; omega
    have hc : ¬ l.w.req.respLen > l.blen := by omega
    simp only [if_neg hc]
    simp [hret, heldCount, hs, emit, hlen]

theorem eObjAfterGet_cons (x : GetBuffOut) (xs : List GetBuffOut) (e : XrdSsiErrInfo) :
    eObjAfterGet (x :: xs) e = eObjAfterGet xs (x.err.getD e) := rfl

theorem eObjAfterSet_cons (x : SetBuffOut) (xs : List SetBuffOut) (e : XrdSsiErrInfo) :
    eObjAfterSet (x :: xs) e = eObjAfterSet xs (x.err.getD e) := rfl

theorem readStrmA_loop_fail (a : GetBuffOut) (post : List GetBuffOut) (ha : a.buf = none)
    (hl : a.last = false) (pre : List GetBuffOut) :
    ∀ l : StrmLoop GetBuffOut, l.returned = false → heldOK l.w → l.w.req.strmEOF = false →
      (∀ x ∈ pre, x.buf.isSome = true ∧ x.last = false) →
      ((heldRem l.w).length : Int) + ((scriptBytes pre).length : Int) < l.blen →
      (readStrmA_loop (pre ++ a :: post) l).returned = false ∧
      (readStrmA_loop (pre ++ a :: post) l).blen ≠ 0 ∧
      (readStrmA_loop (pre ++ a :: post) l).rest = post ∧
      (readStrmA_loop (pre ++ a :: post) l).eObj = eObjAfterGet (pre ++ [a]) l.eObj ∧
      (readStrmA_loop (pre ++ a :: post) l).w.req.strBuff = none ∧
      (readStrmA_loop (pre ++ a :: post) l).w.req.strmEOF = false ∧
      (readStrmA_loop (pre ++ a :: post) l).w.req.myState = l.w.req.myState ∧
      (readStrmA_loop (pre ++ a :: post) l).w.req.Resp = l.w.req.Resp ∧
      (readStrmA_loop (pre ++ a :: post) l).w.req.cbInfo = l.w.req.cbInfo ∧
      (readStrmA_loop (pre ++ a :: post) l).w.req.sessN = l.w.req.sessN ∧
      (readStrmA_loop (pre ++ a :: post) l).w.log =
        l.w.log ++ List.replicate (heldCount l.w + pre.length) Effect.strRecycle := by
  induction pre with
  | nil =>
    intro l hret hok hE _ hlt
    simp only [scriptBytes, List.map_nil, List.flatten_nil, List.length_nil, Nat.cast_zero,
      add_zero] at hlt
    obtain ⟨d1, d2, d3, d4, d5, d6, d7, d8, d9, d10⟩ := heldBlock_drain l hret hok hlt
    rw [List.nil_append, readStrmA_loop]
    generalize heldBlock l = h at d1 d2 d3 d4 d5 d6 d7 d8 d9 d10 ⊢
    simp only []
    rw [if_neg (by simp [d1])]
    have hb : h.blen ≠ 0 := by omega
    rw [if_pos (by simp [d5, hE, hb])]
    have hsome : (getBuffCall h a).w.req.strBuff.isSome = false := by
      simp [getBuffCall, ha]
    rw [if_neg (by simp [hsome])]
    refine ⟨?_, ?_, ?_, ?_, ?_, ?_, ?_, ?_, ?_, ?_, ?_⟩
    · simpa [getBuffCall] using d1
    · simpa [getBuffCall] using hb
    · rfl
    · simp [getBuffCall, eObjAfterGet, d3]
    · simp [getBuffCall, ha]
    · simp [getBuffCall, hl]
    · simpa [getBuffCall] using d6
    · simpa [getBuffCall] using d7
    · simpa [getBuffCall] using d8
    · simpa [getBuffCall] using d9
    · simpa [getBuffCall] using d10
  | cons x pre ih =>
    intro l hret hok hE hpre hlt
    have hx := hpre x (List.mem_cons_self _ _)
    obtain ⟨d, hd⟩ := Option.isSome_iff_exists.mp hx.1
    have hsb : scriptBytes (x :: pre) = d ++ scriptBytes pre := by
      rw [scriptBytes_cons, hd]; rfl
    rw [hsb, List.length_append] at hlt
    push_cast at hlt
    obtain ⟨d1, d2, d3, d4, d5, d6, d7, d8, d9, d10⟩ :=
      heldBlock_drain l hret hok (by omega)
    rw [List.cons_append, readStrmA_loop]
    generalize heldBlock l = h at d1 d2 d3 d4 d5 d6 d7 d8 d9 d10 ⊢
    simp only []
    rw [if_neg (by simp [d1])]
    have hb : h.blen ≠ 0 := by omega
    rw [if_pos (by simp [d5, hE, hb])]
    have hsome : (getBuffCall h x).w.req.strBuff.isSome = true := by
      simp [getBuffCall, hd]
    rw [if_pos hsome]
    have hrem : heldRem (getBuffCall h x).w = d := by
      simp [heldRem, getBuffCall, hd]
    have hp := ih (getBuffCall h x) (by simpa [getBuffCall] using d1)
      (by simp [heldOK, getBuffCall, hd]) (by simp [getBuffCall, hx.2])
      (fun y hy => hpre y (List.mem_cons_of_mem _ hy))
      (by rw [hrem]; simp only [getBuffCall]; omega)
    generalize readStrmA_loop (pre ++ a :: post) (getBuffCall h x) = r at hp ⊢
    obtain ⟨p1, p2, p3, p4, p5, p6, p7, p8, p9, p10, p11⟩ := hp
    refine ⟨p1, p2, p3, ?_, p5, p6, ?_, ?_, ?_, ?_, ?_⟩
    · rw [p4, List.cons_append, eObjAfterGet_cons]
      simp [getBuffCall, d3]
    · rw [p7]; simpa [getBuffCall] using d6
    · rw [p8]; simpa [getBuffCall] using d7
    · rw [p9]; simpa [getBuffCall] using d8
    · rw [p10]; simpa [getBuffCall] using d9
    · rw [p11]
      have hc1 : heldCount (getBuffCall h x).w = 1 := by simp [heldCount, getBuffCall, hd]
      have hlog : (getBuffCall h x).w.log = h.w.log := by simp [getBuffCall]
      rw [hc1, hlog, d10, List.append_assoc, ← List.replicate_add, List.length_cons]
      congr 2
      omega

theorem setBytes_cons (x : SetBuffOut) (xs : List SetBuffOut) :
    setBytes (x :: xs) = x.dlen + setBytes xs := by
  simp [setBytes]

theorem readStrmP_loop_fail (a : SetBuffOut) (post : List SetBuffOut) (ha : a.dlen < 0)
    (hl : a.last = false) (pre : List SetBuffOut) :
    ∀ l : StrmLoop SetBuffOut, l.w.req.strmEOF = false →
      (∀ x ∈ pre, 0 < x.dlen ∧ x.last = false) → (pre = [] ∨ setBytes pre < l.blen) →
      (readStrmP_loop (pre ++ a :: post) l).returned = l.returned ∧
      (readStrmP_loop (pre ++ a :: post) l).dlen = a.dlen ∧
      (readStrmP_loop (pre ++ a :: post) l).rest = post ∧
      (readStrmP_loop (pre ++ a :: post) l).eObj = eObjAfterSet (pre ++ [a]) l.eObj ∧
      (readStrmP_loop (pre ++ a :: post) l).w.req.strmEOF = false ∧
      (readStrmP_loop (pre ++ a :: post) l).w.req.strBuff = l.w.req.strBuff ∧
      (readStrmP_loop (pre ++ a :: post) l).w.req.myState = l.w.req.myState ∧
      (readStrmP_loop (pre ++ a :: post) l).w.req.Resp = l.w.req.Resp ∧
      (readStrmP_loop (pre ++ a :: post) l).w.req.cbInfo = l.w.req.cbInfo ∧
      (readStrmP_loop (pre ++ a :: post) l).w.req.sessN = l.w.req.sessN ∧
      (readStrmP_loop (pre ++ a :: post) l).w.log = l.w.log := by
  induction pre with
  | nil =>
    intro l hE _ _
    rw [List.nil_append, readStrmP_loop]
    simp only [hE, Bool.false_eq_true, if_false]
    rw [if_neg (by omega)]
    simp [hl, eObjAfterSet]
  | cons x pre ih =>
    intro l hE hpre hsum
    have hx := hpre x (List.mem_cons_self _ _)
    have hnn : ∀ ys : List SetBuffOut, (∀ y ∈ ys, 0 < y.dlen ∧ y.last = false) →
        0 ≤ setBytes ys := by
      intro ys
      induction ys with
      | nil => intro _; simp [setBytes]
      | cons y ys ihy =>
        intro hy
        rw [setBytes_cons]
        have := (hy y (List.mem_cons_self _ _)).1
        have := ihy (fun z hz => hy z (List.mem_cons_of_mem _ hz))
        omega
    have hrest := hnn pre (fun y hy => hpre y (List.mem_cons_of_mem _ hy))
    have hs : x.dlen + setBytes pre < l.blen := by
      rcases hsum with h | h
      · exact absurd h (by simp)
      · rwa [setBytes_cons] at h
    rw [List.cons_append, readStrmP_loop]
    simp only [hE, Bool.false_eq_true, if_false]
    rw [if_pos hx.1, if_neg (by omega), if_neg (by omega)]
    have hp := ih
      { w := { l.w with req := { l.w.req with strmEOF := x.last } }, blen := l.blen - x.dlen,
        xlen := l.xlen + x.dlen, dlen := x.dlen, out := l.out ++ x.data,
        eObj := x.err.getD l.eObj, returned := l.returned, rest := l.rest }
      (by simp [hx.2]) (fun y hy => hpre y (List.mem_cons_of_mem _ hy))
      (Or.inr (by simp only []; omega))
    simpa [eObjAfterSet_cons] using hp

theorem setSetBuff_eq (w : World) (s : XrdSsiStream) (sc : List SetBuffOut)
    (h : w.req.Resp = XrdSsiRespInfo.isStream s) :
    setSetBuff w sc =
      { w with req := { w.req with Resp := XrdSsiRespInfo.isStream { s with setBuff := sc } } } := by
  simp [setSetBuff, h]

/-- C20: when a `Read` on a stream response in `doRsp` runs into a producer
failure (active: `GetBuff` returns no buffer with end-of-stream clear while
room is left in the caller's buffer; passive: `SetBuff` returns a negative
length with end-of-stream clear), it returns `SFS_ERROR` with `done` set,
moves to `erRsp`, holds no stream chunk afterwards, and its last two calls are
the log message and the update of the consumer's error object with the
producer's error (number, or `EFAULT` when that is not positive, and text).
Before them it only released the chunks it had copied out. -/
theorem C20_stream_failure (w : World) (done : Bool) (blen : Int) (c : Nat) (pfx : String)
    (n : Nat) (e : XrdSsiErrInfo)
    (h1 : w.req.myState = reqState.doRsp) (hc : w.req.cbInfo = some c)
    (hf : streamFailure w blen pfx n e) :
    (Read w done blen).1.ret = SFS_ERROR ∧ (Read w done blen).1.done = true ∧
    (Read w done blen).2.req.myState = reqState.erRsp ∧
    (Read w done blen).2.req.strBuff = none ∧
    (Read w done blen).2.log = w.log ++ List.replicate n Effect.strRecycle ++
      [Effect.LogEmsg pfx (objText w.req.sessN "read stream" e),
       Effect.setErrInfo (some c) (objCode e) (objText w.req.sessN "read stream" e)] := by
  rcases hf with ⟨pre, a, post, ⟨⟨s, h2, h3, h4⟩, hok, hE, hpre, hlt, ha, hl⟩, rfl, rfl, rfl⟩ |
    ⟨pre, a, post, ⟨⟨s, h2, h3, h4⟩, hsb, hE, hpre, hsum, ha, hl⟩, rfl, rfl, rfl⟩
  · have hp := readStrmA_loop_fail a post ha hl pre
      { w := w, blen := blen, xlen := 0, dlen := 0, out := [], eObj := { eNum := 0, eMsg := "" },
        returned := false, rest := [] } rfl hok hE hpre hlt
    unfold Read
    simp only [h1, ne_eq, not_true_eq_false, if_false, h2, h3, if_true]
    unfold readStrmA
    simp only []
    rw [h4]
    generalize readStrmA_loop (pre ++ a :: post) _ = r at hp ⊢
    obtain ⟨p1, p2, p3, p4, p5, p6, p7, p8, p9, p10, p11⟩ := hp
    simp only [] at p4 p7 p8 p9 p10 p11
    rw [setGetBuff_eq r.w s r.rest (p8.trans h2)]
    simp only [p1, p6, Bool.false_eq_true, if_false, if_neg p2, EmsgObj_eq]
    simp [emsgObjLog, p9, p10, hc, p5, p11, p4]
  · have hp := readStrmP_loop_fail a post ha hl pre
      { w := w, blen := blen, xlen := 0, dlen := 0, out := [], eObj := { eNum := 0, eMsg := "" },
        returned := false, rest := [] } hE hpre hsum
    have h3n : ¬ s.sType = StreamType.isActive := by rw [h3]; decide
    unfold Read
    simp only [h1, ne_eq, not_true_eq_false, if_false, h2, h3n]
    unfold readStrmP
    simp only []
    rw [h4]
    generalize readStrmP_loop (pre ++ a :: post) _ = r at hp ⊢
    obtain ⟨p1, p2, p3, p4, p5, p6, p7, p8, p9, p10, p11⟩ := hp
    simp only [] at p1 p4 p6 p7 p8 p9 p10 p11
    rw [setSetBuff_eq r.w s r.rest (p8.trans h2)]
    have hd : ¬ r.dlen = 0 := by omega
    simp only [p1, p5, Bool.false_eq_true, if_false, hd, or_self, EmsgObj_eq]
    simp [emsgObjLog, p9, p10, hc, p6, hsb, p11, p4]

/-- C20, at the sample request: with an active stream whose producer fails
after one chunk of 2 bytes, read with room for 4; and with a passive stream
whose producer fails at once. -/
theorem C20_stream_failure_witness :
    ((Read (sampleWith failingLater) false 4).1.ret = SFS_ERROR ∧
      (Read (sampleWith failingLater) false 4).1.done = true ∧
      (Read (sampleWith failingLater) false 4).2.req.myState = reqState.erRsp ∧
      (Read (sampleWith failingLater) false 4).2.req.strBuff = none ∧
      (Read (sampleWith failingLater) false 4).2.log =
        (sampleWith failingLater).log ++ List.replicate 1 Effect.strRecycle ++
        [Effect.LogEmsg "readStrmA"
           (objText (sampleWith failingLater).req.sessN "read stream" { eNum := 5, eMsg := "bad" }),
         Effect.setErrInfo (some 1) (objCode { eNum := 5, eMsg := "bad" })
           (objText (sampleWith failingLater).req.sessN "read stream"
             { eNum := 5, eMsg := "bad" })]) ∧
    ((Read (sampleWith failingPassive) false 4).1.ret = SFS_ERROR ∧
      (Read (sampleWith failingPassive) false 4).1.done = true ∧
      (Read (sampleWith failingPassive) false 4).2.req.myState = reqState.erRsp ∧
      (Read (sampleWith failingPassive) false 4).2.req.strBuff = none ∧
      (Read (sampleWith failingPassive) false 4).2.log =
        (sampleWith failingPassive).log ++ List.replicate 0 Effect.strRecycle ++
        [Effect.LogEmsg "readStrmP"
           (objText (sampleWith failingPassive).req.sessN "read stream"
             { eNum := 5, eMsg := "bad" }),
         Effect.setErrInfo (some 1) (objCode { eNum := 5, eMsg := "bad" })
           (objText (sampleWith failingPassive).req.sessN "read stream"
             { eNum := 5, eMsg := "bad" })]) :=
  ⟨C20_stream_failure (sampleWith failingLater) false 4 1 "readStrmA" 1
      { eNum := 5, eMsg := "bad" } (by decide) (by decide)
      (Or.inl ⟨[{ buf := some [1, 2], last := false, err := none }],
        { buf := none, last := false, err := some { eNum := 5, eMsg := "bad" } }, [],
        ⟨⟨{ sType := StreamType.isActive
            getBuff := [{ buf := some [1, 2], last := false, err := none },
                        { buf := none, last := false,
                          err := some { eNum := 5, eMsg := "bad" } }]
            setBuff := [] }, by decide, rfl, rfl⟩,
         trivial, by decide, by decide, by decide, rfl, rfl⟩, rfl, by decide, rfl⟩),
   C20_stream_failure (sampleWith failingPassive) false 4 1 "readStrmP" 0
      { eNum := 5, eMsg := "bad" } (by decide) (by decide)
      (Or.inr ⟨[], { dlen := -1, data := [], last := false,
                     err := some { eNum := 5, eMsg := "bad" } }, [],
        ⟨⟨{ sType := StreamType.isPassive
            getBuff := []
            setBuff := [{ dlen := -1, data := [], last := false,
                          err := some { eNum := 5, eMsg := "bad" } }] }, by decide, rfl, rfl⟩,
         by decide, by decide, by decide, Or.inl rfl, by decide, rfl⟩, rfl, rfl, rfl⟩)⟩

theorem session_once_step (n : Nat) (a : Abs) (e : Event)
    (h : a.sessionCalls ≤ n + 1 ∧ (a.urState = rspState.isNew → a.sessionCalls = n)) :
    (absStep a e).sessionCalls ≤ n + 1 ∧
    ((absStep a e).urState = rspState.isNew → (absStep a e).sessionCalls = n) := by
  obtain ⟨h1, h2⟩ := h
  cases e <;> simp only [absStep]
  · exact ⟨h1, h2⟩
  · cases hu : a.urState <;> simp_all [absRecycle]
  · cases hu : a.urState <;> simp_all
    split <;> simp_all
  · exact ⟨h1, h2⟩
  · exact ⟨h1, h2⟩
  · exact ⟨h1, h2⟩
  · exact ⟨h1, h2⟩
  · cases hu : a.urState <;> simp_all [absRecycle]

theorem session_once_foldl (n : Nat) (evs : List Event) :
    ∀ a : Abs, (a.sessionCalls ≤ n + 1 ∧ (a.urState = rspState.isNew → a.sessionCalls = n)) →
      (evs.foldl absStep a).sessionCalls ≤ n + 1 := by
  induction evs with
  | nil => intro a h; exact h.1
  | cons e es ih => intro a h; exact ih _ (session_once_step n a e h)

/-- C21: `DoIt` on a request whose `urState` is `isNew` sets `urState` to
`isBegun` and `myState` to `xqReq` and makes exactly one call, the session's
`ProcessRequest`; and whatever calls follow on that request (runs of `DoIt`,
binds, envelope hand-overs, `Finalize`, and also activations, reads and
deferred-wait calls), `ProcessRequest` is called at most once in all. -/
theorem C21_dispatch_once (w : World) (evs : List Event)
    (h : w.req.urState = rspState.isNew) :
    (DoIt w).req.urState = rspState.isBegun ∧ (DoIt w).req.myState = reqState.xqReq ∧
    (DoIt w).log = w.log ++ [Effect.ProcessRequest w.req.sessP] ∧
    sessionCalls (run w evs) ≤ sessionCalls w + 1 := by
  refine ⟨by simp [DoIt, h, emit], by simp [DoIt, h, emit], by simp [DoIt, h, emit], ?_⟩
  have hr := congrArg Abs.sessionCalls (abs_run evs w)
  have hr2 : sessionCalls (run w evs) = (evs.foldl absStep (abs w)).sessionCalls := hr
  rw [hr2]
  exact session_once_foldl (sessionCalls w) evs (abs w) ⟨Nat.le_succ _, fun _ => rfl⟩

/-- C21, at the sample request with two runs of `DoIt` among the calls. -/
theorem C21_dispatch_once_witness :
    (DoIt sampleWorld).req.urState = rspState.isBegun ∧
    (DoIt sampleWorld).req.myState = reqState.xqReq ∧
    (DoIt sampleWorld).log = sampleWorld.log ++ [Effect.ProcessRequest sampleWorld.req.sessP] ∧
    sessionCalls (run sampleWorld [Event.Activate (some 5) none 10, Event.DoIt, Event.BindDone,
      Event.DoIt, Event.SetResponse sampleStream, Event.Finalize, Event.DoIt])
      ≤ sessionCalls sampleWorld + 1 :=
  C21_dispatch_once sampleWorld [Event.Activate (some 5) none 10, Event.DoIt, Event.BindDone,
      Event.DoIt, Event.SetResponse sampleStream, Event.Finalize, Event.DoIt] (by decide)

/-- C22: `DoIt` on a request whose `urState` is `isBegun` or `isBound`, and
`BindDone` on a request whose `urState` is `isNew` or `isAbort`, make exactly
one call, the log message "Invalid req/rsp state; giving up on object!", and
leave the request, the pool and the scheduler's queue as they were: nothing is
scheduled, neither the session nor `Finished` is called, and the object is not
recycled. -/
theorem C22_invalid_state_frame (w1 w2 : World)
    (h1 : w1.req.urState = rspState.isBegun ∨ w1.req.urState = rspState.isBound)
    (h2 : w2.req.urState = rspState.isNew ∨ w2.req.urState = rspState.isAbort) :
    DoIt w1 = { w1 with log := w1.log ++ [Effect.LogEmsg "DoIt" invalidState] } ∧
    BindDone w2 = { w2 with log := w2.log ++ [Effect.LogEmsg "BindDone" invalidState] } := by
  constructor
  · rcases h1 with h | h <;> simp [DoIt, h, emit]
  · rcases h2 with h | h <;> simp [BindDone, h, emit]

/-- C22, at the sample request after its dispatch (for `DoIt`) and before it
(for `BindDone`). -/
theorem C22_invalid_state_frame_witness :
    DoIt (run sampleWorld [Event.Activate (some 5) none 10, Event.DoIt]) =
      { run sampleWorld [Event.Activate (some 5) none 10, Event.DoIt] with
        log := (run sampleWorld [Event.Activate (some 5) none 10, Event.DoIt]).log ++
          [Effect.LogEmsg "DoIt" invalidState] } ∧
    BindDone sampleWorld =
      { sampleWorld with log := sampleWorld.log ++ [Effect.LogEmsg "BindDone" invalidState] } :=
  C22_invalid_state_frame (run sampleWorld [Event.Activate (some 5) none 10, Event.DoIt])
    sampleWorld (Or.inl (by decide)) (Or.inl (by decide))

/-- C23: `WantResponse` returns true exactly when `myState` is `doRsp`, and
then changes nothing. Otherwise it returns false, stores the callback and its
argument and sets `respWait` to false, changing nothing else; a
`ProcessResponse` that follows at once then makes no call (no wakeup). -/
theorem C23_want_response (w : World) (rCB : Option Nat) (rArg : Int) :
    ((WantResponse w rCB rArg).1 = true ↔ w.req.myState = reqState.doRsp) ∧
    (if w.req.myState = reqState.doRsp then (WantResponse w rCB rArg).2 = w
     else
      (WantResponse w rCB rArg).2 =
        { w with req := { w.req with respCB := rCB, respCBarg := rArg, respWait := false } } ∧
      ∀ r : XrdSsiRespInfo,
        (ProcessResponse (WantResponse w rCB rArg).2 r).2.log = w.log ∧
        wakeups (ProcessResponse (WantResponse w rCB rArg).2 r).2 = wakeups w) := by
  by_cases h : w.req.myState = reqState.doRsp
  · simp [WantResponse, h]
  · rw [if_neg h]
    refine ⟨by simp [WantResponse, h], by simp [WantResponse, h], ?_⟩
    intro r
    have hl : (ProcessResponse (WantResponse w rCB rArg).2 r).2.log = w.log := by
      simp only [WantResponse, if_neg h]
      unfold ProcessResponse
      split
      · rfl
      · cases r <;> simp
    exact ⟨hl, by simp only [wakeups, hl]⟩

/-- C24: `WakeInfo` stores `reqID` as the id, and as the size: `respLen` for a
data response, -1 for an error, 0 for a stream, -2 for no response, and for a
file `fileSz` converted to a 32-bit signed integer, whatever `fileSz` is: the
0 stored first when `fileSz` is outside `[0, 2^31)` is overwritten. The size
reported for a file is the value in `[-2^31, 2^31)` congruent to `fileSz`
modulo 2^32; it equals `fileSz` exactly when `fileSz` is in that range and is
0 exactly when the low 32 bits of `fileSz` are all zero. -/
theorem C24_wake_info (r : Req) (rdyInfo : XrdSsiRRInfo) :
    (WakeInfo r rdyInfo).Id = r.reqID ∧
    (match r.Resp with
     | XrdSsiRespInfo.isData _ => (WakeInfo r rdyInfo).Size = r.respLen
     | XrdSsiRespInfo.isError _ _ => (WakeInfo r rdyInfo).Size = -1
     | XrdSsiRespInfo.isStream _ => (WakeInfo r rdyInfo).Size = 0
     | XrdSsiRespInfo.isNone => (WakeInfo r rdyInfo).Size = -2
     | XrdSsiRespInfo.isFile _ _ =>
       (WakeInfo r rdyInfo).Size = toInt32 r.fileSz ∧
       (WakeInfo r rdyInfo).Size = (r.fileSz + 2147483648) % 4294967296 - 2147483648 ∧
       -2147483648 ≤ (WakeInfo r rdyInfo).Size ∧ (WakeInfo r rdyInfo).Size < 2147483648 ∧
       (WakeInfo r rdyInfo).Size % 4294967296 = r.fileSz % 4294967296 ∧
       ((WakeInfo r rdyInfo).Size = r.fileSz ↔
         (-2147483648 ≤ r.fileSz ∧ r.fileSz < 2147483648)) ∧
       ((WakeInfo r rdyInfo).Size = 0 ↔ r.fileSz % 4294967296 = 0)) := by
  constructor
  · unfold WakeInfo
    cases r.Resp <;> simp
    split <;> rfl
  · cases h : r.Resp with
    | isNone => simp [WakeInfo, h]
    | isData buff => simp [WakeInfo, h]
    | isError eNum eMsg => simp [WakeInfo, h]
    | isStream strmP => simp [WakeInfo, h]
    | isFile fdnum fsize =>
      have hS : (WakeInfo r rdyInfo).Size = toInt32 r.fileSz := by
        simp [WakeInfo, h]
      simp only []
      rw [hS]
      unfold toInt32
      refine ⟨rfl, rfl, ?_, ?_, ?_, ?_, ?_⟩ <;> omega

/-- C24, for file responses with `fileSz` 2^31 (reported as -2^31), 2^32 + 5
(reported as 5) and 7 (reported as 7). -/
theorem C24_wake_info_witness :
    (WakeInfo { rawReq with Resp := XrdSsiRespInfo.isFile 3 0, fileSz := 2147483648, reqID := 9 }
      { Id := 0, Size := 0 }) = { Id := 9, Size := -2147483648 } ∧
    (WakeInfo { rawReq with Resp := XrdSsiRespInfo.isFile 3 0, fileSz := 4294967301, reqID := 9 }
      { Id := 0, Size := 0 }).Size = 5 ∧
    (WakeInfo { rawReq with Resp := XrdSsiRespInfo.isFile 3 0, fileSz := 7, reqID := 9 }
      { Id := 0, Size := 0 }).Size = 7 := by
  have a := C24_wake_info
    { rawReq with Resp := XrdSsiRespInfo.isFile 3 0, fileSz := 2147483648, reqID := 9 }
    { Id := 0, Size := 0 }
  have b := C24_wake_info
    { rawReq with Resp := XrdSsiRespInfo.isFile 3 0, fileSz := 4294967301, reqID := 9 }
    { Id := 0, Size := 0 }
  have c := C24_wake_info
    { rawReq with Resp := XrdSsiRespInfo.isFile 3 0, fileSz := 7, reqID := 9 }
    { Id := 0, Size := 0 }
  refine ⟨?_, ?_, ?_⟩
  · have h1 := a.1
    have h2 := a.2.1
    generalize WakeInfo _ _ = x at h1 h2 ⊢
    cases x
    simp only [] at h1 h2
    rw [h1, h2]
    decide
  · rw [b.2.1]; decide
  · rw [c.2.1]; decide

/-- C30: `Send` returns 1 and leaves the world as it was (no field of the
request changes and no call is made, `SendFile` included) when `myState` is
not `doRsp`, when the response is an error, and when it is a passive
stream. -/
theorem C30_send_falls_back (w : World) (sfDio blen : Int)
    (h : w.req.myState ≠ reqState.doRsp ∨
      (∃ eNum eMsg, w.req.Resp = XrdSsiRespInfo.isError eNum eMsg) ∨
      (∃ strmP, w.req.Resp = XrdSsiRespInfo.isStream strmP ∧
        strmP.sType = StreamType.isPassive)) :
    Send w sfDio blen = (1, w) := by
  by_cases hs : w.req.myState = reqState.doRsp
  · rcases h with h | ⟨eNum, eMsg, h⟩ | ⟨strmP, h, hp⟩
    · exact absurd hs h
    · simp [Send, hs, h]
    · simp [Send, hs, h, hp]
  · simp [Send, hs]

/-- C30, at the sample request before any response, with an error response
and with a passive stream. -/
theorem C30_send_falls_back_witness :
    Send sampleWorld 0 4 = (1, sampleWorld) ∧
    Send (sampleWith (XrdSsiRespInfo.isError 13 "denied")) 0 4 =
      (1, sampleWith (XrdSsiRespInfo.isError 13 "denied")) ∧
    Send (sampleWith samplePassive) 0 4 = (1, sampleWith samplePassive) :=
  ⟨C30_send_falls_back sampleWorld 0 4 (Or.inl (by decide)),
   C30_send_falls_back (sampleWith (XrdSsiRespInfo.isError 13 "denied")) 0 4
     (Or.inr (Or.inl ⟨13, "denied", by decide⟩)),
   C30_send_falls_back (sampleWith samplePassive) 0 4
     (Or.inr (Or.inr ⟨_, rfl, by decide⟩))⟩

theorem sentBytes_log (w : World) (l : List Effect) (r : Req) :
    sentBytes { w with log := w.log ++ l, req := r } =
      sentBytes w ++ (l.map (fun e => match e with
        | Effect.SendFile v => sfBytes v
        | _ => [])).flatten := by
  simp [sentBytes]

theorem sentRanges_log (w : World) (l : List Effect) (r : Req) :
    sentRanges { w with log := w.log ++ l, req := r } =
      sentRanges w ++ l.filterMap (fun e => match e with
        | Effect.SendFile v =>
          (match v.data with
           | SfData.fileOff o => some (o, v.sendsz)
           | _ => none)
        | _ => none) := by
  simp [sentRanges]

theorem Send_off_ok (w : World) (v : XrdOucSFVec) (blen : Int) :
    Send_off w v 0 blen =
      ((if blen = 0 ∨ w.req.myState = reqState.odRsp then 0 else 1),
       { w with
         log := w.log ++ [Effect.SendFile
           { data := if blen = 0 then SfData.rID else v.data, sendsz := blen, fdnum := v.fdnum }]
         req := if blen = 0 then { w.req with myState := reqState.odRsp } else w.req }) := by
  unfold Send_off
  by_cases hb : blen = 0
  · simp [hb, emit]
  · simp [hb, emit]

theorem Send_off_fail (w : World) (v : XrdOucSFVec) (sfDio blen : Int) (h : sfDio ≠ 0) :
    (Send_off w v sfDio blen).2.req = { w.req with myState := reqState.erRsp } := by
  unfold Send_off
  simp only [if_neg h, Emsg_eq]
  by_cases hb : blen = 0 <;> simp [hb, emit]

theorem Send_idle (w : World) (sfDio blen : Int) (h : w.req.myState ≠ reqState.doRsp) :
    Send w sfDio blen = (1, w) := by
  simp [Send, h]

theorem sendInv_step (data : List Byte) (w : World) (sfDio blen : Int)
    (hI : sendInv data w) (hb : 0 < blen) : sendInv data (Send w sfDio blen).2 := by
  by_cases hs : w.req.myState = reqState.doRsp
  · obtain ⟨hR, hdo, _⟩ := hI
    obtain ⟨h1, h2, h3, h4⟩ := hdo hs
    have hgt : blen > 0 := hb
    by_cases hz : sfDio = 0
    · subst hz
      by_cases hc : blen > w.req.respLen
      · have hS : Send w 0 blen = Send_off
            { w with req := { w.req with myState := reqState.odRsp } }
            { data := SfData.mem data w.req.respOff, sendsz := 0, fdnum := some (-1) } 0
            w.req.respLen := by
          simp [Send, hs, hR, hgt, hc]
        rw [hS, Send_off_ok]
        refine ⟨?_, ?_, ?_⟩
        · by_cases h0 : w.req.respLen = 0 <;> simp [h0, hR]
        · intro hm
          by_cases h0 : w.req.respLen = 0 <;> simp [h0] at hm
        · intro _
          by_cases h0 : w.req.respLen = 0
          · have : data.length ≤ w.req.respOff.toNat := by omega
            simp [h0, sentBytes, sfBytes] at h4 ⊢
            rw [h4, List.take_of_length_le this]
          · have hl : (data.drop w.req.respOff.toNat).length ≤ w.req.respLen.toNat := by
              simp only [List.length_drop]; omega
            simp [h0, sentBytes, sfBytes, memcpy] at h4 ⊢
            rw [h4, List.take_of_length_le hl, List.take_append_drop]
      · have hS : Send w 0 blen = Send_off
            { w with req := { w.req with respLen := w.req.respLen - blen,
                                         respOff := w.req.respOff + blen } }
            { data := SfData.mem data w.req.respOff, sendsz := 0, fdnum := some (-1) } 0
            blen := by
          simp [Send, hs, hR, hgt, hc]
        have hb0 : ¬ blen = 0 := by omega
        rw [hS, Send_off_ok]
        simp only [if_neg hb0]
        refine ⟨hR, ?_, ?_⟩
        · intro _
          refine ⟨by simp only []; omega, by simp only []; omega, by simp only []; omega, ?_⟩
          simp [sentBytes, sfBytes, memcpy] at h4 ⊢
          rw [h4]
          have : (w.req.respOff + blen).toNat = w.req.respOff.toNat + blen.toNat := by omega
          rw [this, List.take_add]
        · intro hm
          simp [hs] at hm
    · have hreq : (Send w sfDio blen).2.req = { w.req with myState := reqState.erRsp } ∨
          (Send w sfDio blen).2.req =
            { w.req with myState := reqState.erRsp, respLen := w.req.respLen - blen,
                         respOff := w.req.respOff + blen } := by
        by_cases hc : blen > w.req.respLen
        · left
          have hS : Send w sfDio blen = Send_off
              { w with req := { w.req with myState := reqState.odRsp } }
              { data := SfData.mem data w.req.respOff, sendsz := 0, fdnum := some (-1) } sfDio
              w.req.respLen := by
            simp [Send, hs, hR, hgt, hc]
          rw [hS, Send_off_fail _ _ _ _ hz]
        · right
          have hS : Send w sfDio blen = Send_off
              { w with req := { w.req with respLen := w.req.respLen - blen,
                                           respOff := w.req.respOff + blen } }
              { data := SfData.mem data w.req.respOff, sendsz := 0, fdnum := some (-1) } sfDio
              blen := by
            simp [Send, hs, hR, hgt, hc]
          rw [hS, Send_off_fail _ _ _ _ hz]
      rcases hreq with h | h
      · refine ⟨by rw [h]; exact hR, ?_, ?_⟩ <;> intro hm <;> rw [h] at hm <;> simp at hm
      · refine ⟨by rw [h]; exact hR, ?_, ?_⟩ <;> intro hm <;> rw [h] at hm <;> simp at hm
  · rw [Send_idle w sfDio blen hs]
    exact hI

theorem contig_append (l : List (Int × Int)) (o n : Int) :
    ∀ s e : Int, contig s l = some e →
      contig s (l ++ [(o, n)]) = if o = e then some (e + n) else none := by
  induction l with
  | nil =>
    intro s e h
    simp only [contig, Option.some.injEq] at h
    subst h
    simp [contig]
  | cons x xs ih =>
    intro s e h
    obtain ⟨xo, xn⟩ := x
    simp only [contig, List.cons_append] at h ⊢
    by_cases hx : xo = s
    · rw [if_pos hx] at h ⊢
      exact ih _ _ h
    · rw [if_neg hx] at h
      exact absurd h (by simp)

theorem sendFileInv_step (fdnum fsize : Int) (w : World) (sfDio blen : Int)
    (hI : sendFileInv fdnum fsize w) (hb : 0 < blen) :
    sendFileInv fdnum fsize (Send w sfDio blen).2 := by
  by_cases hs : w.req.myState = reqState.doRsp
  · obtain ⟨hR, hdo, _⟩ := hI
    obtain ⟨h1, h2, h3⟩ := hdo hs
    have hS : Send w sfDio blen =
        if w.req.fileSz > 0 then
          if blen > w.req.fileSz then
            Send_off { w with req := { w.req with myState := reqState.odRsp,
                                                   respOff := w.req.respOff + w.req.fileSz,
                                                   fileSz := w.req.fileSz - w.req.fileSz } }
              { data := SfData.fileOff w.req.respOff, sendsz := 0, fdnum := some fdnum } sfDio
              w.req.fileSz
          else
            Send_off { w with req := { w.req with respOff := w.req.respOff + blen,
                                                   fileSz := w.req.fileSz - blen } }
              { data := SfData.fileOff w.req.respOff, sendsz := 0, fdnum := some fdnum } sfDio
              blen
        else Send_off w { data := SfData.unset, sendsz := 0, fdnum := none } sfDio 0 := by
      unfold Send
      rw [if_neg (by simp [hs])]
      by_cases hf : w.req.fileSz > 0
      · by_cases hc : blen > w.req.fileSz <;> simp [hR, hf, hc]
      · simp [hR, hf]
    by_cases hz : sfDio = 0
    · subst hz
      rw [hS]
      by_cases hf : w.req.fileSz > 0
      · rw [if_pos hf]
        have hf0 : ¬ w.req.fileSz = 0 := by omega
        by_cases hc : blen > w.req.fileSz
        · rw [if_pos hc, Send_off_ok]
          simp only [if_neg hf0]
          refine ⟨hR, ?_, ?_⟩
          · intro hm; simp at hm
          · intro _
            rw [sentRanges_log]
            simp only [List.filterMap_cons, List.filterMap_nil]
            rw [contig_append _ _ _ _ _ h3, if_pos rfl, h2]
        · have hb0 : ¬ blen = 0 := by omega
          rw [if_neg hc, Send_off_ok]
          simp only [if_neg hb0]
          refine ⟨hR, ?_, ?_⟩
          · intro _
            refine ⟨by simp only []; omega, by simp only []; omega, ?_⟩
            rw [sentRanges_log]
            simp only [List.filterMap_cons, List.filterMap_nil]
            rw [contig_append _ _ _ _ _ h3, if_pos rfl]
          · intro hm; simp [hs] at hm
      · have hf0 : w.req.fileSz = 0 := by omega
        rw [if_neg hf, Send_off_ok]
        simp only [if_true]
        refine ⟨hR, ?_, ?_⟩
        · intro hm; simp at hm
        · intro _
          rw [sentRanges_log]
          simp only [List.filterMap_cons, List.filterMap_nil, List.append_nil]
          rw [h3]
          congr 1
          omega
    · have hreq : (Send w sfDio blen).2.req.myState = reqState.erRsp ∧
          (Send w sfDio blen).2.req.Resp = w.req.Resp := by
        rw [hS]
        by_cases hf : w.req.fileSz > 0
        · by_cases hc : blen > w.req.fileSz
          · rw [if_pos hf, if_pos hc, Send_off_fail _ _ _ _ hz]; exact ⟨rfl, rfl⟩
          · rw [if_pos hf, if_neg hc, Send_off_fail _ _ _ _ hz]; exact ⟨rfl, rfl⟩
        · rw [if_neg hf, Send_off_fail _ _ _ _ hz]; exact ⟨rfl, rfl⟩
      refine ⟨hreq.2.trans hR, ?_, ?_⟩ <;> intro hm <;> rw [hreq.1] at hm <;> simp at hm
  · rw [Send_idle w sfDio blen hs]
    exact hI

theorem sendRun_inv (Inv : World → Prop)
    (hstep : ∀ (w : World) (sfDio blen : Int), Inv w → 0 < blen → Inv (Send w sfDio blen).2)
    (calls : List (Int × Int)) :
    ∀ w : World, Inv w → (∀ c ∈ calls, 0 < c.2) → Inv (sendRun w calls) := by
  induction calls with
  | nil => intro w h _; exact h
  | cons c cs ih =>
    intro w h hp
    exact ih _ (hstep w c.1 c.2 h (hp c (List.mem_cons_self _ _)))
      (fun d hd => hp d (List.mem_cons_of_mem _ hd))

theorem sendInv_attach (w0 : World) (data : List Byte)
    (h : (SetResponse w0 (XrdSsiRespInfo.isData data)).1 = true) (hs : sentBytes w0 = []) :
    sendInv data (SetResponse w0 (XrdSsiRespInfo.isData data)).2 := by
  unfold SetResponse ProcessResponse at h ⊢
  simp only [] at h ⊢
  split at h
  · simp at h
  · rename_i hn
    rw [if_neg hn]
    simp only [sentBytes] at hs
    by_cases hw : w0.req.respWait = true
    · simp [hw, WakeUp, emit, sendInv, sentBytes, hs]
    · simp [hw, sendInv, sentBytes, hs]

theorem sendFileInv_attach (w0 : World) (fdnum fsize : Int)
    (h : (SetResponse w0 (XrdSsiRespInfo.isFile fdnum fsize)).1 = true) (h0 : 0 ≤ fsize)
    (hs : sentRanges w0 = []) :
    sendFileInv fdnum fsize (SetResponse w0 (XrdSsiRespInfo.isFile fdnum fsize)).2 := by
  unfold SetResponse ProcessResponse at h ⊢
  simp only [] at h ⊢
  split at h
  · simp at h
  · rename_i hn
    rw [if_neg hn]
    simp only [sentRanges] at hs
    by_cases hw : w0.req.respWait = true
    · simp [hw, WakeUp, emit, sendFileInv, sentRanges, hs, contig, h0]
    · simp [hw, sendFileInv, sentRanges, hs, contig, h0]

theorem attach_data_facts (w0 : World) (data : List Byte)
    (h : (SetResponse w0 (XrdSsiRespInfo.isData data)).1 = true) (hs : sentBytes w0 = []) :
    (SetResponse w0 (XrdSsiRespInfo.isData data)).2.req.myState = reqState.doRsp ∧
    (SetResponse w0 (XrdSsiRespInfo.isData data)).2.req.Resp = XrdSsiRespInfo.isData data ∧
    sentBytes (SetResponse w0 (XrdSsiRespInfo.isData data)).2 = [] := by
  unfold SetResponse ProcessResponse at h ⊢
  simp only [] at h ⊢
  split at h
  · simp at h
  · rename_i hn
    rw [if_neg hn]
    simp only [sentBytes] at hs
    by_cases hw : w0.req.respWait = true
    · simp [hw, WakeUp, emit, sentBytes, hs]
    · simp [hw, sentBytes, hs]

/-- C26 (counterexample): on a data response of 3 bytes, `Send` with length 0
and `Send` with length -1 each leave `myState = odRsp` although no byte was
handed to the sink; on a file response of 10 bytes, `Send` with length 0 leaves
`myState = odRsp` although no file range was handed to the sink. -/
theorem C26_counterexample :
    (sampleWith (XrdSsiRespInfo.isData [1, 2, 3])).req.myState = reqState.doRsp ∧
    (Send (sampleWith (XrdSsiRespInfo.isData [1, 2, 3])) 0 0).2.req.myState = reqState.odRsp ∧
    sentBytes (Send (sampleWith (XrdSsiRespInfo.isData [1, 2, 3])) 0 0).2 = [] ∧
    (Send (sampleWith (XrdSsiRespInfo.isData [1, 2, 3])) 0 (-1)).2.req.myState
      = reqState.odRsp ∧
    sentBytes (Send (sampleWith (XrdSsiRespInfo.isData [1, 2, 3])) 0 (-1)).2 = [] ∧
    (fileWorld []).req.myState = reqState.doRsp ∧ (fileWorld []).req.fileSz = 10 ∧
    (Send (fileWorld []) 0 0).2.req.myState = reqState.odRsp ∧
    sentRanges (Send (fileWorld []) 0 0).2 = [] := by
  decide

/-- C26 (amended): take a data envelope and a file envelope of length at
least 0, each attached to a request to whose sink nothing has been handed yet,
and after each any sequence of `Send` calls with positive lengths (whatever the
sink returns). If the data response ends in `odRsp`, the memory segments
handed to the sink make up the whole view, in order; if the file response ends
in `odRsp`, the file ranges handed to the sink follow one another from offset
0 to the file length. A `Send` with a length `b0 ≤ 0` right after the
attachment of the data envelope leaves `odRsp` with no byte handed over. -/
theorem C26_send_exhausted_means_sent (v1 v2 : World) (data : List Byte) (fdnum fsize : Int)
    (calls1 calls2 : List (Int × Int)) (b0 : Int)
    (ha1 : (SetResponse v1 (XrdSsiRespInfo.isData data)).1 = true) (hs1 : sentBytes v1 = [])
    (ha2 : (SetResponse v2 (XrdSsiRespInfo.isFile fdnum fsize)).1 = true)
    (hs2 : sentRanges v2 = []) (hf : 0 ≤ fsize)
    (hp1 : ∀ c ∈ calls1, 0 < c.2) (hp2 : ∀ c ∈ calls2, 0 < c.2)
    (he1 : (sendRun (SetResponse v1 (XrdSsiRespInfo.isData data)).2 calls1).req.myState
      = reqState.odRsp)
    (he2 : (sendRun (SetResponse v2 (XrdSsiRespInfo.isFile fdnum fsize)).2 calls2).req.myState
      = reqState.odRsp)
    (hb0 : b0 ≤ 0) :
    sentBytes (sendRun (SetResponse v1 (XrdSsiRespInfo.isData data)).2 calls1) = data ∧
    contig 0 (sentRanges (sendRun (SetResponse v2 (XrdSsiRespInfo.isFile fdnum fsize)).2 calls2))
      = some fsize ∧
    (Send (SetResponse v1 (XrdSsiRespInfo.isData data)).2 0 b0).2.req.myState
      = reqState.odRsp ∧
    sentBytes (Send (SetResponse v1 (XrdSsiRespInfo.isData data)).2 0 b0).2 = [] := by
  have i1 := sendInv_attach v1 data ha1 hs1
  have i2 := sendFileInv_attach v2 fdnum fsize ha2 hf hs2
  have r1 := sendRun_inv (sendInv data) (sendInv_step data) calls1 _ i1 hp1
  have r2 := sendRun_inv (sendFileInv fdnum fsize) (sendFileInv_step fdnum fsize) calls2 _ i2 hp2
  obtain ⟨f1, f2, f3⟩ := attach_data_facts v1 data ha1 hs1
  generalize (SetResponse v1 (XrdSsiRespInfo.isData data)).2 = w at r1 he1 f1 f2 f3 ⊢
  have hn : ¬ b0 > 0 := by omega
  have hS : Send w 0 b0 = (0,
      { w with
        log := w.log ++
          [Effect.SendFile { data := SfData.rID, sendsz := 0, fdnum := none }]
        req := { w.req with myState := reqState.odRsp } }) := by
    simp [Send, f1, f2, hn, Send_off_ok]
  refine ⟨r1.2.2 he1, r2.2.2 he2, ?_, ?_⟩
  · rw [hS]
  · rw [hS]
    simp only []
    rw [sentBytes_log, f3]
    simp [sfBytes]

/-- C26 (amended), at the sample request once bound: a 3-byte data envelope
sent in two calls of length 2, a 10-byte file envelope sent in calls of length
4, 4 and 4, and a `Send` of length 0 on the data envelope. -/
theorem C26_send_exhausted_means_sent_witness :
    sentBytes (sendRun (SetResponse
        (run sampleWorld [Event.Activate (some 5) none 10, Event.DoIt, Event.BindDone])
        (XrdSsiRespInfo.isData [1, 2, 3])).2 [(0, 2), (0, 2)]) = [1, 2, 3] ∧
    contig 0 (sentRanges (sendRun (SetResponse
        (run sampleWorld [Event.Activate (some 5) none 10, Event.DoIt, Event.BindDone])
        (XrdSsiRespInfo.isFile 3 10)).2 [(0, 4), (0, 4), (0, 4)])) = some 10 ∧
    (Send (SetResponse
        (run sampleWorld [Event.Activate (some 5) none 10, Event.DoIt, Event.BindDone])
        (XrdSsiRespInfo.isData [1, 2, 3])).2 0 0).2.req.myState = reqState.odRsp ∧
    sentBytes (Send (SetResponse
        (run sampleWorld [Event.Activate (some 5) none 10, Event.DoIt, Event.BindDone])
        (XrdSsiRespInfo.isData [1, 2, 3])).2 0 0).2 = [] :=
  C26_send_exhausted_means_sent
    (run sampleWorld [Event.Activate (some 5) none 10, Event.DoIt, Event.BindDone])
    (run sampleWorld [Event.Activate (some 5) none 10, Event.DoIt, Event.BindDone])
    [1, 2, 3] 3 10 [(0, 2), (0, 2)] [(0, 4), (0, 4), (0, 4)] 0
    (by decide) (by decide) (by decide) (by decide) (by decide) (by decide) (by decide)
    (by decide) (by decide) (by decide)

theorem cursorInv_Read (L : Int) (w : World) (done : Bool) (blen : Int)
    (hI : cursorInv L w) : cursorInv L (Read w done blen).2 := by
  obtain ⟨hL, hdo⟩ := hI
  by_cases hs : w.req.myState = reqState.doRsp
  · have hsum := hdo hs
    cases hR : w.req.Resp with
    | isNone => simp [hR, declLen] at hL
    | isError eNum eMsg => simp [hR, declLen] at hL
    | isStream strmP => simp [hR, declLen] at hL
    | isData buff =>
      simp only [remaining, hR] at hsum
      unfold Read
      rw [if_neg (by simp [hs])]
      simp only [hR]
      by_cases h1 : w.req.respLen ≤ 0
      · rw [if_pos h1]
        exact ⟨by simpa [hR] using hL, by intro h; simp at h⟩
      · rw [if_neg h1]
        by_cases h2 : blen ≥ w.req.respLen
        · rw [if_pos h2]
          exact ⟨by simpa [hR] using hL, by intro h; simp at h⟩
        · rw [if_neg h2]
          refine ⟨by simpa [hR] using hL, ?_⟩
          intro _
          simp only [remaining, hR]
          omega
    | isFile fdnum fsize =>
      simp only [remaining, hR] at hsum
      unfold Read
      rw [if_neg (by simp [hs])]
      simp only [hR]
      by_cases h1 : w.req.fileSz ≤ 0
      · rw [if_pos h1]
        exact ⟨by simpa [hR] using hL, by intro h; simp at h⟩
      · rw [if_neg h1, pread_eq]
        simp only []
        by_cases h2 : (nextPread w).nbytes ≤ 0
        · rw [if_pos h2]
          by_cases h3 : (nextPread w).nbytes = 0
          · rw [if_pos h3]
            exact ⟨by simpa [hR] using hL, by intro h; simp at h⟩
          · rw [if_neg h3, Emsg_eq]
            exact ⟨by simpa [hR] using hL, by intro h; simp at h⟩
        · rw [if_neg h2]
          refine ⟨by simpa [hR] using hL, ?_⟩
          intro _
          simp only [remaining, hR]
          omega
  · have hR : (Read w done blen).2.req = w.req := by
      unfold Read
      rw [if_pos hs]
      by_cases ho : w.req.myState = reqState.odRsp
      · rw [if_pos ho]
      · rw [if_neg ho, Emsg_eq]
    rw [cursorInv, hR]
    exact ⟨hL, hdo⟩

theorem cursorInv_Send (L : Int) (w : World) (sfDio blen : Int)
    (hI : cursorInv L w) : cursorInv L (Send w sfDio blen).2 := by
  by_cases hs : w.req.myState = reqState.doRsp
  · obtain ⟨hL, hdo⟩ := hI
    have hsum := hdo hs
    have key : ∀ (w1 : World) (v : XrdOucSFVec) (b : Int),
        w1.req.Resp = w.req.Resp →
        (w1.req.myState = reqState.doRsp → w1.req.respOff + remaining w1.req = L) →
        cursorInv L (Send_off w1 v sfDio b).2 := by
      intro w1 v b e1 e2
      by_cases hz : sfDio = 0
      · subst hz
        rw [Send_off_ok]
        by_cases hb : b = 0
        · simp only [if_pos hb]
          exact ⟨by simpa [e1] using hL, by intro h; simp at h⟩
        · simp only [if_neg hb]
          exact ⟨by simpa [e1] using hL, fun h => by simpa [remaining] using e2 h⟩
      · have := Send_off_fail w1 v sfDio b hz
        rw [cursorInv, this]
        exact ⟨by simpa [e1] using hL, by intro h; simp at h⟩
    cases hR : w.req.Resp with
    | isNone => simp [hR, declLen] at hL
    | isError eNum eMsg => simp [hR, declLen] at hL
    | isStream strmP => simp [hR, declLen] at hL
    | isData buff =>
      simp only [remaining, hR] at hsum
      unfold Send
      rw [if_neg (by simp [hs])]
      simp only [hR]
      by_cases h1 : blen > 0
      · rw [if_pos h1]
        by_cases h2 : blen > w.req.respLen
        · rw [if_pos h2]
          exact key _ _ _ (by simp [hR]) (by intro h; simp at h)
        · rw [if_neg h2]
          exact key _ _ _ (by simp [hR]) (by intro _; simp only [remaining, hR]; omega)
      · rw [if_neg h1]
        exact key _ _ _ rfl (by intro _; simp only [remaining, hR]; omega)
    | isFile fdnum fsize =>
      simp only [remaining, hR] at hsum
      unfold Send
      rw [if_neg (by simp [hs])]
      simp only [hR]
      by_cases h1 : w.req.fileSz > 0
      · rw [if_pos h1]
        by_cases h2 : blen > w.req.fileSz
        · simp only [if_pos h2]
          exact key _ _ _ (by simp [hR]) (by intro h; simp at h)
        · simp only [if_neg h2]
          exact key _ _ _ (by simp [hR]) (by intro _; simp only [remaining, hR]; omega)
      · rw [if_neg h1]
        exact key _ _ _ rfl (by intro _; simp only [remaining, hR]; omega)
  · rw [Send_idle w sfDio blen hs]
    exact hI

theorem cursorInv_run (L : Int) (xs : List Xfer) :
    ∀ w : World, cursorInv L w → cursorInv L (xferRun w xs) := by
  induction xs with
  | nil => intro w h; exact h
  | cons x xs ih =>
    intro w h
    cases x with
    | read blen => exact ih _ (cursorInv_Read L w false blen h)
    | send sfDio blen => exact ih _ (cursorInv_Send L w sfDio blen h)

theorem cursorInv_attach (w0 : World) (r : XrdSsiRespInfo) (L : Int)
    (hR : w0.req.Resp = r) (hL : declLen r = some L) (hok : (ProcessResponse w0 r).1 = true) :
    (ProcessResponse w0 r).2.req.Resp = r ∧
    (ProcessResponse w0 r).2.req.myState = reqState.doRsp ∧
    (ProcessResponse w0 r).2.req.respOff + remaining (ProcessResponse w0 r).2.req = L := by
  unfold ProcessResponse at hok ⊢
  split at hok
  · simp at hok
  · rename_i hn
    rw [if_neg hn]
    cases r with
    | isNone => simp [declLen] at hL
    | isError eNum eMsg => simp [declLen] at hL
    | isStream strmP => simp [declLen] at hL
    | isData buff =>
      simp only [declLen, Option.some.injEq] at hL
      simp [wake_req, remaining, hR, hL]
    | isFile fdnum fsize =>
      simp only [declLen, Option.some.injEq] at hL
      simp [wake_req, remaining, hR, hL]

/-- C31: when `ProcessResponse` accepts the request's data or file envelope of
declared length `L`, it leaves `myState = doRsp` with offset plus remaining
length equal to `L` (the remaining length is `respLen` for data and `fileSz`
for a file); and after any sequence of `Read` and `Send` calls that follows
(any lengths, any answers of `pread`, any return codes of the sink), if
`myState` is `doRsp` then offset plus remaining length is still `L`. -/
theorem C31_cursor_conserved (w0 : World) (r : XrdSsiRespInfo) (L : Int) (xs : List Xfer)
    (hR : w0.req.Resp = r) (hL : declLen r = some L)
    (hok : (ProcessResponse w0 r).1 = true)
    (hs : (xferRun (ProcessResponse w0 r).2 xs).req.myState = reqState.doRsp) :
    (ProcessResponse w0 r).2.req.myState = reqState.doRsp ∧
    (ProcessResponse w0 r).2.req.respOff + remaining (ProcessResponse w0 r).2.req = L ∧
    (xferRun (ProcessResponse w0 r).2 xs).req.respOff +
      remaining (xferRun (ProcessResponse w0 r).2 xs).req = L := by
  obtain ⟨a1, a2, a3⟩ := cursorInv_attach w0 r L hR hL hok
  have hI : cursorInv L (ProcessResponse w0 r).2 := ⟨by rw [a1]; exact hL, fun _ => a3⟩
  exact ⟨a2, a3, (cursorInv_run L xs _ hI).2 hs⟩

/-- C31, at the sample request: a 3-byte data envelope after a `Read` of 1 and
a `Send` of 1, and a 10-byte file envelope after a `Read` that got 4 bytes and
a `Send` of 3. -/
theorem C31_cursor_conserved_witness :
    ((ProcessResponse (boundWith (XrdSsiRespInfo.isData [1, 2, 3]) [])
        (XrdSsiRespInfo.isData [1, 2, 3])).2.req.myState = reqState.doRsp ∧
      (ProcessResponse (boundWith (XrdSsiRespInfo.isData [1, 2, 3]) [])
        (XrdSsiRespInfo.isData [1, 2, 3])).2.req.respOff +
        remaining (ProcessResponse (boundWith (XrdSsiRespInfo.isData [1, 2, 3]) [])
          (XrdSsiRespInfo.isData [1, 2, 3])).2.req = 3 ∧
      (xferRun (ProcessResponse (boundWith (XrdSsiRespInfo.isData [1, 2, 3]) [])
        (XrdSsiRespInfo.isData [1, 2, 3])).2 [Xfer.read 1, Xfer.send 0 1]).req.respOff +
        remaining (xferRun (ProcessResponse (boundWith (XrdSsiRespInfo.isData [1, 2, 3]) [])
          (XrdSsiRespInfo.isData [1, 2, 3])).2 [Xfer.read 1, Xfer.send 0 1]).req = 3) ∧
    ((ProcessResponse
        (boundWith (XrdSsiRespInfo.isFile 3 10) [{ nbytes := 4, errno := 0, data := [1, 2, 3, 4] }])
        (XrdSsiRespInfo.isFile 3 10)).2.req.myState = reqState.doRsp ∧
      (ProcessResponse
        (boundWith (XrdSsiRespInfo.isFile 3 10) [{ nbytes := 4, errno := 0, data := [1, 2, 3, 4] }])
        (XrdSsiRespInfo.isFile 3 10)).2.req.respOff +
        remaining (ProcessResponse
          (boundWith (XrdSsiRespInfo.isFile 3 10)
            [{ nbytes := 4, errno := 0, data := [1, 2, 3, 4] }])
          (XrdSsiRespInfo.isFile 3 10)).2.req = 10 ∧
      (xferRun (ProcessResponse
        (boundWith (XrdSsiRespInfo.isFile 3 10) [{ nbytes := 4, errno := 0, data := [1, 2, 3, 4] }])
        (XrdSsiRespInfo.isFile 3 10)).2 [Xfer.read 4, Xfer.send 0 3]).req.respOff +
        remaining (xferRun (ProcessResponse
          (boundWith (XrdSsiRespInfo.isFile 3 10)
            [{ nbytes := 4, errno := 0, data := [1, 2, 3, 4] }])
          (XrdSsiRespInfo.isFile 3 10)).2 [Xfer.read 4, Xfer.send 0 3]).req = 10) :=
  ⟨C31_cursor_conserved (boundWith (XrdSsiRespInfo.isData [1, 2, 3]) [])
      (XrdSsiRespInfo.isData [1, 2, 3]) 3 [Xfer.read 1, Xfer.send 0 1]
      (by decide) (by decide) (by decide) (by decide),
   C31_cursor_conserved
      (boundWith (XrdSsiRespInfo.isFile 3 10) [{ nbytes := 4, errno := 0, data := [1, 2, 3, 4] }])
      (XrdSsiRespInfo.isFile 3 10) 10 [Xfer.read 4, Xfer.send 0 3]
      (by decide) (by decide) (by decide) (by decide)⟩

/-- C32: for a file response in `doRsp` with `fileSz > 0`, when `pread` hands
back more bytes than `fileSz`, `Read` returns that count, larger than the
remaining length, stays in `doRsp` and leaves `fileSz` negative: the length
passed to `pread` is the caller's and is not limited to `fileSz`. -/
theorem C32_file_read_overruns (w : World) (done : Bool) (blen fdnum fsize : Int)
    (h1 : w.req.myState = reqState.doRsp)
    (h2 : w.req.Resp = XrdSsiRespInfo.isFile fdnum fsize) (h3 : 0 < w.req.fileSz)
    (h4 : w.req.fileSz < (nextPread w).nbytes) :
    (Read w done blen).1.ret = (nextPread w).nbytes ∧
    w.req.fileSz < (Read w done blen).1.ret ∧
    (Read w done blen).2.req.myState = reqState.doRsp ∧
    (Read w done blen).2.req.fileSz = w.req.fileSz - (nextPread w).nbytes ∧
    (Read w done blen).2.req.fileSz < 0 ∧
    (Read w done blen).2.log = w.log ++ [Effect.pread fdnum blen w.req.respOff] := by
  have hR : Read w done blen =
      ({ ret := (nextPread w).nbytes, done := done, buff := (nextPread w).data },
       { w with preads := w.preads.tail,
                log := w.log ++ [Effect.pread fdnum blen w.req.respOff],
                req := { w.req with respOff := w.req.respOff + (nextPread w).nbytes,
                                    fileSz := w.req.fileSz - (nextPread w).nbytes } }) := by
    unfold Read
    rw [if_neg (by simp [h1])]
    simp only [h2, if_neg (not_le.mpr h3), pread_eq]
    rw [if_neg (by omega)]
  rw [hR]
  refine ⟨rfl, h4, h1, rfl, ?_, rfl⟩
  simp only []
  omega

/-- C32, at a file response of declared length 10 whose file holds more: a
`Read` of 16 gets 16 bytes, no more than it asked for, and leaves
`fileSz = -6`. -/
theorem C32_file_read_overruns_witness :
    (nextPread (fileWorld [overrun])).nbytes ≤ 16 ∧
    (Read (fileWorld [overrun]) false 16).1.ret = (nextPread (fileWorld [overrun])).nbytes ∧
    (fileWorld [overrun]).req.fileSz < (Read (fileWorld [overrun]) false 16).1.ret ∧
    (Read (fileWorld [overrun]) false 16).2.req.myState = reqState.doRsp ∧
    (Read (fileWorld [overrun]) false 16).2.req.fileSz =
      (fileWorld [overrun]).req.fileSz - (nextPread (fileWorld [overrun])).nbytes ∧
    (Read (fileWorld [overrun]) false 16).2.req.fileSz < 0 ∧
    (Read (fileWorld [overrun]) false 16).2.log =
      (fileWorld [overrun]).log ++
        [Effect.pread 3 16 (fileWorld [overrun]).req.respOff] :=
  ⟨by decide,
   C32_file_read_overruns (fileWorld [overrun]) false 16 3 10 (by decide) (by decide)
    (by decide) (by decide)⟩

/-- C35: on a request whose `urState` is `isBegun` or `isBound`,
`ProcessResponse` with an envelope that has no type returns false after it
has set `myState` to `doRsp` and the cursor `respOff` to 0; nothing else
changes and no call is made. -/
theorem C35_rejection_not_atomic (w : World)
    (h : w.req.urState = rspState.isBegun ∨ w.req.urState = rspState.isBound) :
    ProcessResponse w XrdSsiRespInfo.isNone =
      (false, { w with req := { w.req with myState := reqState.doRsp, respOff := 0 } }) := by
  unfold ProcessResponse
  rcases h with h | h <;> simp [h]

/-- C35, at the sample request, bound, with a 3-byte data response read up to
offset 1 and then exhausted: the rejected call turns `odRsp` into `doRsp` and
moves the cursor from 1 back to 0. -/
theorem C35_rejection_not_atomic_witness :
    (run (sampleWith (XrdSsiRespInfo.isData [1, 2, 3]))
      [Event.Read 1, Event.Read 5]).req.myState = reqState.odRsp ∧
    (run (sampleWith (XrdSsiRespInfo.isData [1, 2, 3]))
      [Event.Read 1, Event.Read 5]).req.respOff = 1 ∧
    ProcessResponse (run (sampleWith (XrdSsiRespInfo.isData [1, 2, 3]))
        [Event.Read 1, Event.Read 5]) XrdSsiRespInfo.isNone =
      (false, { run (sampleWith (XrdSsiRespInfo.isData [1, 2, 3]))
          [Event.Read 1, Event.Read 5] with
        req := { (run (sampleWith (XrdSsiRespInfo.isData [1, 2, 3]))
            [Event.Read 1, Event.Read 5]).req with
          myState := reqState.doRsp, respOff := 0 } }) :=
  ⟨by decide, by decide,
   C35_rejection_not_atomic (run (sampleWith (XrdSsiRespInfo.isData [1, 2, 3]))
      [Event.Read 1, Event.Read 5]) (Or.inr (by decide))⟩

/-- C34: on a passive stream in `doRsp` with end-of-stream clear and no chunk
held, when the first `SetBuff` reports a positive length larger than the space
offered, what `Read` does depends on the end-of-stream flag the producer set in
the same call. With the flag clear, `Read` returns `SFS_ERROR`, moves to
`erRsp` and reports `EOVERFLOW` through `Emsg`. With the flag set, `Read`
returns the oversized length as its byte count, with `done` set, moves to
`odRsp` and makes no call: the overflow is not reported. -/
theorem C34_overflow_with_eof (w : World) (done : Bool) (blen : Int) (strmP : XrdSsiStream)
    (a : SetBuffOut) (rest : List SetBuffOut)
    (h1 : w.req.myState = reqState.doRsp) (h2 : w.req.Resp = XrdSsiRespInfo.isStream strmP)
    (h3 : strmP.sType = StreamType.isPassive) (h4 : w.req.strmEOF = false)
    (h5 : w.req.strBuff = none) (h6 : strmP.setBuff = a :: rest)
    (h7 : 0 < a.dlen) (h8 : blen < a.dlen) :
    if a.last = true then
      (Read w done blen).1 = { ret := a.dlen, done := true, buff := a.data } ∧
      (Read w done blen).1.ret ≠ SFS_ERROR ∧ blen < (Read w done blen).1.ret ∧
      (Read w done blen).2.req.myState = reqState.odRsp ∧
      (Read w done blen).2.log = w.log
    else
      (Read w done blen).1 = { ret := SFS_ERROR, done := true, buff := a.data } ∧
      (Read w done blen).2.req.myState = reqState.erRsp ∧
      (Read w done blen).2.log = w.log ++
        emsgObjLog w.req "readStrmP" { eNum := EOVERFLOW, eMsg := "" } "read stream" := by
  have h3n : ¬ strmP.sType = StreamType.isActive := by rw [h3]; decide
  have hne : ¬ a.dlen = blen := by omega
  have hd0 : ¬ a.dlen = 0 := by omega
  have hS : SFS_ERROR = -1 := rfl
  by_cases hl : a.last = true
  · rw [if_pos hl]
    have hR : Read w done blen =
        ({ ret := a.dlen, done := true, buff := a.data },
         { w with req := { w.req with
             Resp := XrdSsiRespInfo.isStream { strmP with setBuff := rest },
             myState := reqState.odRsp, strmEOF := true } }) := by
      unfold Read
      simp only [h1, ne_eq, not_true_eq_false, if_false, h2, h3n]
      unfold readStrmP
      simp only [h6]
      rw [readStrmP_loop]
      simp [h4, h7, hne, h8, hl, setSetBuff, h2, h5]
    rw [hR]
    refine ⟨rfl, ?_, h8, rfl, rfl⟩
    simp only [hS]
    omega
  · rw [if_neg hl]
    have hl' : a.last = false := by simpa using hl
    unfold Read
    simp only [h1, ne_eq, not_true_eq_false, if_false, h2, h3n]
    unfold readStrmP
    simp only [h6]
    rw [readStrmP_loop]
    simp [h4, h7, hne, h8, hl', setSetBuff, h2, h5, hd0, EmsgObj_eq]
    rfl

/-- C34, at the sample request: a passive stream whose producer reports 5
bytes for a buffer of 4, once with end-of-stream set and once with it clear. -/
theorem C34_overflow_with_eof_witness :
    ((Read (sampleWith overflowEOF) false 4).1 =
        { ret := 5, done := true, buff := [1, 2, 3, 4, 5] } ∧
      (Read (sampleWith overflowEOF) false 4).1.ret ≠ SFS_ERROR ∧
      (4 : Int) < (Read (sampleWith overflowEOF) false 4).1.ret ∧
      (Read (sampleWith overflowEOF) false 4).2.req.myState = reqState.odRsp ∧
      (Read (sampleWith overflowEOF) false 4).2.log = (sampleWith overflowEOF).log) ∧
    ((Read (sampleWith overflowMore) false 4).1 =
        { ret := SFS_ERROR, done := true, buff := [1, 2, 3, 4, 5] } ∧
      (Read (sampleWith overflowMore) false 4).2.req.myState = reqState.erRsp ∧
      (Read (sampleWith overflowMore) false 4).2.log = (sampleWith overflowMore).log ++
        emsgObjLog (sampleWith overflowMore).req "readStrmP" { eNum := EOVERFLOW, eMsg := "" }
          "read stream") := by
  have a := C34_overflow_with_eof (sampleWith overflowEOF) false 4
    { sType := StreamType.isPassive, getBuff := [],
      setBuff := [{ dlen := 5, data := [1, 2, 3, 4, 5], last := true, err := none }] }
    { dlen := 5, data := [1, 2, 3, 4, 5], last := true, err := none } []
    (by decide) (by decide) (by decide) (by decide) (by decide) (by decide) (by decide)
    (by decide)
  have b := C34_overflow_with_eof (sampleWith overflowMore) false 4
    { sType := StreamType.isPassive, getBuff := [],
      setBuff := [{ dlen := 5, data := [1, 2, 3, 4, 5], last := false, err := none }] }
    { dlen := 5, data := [1, 2, 3, 4, 5], last := false, err := none } []
    (by decide) (by decide) (by decide) (by decide) (by decide) (by decide) (by decide)
    (by decide)
  rw [if_pos rfl] at a
  rw [if_neg (by decide)] at b
  exact ⟨a, b⟩

theorem heldBlock_copy (l : StrmLoop GetBuffOut) (hb : 0 ≤ l.blen) (hok : heldOK l.w) :
    ∃ k : Nat, (heldBlock l).out.length = l.out.length + k ∧
      (heldBlock l).xlen = l.xlen + (k : Int) ∧ (k : Int) ≤ l.blen ∧ heldOK (heldBlock l).w ∧
      ((heldBlock l).returned = false → (heldBlock l).blen = l.blen - (k : Int)) := by
  unfold heldBlock
  cases hs : l.w.req.strBuff with
  | none =>
    refine ⟨0, by simp, by simp, by simpa using hb, by simp [heldOK, hs], ?_⟩
    intro _; simp
  | some d =>
    simp only [heldOK, hs] at hok
    obtain ⟨h1, h2, h3⟩ := hok
    simp only []
    by_cases hc : l.w.req.respLen > l.blen
    · rw [if_pos hc]
      refine ⟨l.blen.toNat, ?_, ?_, ?_, ?_, ?_⟩
      · simp only [List.length_append, memcpy, List.length_take, List.length_drop]
        omega
      · simp only []; omega
      · omega
      · simp only [heldOK, hs]; omega
      · intro h; simp at h
    · rw [if_neg hc]
      refine ⟨l.w.req.respLen.toNat, ?_, ?_, ?_, ?_, ?_⟩
      · simp only [List.length_append, memcpy, List.length_take, List.length_drop]
        omega
      · simp only []; omega
      · omega
      · simp [heldOK, emit]
      · intro _; simp only []; omega

theorem readStrmA_loop_copy (script : List GetBuffOut) :
    ∀ l : StrmLoop GetBuffOut, l.returned = false → 0 ≤ l.blen → heldOK l.w →
      ∃ k : Nat, (readStrmA_loop script l).out.length = l.out.length + k ∧
        (readStrmA_loop script l).xlen = l.xlen + (k : Int) ∧ (k : Int) ≤ l.blen ∧
        heldOK (readStrmA_loop script l).w := by
  induction script with
  | nil =>
    intro l hret hb hok
    rw [readStrmA_loop]
    obtain ⟨k, c1, c2, c3, c4, c5⟩ := heldBlock_copy l hb hok
    generalize heldBlock l = h at c1 c2 c3 c4 c5 ⊢
    simp only []
    by_cases hr : h.returned = true
    · rw [if_pos hr]; exact ⟨k, c1, c2, c3, c4⟩
    · rw [if_neg hr]
      by_cases hcond : (!h.w.req.strmEOF && h.blen != 0) = true
      · rw [if_pos hcond]
        exact ⟨k, by simpa [getBuffCall] using c1, by simpa [getBuffCall] using c2, c3,
          by simp [heldOK, getBuffCall]⟩
      · rw [if_neg hcond]; exact ⟨k, c1, c2, c3, c4⟩
  | cons a rest ih =>
    intro l hret hb hok
    rw [readStrmA_loop]
    obtain ⟨k, c1, c2, c3, c4, c5⟩ := heldBlock_copy l hb hok
    generalize heldBlock l = h at c1 c2 c3 c4 c5 ⊢
    simp only []
    by_cases hr : h.returned = true
    · rw [if_pos hr]; exact ⟨k, c1, c2, c3, c4⟩
    · rw [if_neg hr]
      have hr' : h.returned = false := by simpa using hr
      by_cases hcond : (!h.w.req.strmEOF && h.blen != 0) = true
      · rw [if_pos hcond]
        by_cases hsome : (getBuffCall h a).w.req.strBuff.isSome = true
        · rw [if_pos hsome]
          have hok2 : heldOK (getBuffCall h a).w := by
            cases hbuf : a.buf <;> simp [heldOK, getBuffCall, hbuf]
          have hb2 : 0 ≤ (getBuffCall h a).blen := by
            have := c5 hr'
            simp only [getBuffCall]; omega
          obtain ⟨k2, d1, d2, d3, d4⟩ := ih (getBuffCall h a)
            (by simpa [getBuffCall] using hr') hb2 hok2
          generalize readStrmA_loop rest (getBuffCall h a) = r at d1 d2 d3 d4 ⊢
          have e1 : (getBuffCall h a).out = h.out := rfl
          have e2 : (getBuffCall h a).xlen = h.xlen := rfl
          have e3 : (getBuffCall h a).blen = h.blen := rfl
          rw [e1] at d1
          rw [e2] at d2
          rw [e3, c5 hr'] at d3
          refine ⟨k + k2, by omega, ?_, ?_, d4⟩
          · push_cast; omega
          · push_cast; omega
        · rw [if_neg hsome]
          refine ⟨k, by simpa [getBuffCall] using c1, by simpa [getBuffCall] using c2, c3, ?_⟩
          have : a.buf = none := by
            cases hbuf : a.buf
            · rfl
            · simp [getBuffCall, hbuf] at hsome
          simp [heldOK, getBuffCall, this]
      · rw [if_neg hcond]; exact ⟨k, c1, c2, c3, c4⟩

/-- C33: take a data response and an active stream, each in `doRsp`, the
first with its cursor inside the view (`0 ≤ respOff`, `0 ≤ respLen`, their sum
the length of the view), the second with its cursor inside the held chunk if one
is held, and a `Read` of `blen ≥ 0` on each. The data `Read` stores at most
`blen` bytes, returns their number, takes them from the view at `respOff`
without passing its end, and keeps the cursor inside the view. The stream
`Read` stores at most `blen` bytes whatever the sizes of the chunks the
producer hands out, returns either `SFS_ERROR` or their number, and keeps the
cursor inside the held chunk; as every copy delivers the count it was asked
for, no copy passes the end of a chunk. -/
theorem C33_read_within_bounds (w1 w2 : World) (done : Bool) (blen : Int) (data : List Byte)
    (strmP : XrdSsiStream) (hb : 0 ≤ blen)
    (d1 : w1.req.myState = reqState.doRsp) (d2 : w1.req.Resp = XrdSsiRespInfo.isData data)
    (d3 : 0 ≤ w1.req.respOff) (d4 : w1.req.respOff + w1.req.respLen = data.length)
    (d5 : 0 ≤ w1.req.respLen)
    (s1 : w2.req.myState = reqState.doRsp) (s2 : w2.req.Resp = XrdSsiRespInfo.isStream strmP)
    (s3 : strmP.sType = StreamType.isActive) (s4 : heldOK w2) :
    (((Read w1 done blen).1.buff.length : Int) ≤ blen ∧
      (Read w1 done blen).1.ret = ((Read w1 done blen).1.buff.length : Int) ∧
      (Read w1 done blen).1.buff =
        (data.drop w1.req.respOff.toNat).take (Read w1 done blen).1.ret.toNat ∧
      w1.req.respOff + (Read w1 done blen).1.ret ≤ data.length ∧
      0 ≤ (Read w1 done blen).2.req.respOff ∧ 0 ≤ (Read w1 done blen).2.req.respLen ∧
      (Read w1 done blen).2.req.respOff + (Read w1 done blen).2.req.respLen = data.length) ∧
    (((Read w2 done blen).1.buff.length : Int) ≤ blen ∧
      ((Read w2 done blen).1.ret = SFS_ERROR ∨
        (Read w2 done blen).1.ret = ((Read w2 done blen).1.buff.length : Int)) ∧
      heldOK (Read w2 done blen).2) := by
  constructor
  · unfold Read
    rw [if_neg (by simp [d1])]
    simp only [d2]
    by_cases h1 : w1.req.respLen ≤ 0
    · rw [if_pos h1]
      simp only [List.length_nil, Int.toNat_zero, List.take_zero, Nat.cast_zero]
      refine ⟨hb, trivial, trivial, by omega, d3, d5, d4⟩
    · rw [if_neg h1]
      have hlen : (data.drop w1.req.respOff.toNat).length = w1.req.respLen.toNat := by
        simp only [List.length_drop]; omega
      by_cases h2 : blen ≥ w1.req.respLen
      · rw [if_pos h2]
        simp only [memcpy]
        refine ⟨?_, ?_, trivial, by omega, d3, d5, d4⟩
        · simp only [List.length_take, hlen]; omega
        · simp only [List.length_take, hlen]; omega
      · rw [if_neg h2]
        simp only [memcpy]
        refine ⟨?_, ?_, trivial, by omega, by omega, by omega, by omega⟩
        · simp only [List.length_take, hlen]; omega
        · simp only [List.length_take, hlen]; omega
  · obtain ⟨k, c1, c2, c3, c4⟩ := readStrmA_loop_copy strmP.getBuff
      { w := w2, blen := blen, xlen := 0, dlen := 0, out := [],
        eObj := { eNum := 0, eMsg := "" }, returned := false, rest := [] } rfl hb s4
    unfold Read
    simp only [s1, ne_eq, not_true_eq_false, if_false, s2, s3, if_true]
    unfold readStrmA
    simp only []
    generalize readStrmA_loop strmP.getBuff _ = r at c1 c2 c3 c4 ⊢
    simp only [List.length_nil, zero_add] at c1 c2 c3
    have hset : heldOK (setGetBuff r.w r.rest) := by
      unfold setGetBuff
      split
      · simpa [heldOK] using c4
      · exact c4
    generalize setGetBuff r.w r.rest = v at hset ⊢
    by_cases hr : r.returned = true
    · rw [if_pos hr]
      exact ⟨by rw [c1]; exact c3, Or.inr (by rw [c2, c1]), hset⟩
    · rw [if_neg hr]
      by_cases he : v.req.strmEOF = true
      · rw [if_pos he]
        exact ⟨by rw [c1]; exact c3, Or.inr (by rw [c2, c1]), by simpa [heldOK] using hset⟩
      · rw [if_neg he]
        by_cases hz : r.blen = 0
        · rw [if_pos hz]
          exact ⟨by rw [c1]; exact c3, Or.inr (by rw [c2, c1]), hset⟩
        · rw [if_neg hz, EmsgObj_eq]
          exact ⟨by rw [c1]; exact c3, Or.inl rfl, by simpa [heldOK] using hset⟩

theorem heldOK_sample :
    heldOK (run (sampleWith sampleStream) [Event.Read 1]) := by
  show (match (run (sampleWith sampleStream) [Event.Read 1]).req.strBuff with
    | none => True
    | some d => 0 ≤ (run (sampleWith sampleStream) [Event.Read 1]).req.respOff ∧
        0 ≤ (run (sampleWith sampleStream) [Event.Read 1]).req.respLen ∧
        (run (sampleWith sampleStream) [Event.Read 1]).req.respOff +
          (run (sampleWith sampleStream) [Event.Read 1]).req.respLen = d.length)
  have h : (run (sampleWith sampleStream) [Event.Read 1]).req.strBuff = some [1, 2, 3] := by
    decide
  rw [h]
  decide

/-- C33, at the sample request: a 3-byte data response read up to offset 1,
then a `Read` of 1; and an active stream holding the chunk [1, 2, 3] read up
to offset 1, then a `Read` of 4. -/
theorem C33_read_within_bounds_witness :
    (((Read (run (sampleWith (XrdSsiRespInfo.isData [1, 2, 3])) [Event.Read 1]) false
          1).1.buff.length : Int) ≤ 1 ∧
      (Read (run (sampleWith (XrdSsiRespInfo.isData [1, 2, 3])) [Event.Read 1]) false 1).1.ret =
        ((Read (run (sampleWith (XrdSsiRespInfo.isData [1, 2, 3])) [Event.Read 1]) false
          1).1.buff.length : Int) ∧
      (Read (run (sampleWith (XrdSsiRespInfo.isData [1, 2, 3])) [Event.Read 1]) false 1).1.buff =
        (([1, 2, 3] : List Byte).drop
          (run (sampleWith (XrdSsiRespInfo.isData [1, 2, 3])) [Event.Read 1]).req.respOff.toNat).take
          (Read (run (sampleWith (XrdSsiRespInfo.isData [1, 2, 3])) [Event.Read 1]) false
            1).1.ret.toNat ∧
      (run (sampleWith (XrdSsiRespInfo.isData [1, 2, 3])) [Event.Read 1]).req.respOff +
        (Read (run (sampleWith (XrdSsiRespInfo.isData [1, 2, 3])) [Event.Read 1]) false 1).1.ret
        ≤ (([1, 2, 3] : List Byte).length : Int) ∧
      0 ≤ (Read (run (sampleWith (XrdSsiRespInfo.isData [1, 2, 3])) [Event.Read 1]) false
        1).2.req.respOff ∧
      0 ≤ (Read (run (sampleWith (XrdSsiRespInfo.isData [1, 2, 3])) [Event.Read 1]) false
        1).2.req.respLen ∧
      (Read (run (sampleWith (XrdSsiRespInfo.isData [1, 2, 3])) [Event.Read 1]) false
        1).2.req.respOff +
        (Read (run (sampleWith (XrdSsiRespInfo.isData [1, 2, 3])) [Event.Read 1]) false
          1).2.req.respLen = (([1, 2, 3] : List Byte).length : Int)) ∧
    (((Read (run (sampleWith sampleStream) [Event.Read 1]) false 1).1.buff.length : Int) ≤ 1 ∧
      ((Read (run (sampleWith sampleStream) [Event.Read 1]) false 1).1.ret = SFS_ERROR ∨
        (Read (run (sampleWith sampleStream) [Event.Read 1]) false 1).1.ret =
          ((Read (run (sampleWith sampleStream) [Event.Read 1]) false 1).1.buff.length : Int)) ∧
      heldOK (Read (run (sampleWith sampleStream) [Event.Read 1]) false 1).2) :=
  C33_read_within_bounds (run (sampleWith (XrdSsiRespInfo.isData [1, 2, 3])) [Event.Read 1])
    (run (sampleWith sampleStream) [Event.Read 1]) false 1 [1, 2, 3]
    { sType := StreamType.isActive
      getBuff := []
      setBuff := [] }
    (by decide) (by decide) (by decide) (by decide) (by decide) (by decide) (by decide)
    (by decide) (by decide) heldOK_sample

end XrdSsiFileReq

namespace XrdPosixXrootPath

/-! ## Theorems about the path mapper -/

theorem strncmp0_rproto (s : List Char) : strncmp0 rproto (rproto ++ s) rprlen = true := by
  simp [strncmp0, rproto, rprlen]

theorem strncmp0_xproto (s : List Char) : strncmp0 xproto (xproto ++ s) xprlen = true := by
  simp [strncmp0, xproto, xprlen]

theorem strncmp0_rx (s : List Char) : strncmp0 rproto (xproto ++ s) rprlen = false := by
  simp [strncmp0, rproto, xproto, rprlen]

theorem index_append (H : List Char) (c : Char) (rest : List Char) (h : c ∉ H) :
    index (H ++ c :: rest) c = some H.length := by
  induction H with
  | nil => simp [index]
  | cons x xs ih =>
    have hx : ¬ x = c := fun e => h (e ▸ List.mem_cons_self _ _)
    have hxs : c ∉ xs := fun m => h (List.mem_cons_of_mem _ m)
    simp [index, hx, ih hxs]

theorem index_none (P : List Char) (c : Char) (h : c ∉ P) : index P c = none := by
  induction P with
  | nil => rfl
  | cons x xs ih =>
    have hx : ¬ x = c := fun e => h (e ▸ List.mem_cons_self _ _)
    have hxs : c ∉ xs := fun m => h (List.mem_cons_of_mem _ m)
    simp [index, hx, ih hxs]

theorem index_cgi (P C : List Char) (h : '?' ∉ P) (hC : C = [] ∨ C.head? = some '?') :
    index ('/' :: P ++ C) '?' = if C = [] then none else some (P.length + 1) := by
  have hP : '?' ∉ '/' :: P := by
    intro m
    rcases List.mem_cons.mp m with e | m
    · exact absurd e (by decide)
    · exact h m
  rcases hC with hC | hC
  · subst hC
    rw [if_pos rfl, List.append_nil]
    exact index_none _ _ hP
  · cases C with
    | nil => simp at hC
    | cons c cs =>
      simp only [List.head?_cons, Option.some.injEq] at hC
      subst hC
      rw [if_neg (by simp)]
      have := index_append ('/' :: P) '?' cs hP
      simpa using this

theorem rootURL_drop_proto (proto H P C : List Char) :
    (rootURL proto H P C).drop proto.length = H ++ '/' :: ('/' :: P ++ C) := by
  simp [rootURL]

theorem rootURL_split (proto H P C : List Char) :
    rootURL proto H P C = (proto ++ H ++ ['/']) ++ ('/' :: P ++ C) := by
  simp [rootURL]

theorem rootURL_drop_host (proto H P C : List Char) :
    (rootURL proto H P C).drop (proto.length + H.length + 1) = '/' :: P ++ C := by
  rw [rootURL_split]
  exact List.drop_left' (by simp; omega)

theorem rootURL_take_host (proto H P C : List Char) :
    (rootURL proto H P C).take (proto.length + H.length + 1) = proto ++ H ++ ['/'] := by
  rw [rootURL_split]
  exact List.take_left' (by simp; omega)

theorem P2L_rootURL (theN2N : Option N2N) (lfnBuff0 : List Char) (mallocOK : Bool) (errno : Int)
    (proto H P C : List Char) (ponly : Bool) (hu : isRootURL proto H P C)
    (hN : theN2N.isSome = true ∨ ponly = true) :
    P2L theN2N lfnBuff0 mallocOK errno (rootURL proto H P C) ponly =
      if 1032 ≤ P.length + 1 then { ret := P2LRet.null, relP := none, errno := ENAMETOOLONG }
      else
        match theN2N with
        | some pfn2lfn =>
          if (pfn2lfn ('/' :: P)).1 ≠ 0 then
            { ret := P2LRet.null, relP := none, errno := (pfn2lfn ('/' :: P)).1 }
          else P2L_assemble mallocOK errno (rootURL proto H P C) ponly
            (proto.length + H.length + 1) C.length C (pfn2lfn ('/' :: P)).2
        | none => P2L_assemble mallocOK errno (rootURL proto H P C) ponly
            (proto.length + H.length + 1) C.length C lfnBuff0 := by
  obtain ⟨hp, hH, hP, hC⟩ := hu
  have h0 : (theN2N.isNone && !ponly) = false := by
    rcases hN with h | h
    · cases theN2N <;> simp at h ⊢
    · simp [h]
  have huo : (if strncmp0 rproto (rootURL proto H P C) rprlen = true then some rprlen
      else if strncmp0 xproto (rootURL proto H P C) xprlen = true then some xprlen
      else none) = some proto.length := by
    rcases hp with h | h
    · subst h
      have : rootURL rproto H P C = rproto ++ (H ++ '/' :: '/' :: P ++ C) := by simp [rootURL]
      rw [this, strncmp0_rproto]; rfl
    · subst h
      have : rootURL xproto H P C = xproto ++ (H ++ '/' :: '/' :: P ++ C) := by simp [rootURL]
      rw [this, strncmp0_rx, strncmp0_xproto]; rfl
  have hidx := index_cgi P C hP hC
  have hquest : (match index ('/' :: P ++ C) '?' with
      | some q => ('/' :: P ++ C).drop q
      | none => []) = C := by
    rw [hidx]
    by_cases hc : C = []
    · simp [hc]
    · rw [if_neg hc]
      simp only []
      have : ('/' :: P ++ C) = ('/' :: P) ++ C := rfl
      rw [this]
      exact List.drop_left' (by simp)
  have hpfn : (match index ('/' :: P ++ C) '?' with
      | some q => q
      | none => ('/' :: P ++ C).length) = P.length + 1 := by
    rw [hidx]
    by_cases hc : C = []
    · simp [hc]
    · rw [if_neg hc]
  have htake : ('/' :: P ++ C).take (P.length + 1) = '/' :: P := by
    have : ('/' :: P ++ C) = ('/' :: P) ++ C := rfl
    rw [this]
    exact List.take_left' (by simp)
  unfold P2L
  simp only [h0, Bool.false_eq_true, if_false, huo, rootURL_drop_proto,
    index_append H '/' _ hH, rootURL_drop_host, List.head?_cons, ne_eq, not_true_eq_false,
    hquest, hpfn, htake, ge_iff_le]
  by_cases hl : 1032 ≤ P.length + 1
  · simp [hl]
  · simp only [if_neg hl]
    cases theN2N <;> rfl

theorem isRootURL_long : isRootURL rproto ['h'] (List.replicate 1031 'a') [] :=
  ⟨Or.inl rfl, by decide,
   fun h => absurd (List.eq_of_mem_replicate h) (by decide), Or.inl rfl⟩

theorem long_length : 1032 ≤ (List.replicate 1031 'a').length + 1 := by
  rw [List.length_replicate]

/-- C27 (counterexample): with no translator installed and `ponly` false, `P2L`
on a root:// URL whose path component has 1032 bytes returns its argument and
leaves `errno` (here 0) as it was. -/
theorem C27_counterexample :
    ('/' :: List.replicate 1031 'a').length = 1032 ∧
    P2L none [] true 0 (rootURL rproto ['h'] (List.replicate 1031 'a') []) false =
      { ret := P2LRet.inP, relP := none, errno := 0 } := by
  constructor
  · rw [List.length_cons, List.length_replicate]
  · rfl

/-- C27 (amended): for a URL of the form root://H//P[?C] or xroot://H//P[?C],
when a translator is installed or `ponly` is true and the path `/P` has 1032
bytes or more, `P2L` returns null with `errno = ENAMETOOLONG`; when the path is
shorter and the translator returns a code other than 0, `P2L` returns null with
`errno` set to that code; in both cases `relP` is null. -/
theorem C27_P2L_fails_clean (theN2N : Option N2N) (pfn2lfn : N2N) (lfnBuff0 : List Char)
    (mallocOK : Bool) (errno : Int) (proto H P C : List Char) (ponly : Bool)
    (proto2 H2 P2 C2 : List Char) (ponly2 : Bool)
    (hu : isRootURL proto H P C) (hN : theN2N.isSome = true ∨ ponly = true)
    (hlong : 1032 ≤ P.length + 1)
    (hu2 : isRootURL proto2 H2 P2 C2) (hshort : P2.length + 1 < 1032)
    (hfail : (pfn2lfn ('/' :: P2)).1 ≠ 0) :
    P2L theN2N lfnBuff0 mallocOK errno (rootURL proto H P C) ponly =
      { ret := P2LRet.null, relP := none, errno := ENAMETOOLONG } ∧
    P2L (some pfn2lfn) lfnBuff0 mallocOK errno (rootURL proto2 H2 P2 C2) ponly2 =
      { ret := P2LRet.null, relP := none, errno := (pfn2lfn ('/' :: P2)).1 } := by
  constructor
  · rw [P2L_rootURL _ _ _ _ _ _ _ _ _ hu hN, if_pos hlong]
  · rw [P2L_rootURL (some pfn2lfn) _ _ _ _ _ _ _ _ hu2 (Or.inl rfl), if_neg (by omega)]
    simp only [if_pos hfail]

/-- C27 (amended), for a path of 1032 bytes with the identity translator, and
for the path "/a" with a translator that fails with code 2. -/
theorem C27_P2L_fails_clean_witness :
    P2L (some idN2N) [] true 0 (rootURL rproto ['h'] (List.replicate 1031 'a') []) false =
      { ret := P2LRet.null, relP := none, errno := ENAMETOOLONG } ∧
    P2L (some failN2N) [] true 0 (rootURL xproto ['h'] ['a'] ['?', 'x']) true =
      { ret := P2LRet.null, relP := none, errno := (failN2N ('/' :: ['a'])).1 } :=
  C27_P2L_fails_clean (some idN2N) failN2N [] true 0 rproto ['h'] (List.replicate 1031 'a') []
    false xproto ['h'] ['a'] ['?', 'x'] true isRootURL_long (Or.inl rfl) long_length
    ⟨Or.inr rfl, by decide, by decide, Or.inr rfl⟩ (by decide) (by decide)

/-- C28 (counterexample): with the identity translator, `P2L` on a root:// URL
whose path component has 1032 bytes returns null, not the input text. -/
theorem C28_counterexample :
    P2L (some idN2N) [] true 0 (rootURL rproto ['h'] (List.replicate 1031 'a') []) false =
      { ret := P2LRet.null, relP := none, errno := ENAMETOOLONG } := by
  rw [P2L_rootURL (some idN2N) _ _ _ _ _ _ _ _ isRootURL_long (Or.inl rfl), if_pos long_length]

/-- C28 (amended): for a URL of the form root://H//P[?C] or xroot://H//P[?C]
whose path `/P` is shorter than 1032 bytes, with a translator that maps `/P` to
`lfn` with code 0 and with storage available, `P2L` with `ponly` false returns
new storage holding the input up to and including the first slash after the
host, then `lfn`, then the text from the question mark on; with `ponly` true it
returns `lfn` alone; with the identity translator and `ponly` false the text
returned equals the input. `errno` is left as it was. -/
theorem C28_P2L_rewrites (pfn2lfn : N2N) (lfn lfnBuff0 : List Char) (errno : Int)
    (proto H P C : List Char) (hu : isRootURL proto H P C) (hshort : P.length + 1 < 1032)
    (hf : pfn2lfn ('/' :: P) = (0, lfn)) :
    P2L (some pfn2lfn) lfnBuff0 true errno (rootURL proto H P C) false =
      { ret := P2LRet.relP, relP := some (proto ++ H ++ ['/'] ++ lfn ++ C), errno := errno } ∧
    P2L (some pfn2lfn) lfnBuff0 true errno (rootURL proto H P C) true =
      { ret := P2LRet.relP, relP := some lfn, errno := errno } ∧
    P2L (some idN2N) lfnBuff0 true errno (rootURL proto H P C) false =
      { ret := P2LRet.relP, relP := some (rootURL proto H P C), errno := errno } := by
  have hne : ¬ proto.length + H.length + 1 = 0 := by omega
  have hC : (if ¬ C.length = 0 then C else []) = C := by
    by_cases h : C = []
    · simp [h]
    · have : ¬ C.length = 0 := by simpa using h
      rw [if_pos this]
  refine ⟨?_, ?_, ?_⟩
  · rw [P2L_rootURL (some pfn2lfn) _ _ _ _ _ _ _ _ hu (Or.inl rfl), if_neg (by omega)]
    simp only [hf, ne_eq, not_true_eq_false, if_false, P2L_assemble, Bool.false_eq_true,
      Bool.not_true, hne, not_false_eq_true, if_true, rootURL_take_host, hC]
  · rw [P2L_rootURL (some pfn2lfn) _ _ _ _ _ _ _ _ hu (Or.inl rfl), if_neg (by omega)]
    simp [hf, P2L_assemble]
  · rw [P2L_rootURL (some idN2N) _ _ _ _ _ _ _ _ hu (Or.inl rfl), if_neg (by omega)]
    simp only [idN2N, ne_eq, not_true_eq_false, if_false, P2L_assemble, Bool.false_eq_true,
      Bool.not_true, hne, not_false_eq_true, if_true, rootURL_take_host, hC]
    simp [rootURL]

/-- C28 (amended), for xroot://h//a?x with a translator that maps every path to
"/b". -/
theorem C28_P2L_rewrites_witness :
    P2L (some constN2N) [] true 0 (rootURL xproto ['h'] ['a'] ['?', 'x']) false =
      { ret := P2LRet.relP,
        relP := some (xproto ++ ['h'] ++ ['/'] ++ ['/', 'b'] ++ ['?', 'x']), errno := 0 } ∧
    P2L (some constN2N) [] true 0 (rootURL xproto ['h'] ['a'] ['?', 'x']) true =
      { ret := P2LRet.relP, relP := some ['/', 'b'], errno := 0 } ∧
    P2L (some idN2N) [] true 0 (rootURL xproto ['h'] ['a'] ['?', 'x']) false =
      { ret := P2LRet.relP, relP := some (rootURL xproto ['h'] ['a'] ['?', 'x']), errno := 0 } :=
  C28_P2L_rewrites constN2N ['/', 'b'] [] 0 xproto ['h'] ['a'] ['?', 'x']
    ⟨Or.inr rfl, by decide, by decide, Or.inr rfl⟩ (by decide) rfl

/-- C29: for a path that starts with "xroot://" and a non-null buffer, `URL`
returns the buffer holding the path without its first character when the
length of the path is at most `blen` (with the terminator that is exactly as
many bytes as the path has characters), and returns null without writing to
the buffer when the path is longer than `blen`; `URL` applied to the text it
stored returns its argument. -/
theorem C29_URL_xroot (xplist : List xpath) (cwdPath : Option (List Char)) (cwdPlen : Int)
    (rest : List Char) (blen : Int) (buff2 : Bool) (blen2 : Int) :
    (if ((xproto ++ rest).length : Int) ≤ blen then
      URL xplist cwdPath cwdPlen (xproto ++ rest) true blen =
        { ret := URLRet.buff, buff := some (rproto ++ rest) } ∧
      (rproto ++ rest).length + 1 = (xproto ++ rest).length ∧
      (xproto ++ rest).drop 1 = rproto ++ rest
     else
      URL xplist cwdPath cwdPlen (xproto ++ rest) true blen =
        { ret := URLRet.null, buff := none }) ∧
    URL xplist cwdPath cwdPlen (rproto ++ rest) buff2 blen2 =
      { ret := URLRet.path, buff := none } := by
  constructor
  · by_cases h : ((xproto ++ rest).length : Int) ≤ blen
    · rw [if_pos h]
      refine ⟨?_, by simp [rproto, xproto], by simp [rproto, xproto]⟩
      unfold URL
      rw [strncmp0_rx, strncmp0_xproto]
      have hn : ¬ ((xproto ++ rest).length : Int) > blen := by omega
      simp only [Bool.false_eq_true, if_false, if_true, Bool.not_true, if_neg hn]
      simp [rproto, xproto]
    · rw [if_neg h]
      unfold URL
      rw [strncmp0_rx, strncmp0_xproto]
      have hn : ((xproto ++ rest).length : Int) > blen := by omega
      simp only [Bool.false_eq_true, if_false, if_true, Bool.not_true, if_pos hn]
  · unfold URL
    rw [strncmp0_rproto]
    rfl

/-- C37: with `ponly` true and no translator installed, `P2L` on a URL of the
form root://H//P[?C] or xroot://H//P[?C] whose path is shorter than 1032 bytes
returns new storage holding the text found in the local array `lfnBuff`, which
nothing has been stored in: the result is that text, whatever the path is. -/
theorem C37_P2L_uninitialised (lfnBuff0 : List Char) (errno : Int) (proto H P C : List Char)
    (hu : isRootURL proto H P C) (hshort : P.length + 1 < 1032) :
    P2L none lfnBuff0 true errno (rootURL proto H P C) true =
      { ret := P2LRet.relP, relP := some lfnBuff0, errno := errno } := by
  rw [P2L_rootURL none _ _ _ _ _ _ _ _ hu (Or.inr rfl), if_neg (by omega)]
  simp [P2L_assemble]

/-- C37, for root://h//a when the array holds "zz": the result is "zz", not the
path "/a". -/
theorem C37_P2L_uninitialised_witness :
    P2L none ['z', 'z'] true 0 (rootURL rproto ['h'] ['a'] []) true =
      { ret := P2LRet.relP, relP := some ['z', 'z'], errno := 0 } :=
  C37_P2L_uninitialised ['z', 'z'] 0 rproto ['h'] ['a'] []
    ⟨Or.inl rfl, by decide, by decide, Or.inl rfl⟩ (by decide)

/-- C38: for a path that is not empty, `CWD` records the path itself when it
ends in a slash, and the path followed by one slash when it does not and is at
most `MAXPATHLEN` long; in both cases `cwdPlen` is the length of the recorded
text. For a longer path that does not end in a slash, `cwdPath` is not
assigned: it keeps the pointer it had, whose storage has been released if it
was not null, while `cwdPlen` becomes the length of the path. -/
theorem C38_CWD (s : CwdState) (path : List Char) (h : path ≠ []) :
    if path.getLast h = '/' then
      CWD s path = { cwdPath := some path, cwdPlen := path.length, freed := false }
    else if path.length ≤ MAXPATHLEN then
      CWD s path =
        { cwdPath := some (path ++ ['/']), cwdPlen := (path ++ ['/']).length, freed := false }
    else
      CWD s path =
        { cwdPath := s.cwdPath, cwdPlen := path.length,
          freed := s.cwdPath.isSome || s.freed } ∧
      (CWD s path).cwdPlen ≠ ((path ++ ['/']).length : Int) ∧
      ((CWD s path).cwdPath = none ∨ (CWD s path).freed = true) := by
  have hl : path.getLast? = some (path.getLast h) := List.getLast?_eq_getLast path h
  by_cases h1 : path.getLast h = '/'
  · rw [if_pos h1]
    simp [CWD, hl, h1]
  · rw [if_neg h1]
    by_cases h2 : path.length ≤ MAXPATHLEN
    · rw [if_pos h2]
      have h2' : (path.length : Int) ≤ (MAXPATHLEN : Int) := by exact_mod_cast h2
      simp [CWD, hl, h1, h2']
    · rw [if_neg h2]
      have h2' : ¬ (path.length : Int) ≤ (MAXPATHLEN : Int) := by
        intro hh; exact h2 (by exact_mod_cast hh)
      have hC : CWD s path =
          { cwdPath := s.cwdPath, cwdPlen := path.length,
            freed := s.cwdPath.isSome || s.freed } := by
        simp [CWD, hl, h1, h2']
      rw [hC]
      refine ⟨rfl, ?_, ?_⟩
      · simp
      · cases hs : s.cwdPath <;> simp

theorem longDir_eq : longDir = List.replicate 4097 'a' := by
  unfold longDir
  rfl

theorem longDir_ne : longDir ≠ [] := by
  intro h
  have := congrArg List.length h
  rw [longDir_eq, List.length_replicate] at this
  exact absurd this (by decide)

theorem longDir_last : ¬ longDir.getLast longDir_ne = '/' := by
  intro h
  have hm : longDir.getLast longDir_ne ∈ longDir := List.getLast_mem longDir_ne
  rw [h] at hm
  have hm2 : '/' ∈ List.replicate 4097 'a' := longDir_eq ▸ hm
  exact absurd (List.eq_of_mem_replicate hm2) (by decide)

theorem longDir_len : ¬ longDir.length ≤ MAXPATHLEN := by
  rw [longDir_eq, List.length_replicate]
  decide

/-- C38, for a directory name of 4097 characters without a slash, after the
working directory had been set to "/old/": `cwdPath` still points at the
released "/old/" and `cwdPlen` is 4097. -/
theorem C38_CWD_witness :
    CWD (CWD { cwdPath := none, cwdPlen := 0, freed := false } ['/', 'o', 'l', 'd', '/']) longDir =
      { cwdPath := (CWD { cwdPath := none, cwdPlen := 0, freed := false }
          ['/', 'o', 'l', 'd', '/']).cwdPath,
        cwdPlen := longDir.length,
        freed := (CWD { cwdPath := none, cwdPlen := 0, freed := false }
            ['/', 'o', 'l', 'd', '/']).cwdPath.isSome ||
          (CWD { cwdPath := none, cwdPlen := 0, freed := false }
            ['/', 'o', 'l', 'd', '/']).freed } ∧
    (CWD (CWD { cwdPath := none, cwdPlen := 0, freed := false } ['/', 'o', 'l', 'd', '/'])
      longDir).cwdPlen ≠ ((longDir ++ ['/']).length : Int) ∧
    ((CWD (CWD { cwdPath := none, cwdPlen := 0, freed := false } ['/', 'o', 'l', 'd', '/'])
        longDir).cwdPath = none ∨
      (CWD (CWD { cwdPath := none, cwdPlen := 0, freed := false } ['/', 'o', 'l', 'd', '/'])
        longDir).freed = true) := by
  have a := C38_CWD
    (CWD { cwdPath := none, cwdPlen := 0, freed := false } ['/', 'o', 'l', 'd', '/'])
    longDir longDir_ne
  rw [if_neg longDir_last, if_neg longDir_len] at a
  exact a

theorem skipSlashes_length (p : List Char) : (skipSlashes p).length ≤ p.length := by
  induction p with
  | nil => simp [skipSlashes]
  | cons c rest ih =>
    rw [skipSlashes]
    split
    · exact Nat.le_succ_of_le ih
    · exact Nat.le_refl _

theorem findPath_mem (path : List Char) (xs : List xpath) (x : xpath)
    (h : findPath path xs = some x) :
    x ∈ xs ∧ strncmp0 path x.path x.plen.toNat = true := by
  induction xs with
  | nil => simp [findPath] at h
  | cons y ys ih =>
    rw [findPath] at h
    by_cases hy : strncmp0 path y.path y.plen.toNat = true
    · rw [if_pos hy] at h
      simp only [Option.some.injEq] at h
      subst h
      exact ⟨List.mem_cons_self _ _, hy⟩
    · rw [if_neg hy] at h
      exact ⟨List.mem_cons_of_mem _ (ih h).1, (ih h).2⟩

theorem strncmp0_length (path p : List Char) (hn : nul ∉ p)
    (h : strncmp0 path p p.length = true) : p.length ≤ path.length := by
  by_contra hlt
  have hlt' : path.length < p.length := Nat.lt_of_not_le hlt
  simp only [strncmp0, beq_iff_eq] at h
  rw [List.take_append_of_le_length (Nat.le_refl _), List.take_length] at h
  have h1 : (path ++ [nul]).take p.length = path ++ [nul] := by
    apply List.take_of_length_le
    simp only [List.length_append, List.length_singleton]
    omega
  rw [h1] at h
  exact hn (h ▸ by simp)

theorem URL_build_fits (xplist : List xpath) (path : List Char) (pathlen : Int) (buff : Bool)
    (blen : Int) (hx : ∀ x ∈ xplist, xpathOK x)
    (hp : pathlen = 0 ∨ (path.length : Int) ≤ pathlen) :
    match (URL_build xplist path pathlen buff blen).buff with
    | none => (URL_build xplist path pathlen buff blen).ret ≠ URLRet.buff
    | some t =>
      (URL_build xplist path pathlen buff blen).ret = URLRet.buff ∧
      (t.length : Int) + 1 < blen ∧
      ∃ x ∈ xplist, ∃ rem : List Char,
        t = rproto ++ x.server ++ ['/'] ++ x.nath.getD [] ++
          (if rem.head? ≠ some '/' then ['/'] else []) ++ rem := by
  unfold URL_build
  simp only []
  cases hf : findPath (skipSlashes path) xplist with
  | none => simp
  | some x =>
    simp only []
    by_cases hb : (!buff) = true
    · rw [if_pos hb]; simp
    · rw [if_neg hb]
      obtain ⟨hmem, hcmp⟩ := findPath_mem _ _ _ hf
      obtain ⟨o1, o2, o3, o4⟩ := hx x hmem
      have hk := skipSlashes_length path
      have hplen : x.plen.toNat = x.path.length := by omega
      rw [hplen] at hcmp
      have hle := strncmp0_length _ _ o3 hcmp
      have hpl : ((skipSlashes path).length : Int) ≤
          (if pathlen = 0 then ((skipSlashes path).length : Int) else pathlen) := by
        by_cases h0 : pathlen = 0
        · rw [if_pos h0]
        · rw [if_neg h0]
          rcases hp with h | h
          · exact absurd h h0
          · omega
      generalize (if pathlen = 0 then ((skipSlashes path).length : Int) else pathlen) = pl at hpl ⊢
      by_cases hfit : (if x.nath.isSome = true then (xprlen : Int) + pl + x.servln + 2 - x.plen + x.nlen
          else (xprlen : Int) + pl + x.servln + 2) ≥ blen
      · rw [if_pos hfit]; simp
      · rw [if_neg hfit]
        simp only []
        refine ⟨trivial, ?_, x, hmem, ?_⟩
        · cases hn : x.nath with
          | none =>
            simp only [hn, Option.isSome_none, Bool.false_eq_true, if_false] at hfit ⊢
            have hx8 : (xprlen : Int) = 8 := rfl
            by_cases hh : (skipSlashes path).head? ≠ some '/'
            · rw [if_pos hh]
              simp only [List.length_append, rproto, List.length_cons, List.length_nil,
                Option.getD_none]
              push_cast
              omega
            · rw [if_neg hh]
              simp only [List.length_append, rproto, List.length_cons, List.length_nil,
                Option.getD_none]
              push_cast
              omega
          | some n =>
            simp only [hn, Option.isSome_some, if_true] at hfit ⊢
            simp only [hn] at o4
            have hx8 : (xprlen : Int) = 8 := rfl
            have hd : ((skipSlashes path).drop x.plen.toNat).length =
                (skipSlashes path).length - x.path.length := by
              rw [List.length_drop, hplen]
            by_cases hh : ((skipSlashes path).drop x.plen.toNat).head? ≠ some '/'
            · rw [if_pos hh]
              simp only [List.length_append, rproto, List.length_cons, List.length_nil,
                Option.getD_some, hd]
              push_cast
              omega
            · rw [if_neg hh]
              simp only [List.length_append, rproto, List.length_cons, List.length_nil,
                Option.getD_some, hd]
              push_cast
              omega
        · refine ⟨if x.nath.isSome = true then (skipSlashes path).drop x.plen.toNat
            else skipSlashes path, ?_⟩
          by_cases hh : (if x.nath.isSome = true then (skipSlashes path).drop x.plen.toNat
              else skipSlashes path).head? ≠ some '/'
          · rw [if_pos hh, if_pos hh]
          · rw [if_neg hh, if_neg hh]
            simp

theorem fits_weaken (X : URLOut) (blen : Int) (c : Prop) (Q : List Char → Prop)
    (h : match X.buff with
      | none => X.ret ≠ URLRet.buff
      | some t => X.ret = URLRet.buff ∧ (t.length : Int) + 1 < blen ∧ Q t) :
    match X.buff with
    | none => X.ret ≠ URLRet.buff
    | some t => X.ret = URLRet.buff ∧ (t.length : Int) + 1 ≤ blen ∧
        (c ∨ ((t.length : Int) + 1 < blen ∧ Q t)) := by
  cases hb : X.buff with
  | none => simpa [hb] using h
  | some t =>
    simp only [hb] at h ⊢
    exact ⟨h.1, by omega, Or.inr ⟨h.2.1, h.2.2⟩⟩

/-- C36: when the recorded lengths of every entry of the mapping list are the
lengths of its strings and `cwdPlen` is not negative, `URL` either leaves the
caller's buffer untouched (and does not return it), or returns it holding a
text that with its terminator takes at most `blen` bytes. Unless the path
starts with "xroot://", that text is "root://", the server, a slash, the
replacement if the entry has one, a slash if what is left of the path does not
start with one, and what is left of the path; with its terminator it takes
fewer than `blen` bytes. -/
theorem C36_URL_fits (xplist : List xpath) (cwdPath : Option (List Char)) (cwdPlen : Int)
    (path : List Char) (buff : Bool) (blen : Int) (hx : ∀ x ∈ xplist, xpathOK x)
    (hc : 0 ≤ cwdPlen) :
    match (URL xplist cwdPath cwdPlen path buff blen).buff with
    | none => (URL xplist cwdPath cwdPlen path buff blen).ret ≠ URLRet.buff
    | some t =>
      (URL xplist cwdPath cwdPlen path buff blen).ret = URLRet.buff ∧
      (t.length : Int) + 1 ≤ blen ∧
      (strncmp0 xproto path xprlen = true ∨
        ((t.length : Int) + 1 < blen ∧
          ∃ x ∈ xplist, ∃ rem : List Char,
            t = rproto ++ x.server ++ ['/'] ++ x.nath.getD [] ++
              (if rem.head? ≠ some '/' then ['/'] else []) ++ rem)) := by
  by_cases hr : strncmp0 rproto path rprlen = true
  · have hU : URL xplist cwdPath cwdPlen path buff blen = { ret := URLRet.path, buff := none } := by
      simp [URL, hr]
    rw [hU]
    simp
  · by_cases hxr : strncmp0 xproto path xprlen = true
    · have hlen : xproto.length ≤ path.length :=
        strncmp0_length path xproto (by decide) (by
          have : strncmp0 path xproto xproto.length = true := by
            simp only [strncmp0, beq_iff_eq] at hxr ⊢
            exact hxr.symm
          exact this)
      have h8 : xproto.length = 8 := rfl
      by_cases hb : (!buff) = true
      · have hU : URL xplist cwdPath cwdPlen path buff blen =
            { ret := URLRet.one, buff := none } := by
          simp only [URL, hr, hxr, hb, Bool.false_eq_true, if_false, if_true]
        rw [hU]
        simp
      · by_cases hl : (path.length : Int) > blen
        · have hU : URL xplist cwdPath cwdPlen path buff blen =
              { ret := URLRet.null, buff := none } := by
            simp only [URL, hr, hxr, hb, hl, Bool.false_eq_true, if_false, if_true]
          rw [hU]
          simp
        · have hU : URL xplist cwdPath cwdPlen path buff blen =
              { ret := URLRet.buff, buff := some (path.drop 1) } := by
            simp only [URL, hr, hxr, hb, hl, Bool.false_eq_true, if_false, if_true]
          rw [hU]
          simp only []
          refine ⟨trivial, ?_, Or.inl hxr⟩
          rw [List.length_drop]
          omega
    · have hmain : ∀ (p : List Char) (pl : Int), (pl = 0 ∨ (p.length : Int) ≤ pl) →
          match (URL_build xplist p pl buff blen).buff with
          | none => (URL_build xplist p pl buff blen).ret ≠ URLRet.buff
          | some t => (URL_build xplist p pl buff blen).ret = URLRet.buff ∧
              (t.length : Int) + 1 ≤ blen ∧
              (strncmp0 xproto path xprlen = true ∨
                ((t.length : Int) + 1 < blen ∧
                  ∃ x ∈ xplist, ∃ rem : List Char,
                    t = rproto ++ x.server ++ ['/'] ++ x.nath.getD [] ++
                      (if rem.head? ≠ some '/' then ['/'] else []) ++ rem)) := by
        intro p pl hp
        exact fits_weaken _ blen _ _ (URL_build_fits xplist p pl buff blen hx hp)
      cases cwdPath with
      | none =>
        have hU : URL xplist none cwdPlen path buff blen = URL_build xplist path 0 buff blen := by
          simp only [URL, hr, hxr, Bool.false_eq_true, if_false]
        rw [hU]
        exact hmain path 0 (Or.inl rfl)
      | some cwd =>
        by_cases hrel : path.head? = some '.' ∧ (path.drop 1).head? = some '/'
        · by_cases hsz : (path.length : Int) + cwdPlen - 2 < 2048
          · have hU : URL xplist (some cwd) cwdPlen path buff blen =
                URL_build xplist
                  (if cwdPlen.toNat ≤ cwd.length then cwd.take cwdPlen.toNat ++ path.drop 2
                   else cwd)
                  ((path.length : Int) + cwdPlen - 2) buff blen := by
              simp only [URL, hr, hxr, Bool.false_eq_true, if_false, hrel, and_self, if_true, hsz]
            rw [hU]
            apply hmain
            right
            have h2 : 2 ≤ path.length := by
              obtain ⟨ha, hb⟩ := hrel
              cases path with
              | nil => simp at ha
              | cons a rest =>
                cases rest with
                | nil => simp at hb
                | cons b rest2 => simp
            by_cases hle : cwdPlen.toNat ≤ cwd.length
            · rw [if_pos hle]
              simp only [List.length_append, List.length_take, List.length_drop]
              omega
            · rw [if_neg hle]
              omega
          · have hU : URL xplist (some cwd) cwdPlen path buff blen =
                { ret := URLRet.null, buff := none } := by
              simp only [URL, hr, hxr, Bool.false_eq_true, if_false, hrel, and_self, if_true, hsz]
            rw [hU]
            simp
        · have hU : URL xplist (some cwd) cwdPlen path buff blen =
              URL_build xplist path 0 buff blen := by
            simp only [URL, hr, hxr, Bool.false_eq_true, if_false, hrel]
          rw [hU]
          exact hmain path 0 (Or.inl rfl)

theorem sampleList_ok : ∀ x ∈ sampleList, xpathOK x := by
  intro x hx
  simp only [sampleList, List.mem_singleton] at hx
  subst hx
  exact ⟨rfl, rfl, by decide, rfl⟩

/-- C36, for the path "/a/x" and the entry (server "s", path "/a", replacement
"/b"): with room for 20 bytes the buffer gets "root://s//b/x", 14 bytes with
the terminator; with room for 15 bytes `URL` returns null and the buffer is
untouched. -/
theorem C36_URL_fits_witness :
    URL sampleList none 0 ['/', 'a', '/', 'x'] true 20 =
      { ret := URLRet.buff,
        buff := some (rproto ++ ['s'] ++ ['/'] ++ ['/', 'b'] ++ ['/', 'x']) } ∧
    (match (URL sampleList none 0 ['/', 'a', '/', 'x'] true 20).buff with
      | none => (URL sampleList none 0 ['/', 'a', '/', 'x'] true 20).ret ≠ URLRet.buff
      | some t =>
        (URL sampleList none 0 ['/', 'a', '/', 'x'] true 20).ret = URLRet.buff ∧
        (t.length : Int) + 1 ≤ 20 ∧
        (strncmp0 xproto ['/', 'a', '/', 'x'] xprlen = true ∨
          ((t.length : Int) + 1 < 20 ∧
            ∃ x ∈ sampleList, ∃ rem : List Char,
              t = rproto ++ x.server ++ ['/'] ++ x.nath.getD [] ++
                (if rem.head? ≠ some '/' then ['/'] else []) ++ rem))) ∧
    URL sampleList none 0 ['/', 'a', '/', 'x'] true 15 = { ret := URLRet.null, buff := none } ∧
    (match (URL sampleList none 0 ['/', 'a', '/', 'x'] true 15).buff with
      | none => (URL sampleList none 0 ['/', 'a', '/', 'x'] true 15).ret ≠ URLRet.buff
      | some t =>
        (URL sampleList none 0 ['/', 'a', '/', 'x'] true 15).ret = URLRet.buff ∧
        (t.length : Int) + 1 ≤ 15 ∧
        (strncmp0 xproto ['/', 'a', '/', 'x'] xprlen = true ∨
          ((t.length : Int) + 1 < 15 ∧
            ∃ x ∈ sampleList, ∃ rem : List Char,
              t = rproto ++ x.server ++ ['/'] ++ x.nath.getD [] ++
                (if rem.head? ≠ some '/' then ['/'] else []) ++ rem))) :=
  ⟨by decide,
   C36_URL_fits sampleList none 0 ['/', 'a', '/', 'x'] true 20 sampleList_ok (by decide),
   by decide,
   C36_URL_fits sampleList none 0 ['/', 'a', '/', 'x'] true 15 sampleList_ok (by decide)⟩

end XrdPosixXrootPath
